import Mathlib

/-!
openMSX: slot bus, switched-device mux, Yamaha FDC decode layer and National ROM

A shallow embedding of `MSXMotherBoard.cc`, `MSXDeviceSwitch.cc`,
`fdc/YamahaFDC.cc` and `memory/RomNational.cc`.

Conventions of the embedding

* `byte`, `word` and `EmuTime` values are natural numbers; C operators `&`, `|`,
  `^`, `>>` are `&&&`, `|||`, `^^^`, `>>>` on `Nat`.
* A C array `T a[n]` is a function `Nat → T`; an assignment `a[i] = v` is
  `Function.update a i v`.
* A device pointer is a `DevicePtr`; the state of all the device objects behind
  the pointers is one value `w : σ` (the "device world"), and a virtual call
  `p->m(args)` is the function `m` of a `Devices σ` record applied to `p`,
  the arguments and `w`.  Device methods act on the device world only.
* A method that can hit `assert` returns `Option`; a method that can `throw`
  returns an `Except` next to the state it leaves behind.
-/

set_option autoImplicit false

abbrev byte := Nat
abbrev word := Nat
abbrev EmuTime := Nat

/-- A pointer to a device object: either the shared `DummyDevice::instance()` or
one of the real device objects, told apart by their identity. -/
inductive DevicePtr where
  | dummy : DevicePtr
  | dev (id : Nat) : DevicePtr
  deriving DecidableEq, Repr

/-- The pointer `DummyDevice::instance()`. -/
def DummyDevice.instance : DevicePtr := DevicePtr.dummy

/-- Modelled from the spec: `DummyDevice.cc` is not among the sources; the spec
says of the floating bus "deterministic fallback (0xFF reads, discarded
writes)", so a memory read of the dummy device returns 0xFF and changes
nothing. -/
def DummyDevice.readMem {σ : Type} (_address : word) (_time : EmuTime) (w : σ) : byte × σ :=
  (0xFF, w)

/-- Modelled from the spec: `DummyDevice.cc` is not among the sources; the spec
says of the floating bus "deterministic fallback (0xFF reads, discarded
writes)", so a memory write to the dummy device is discarded. -/
def DummyDevice.writeMem {σ : Type} (_address : word) (_value : byte) (_time : EmuTime) (w : σ) : σ :=
  w

/-- Modelled from the spec: `DummyDevice.cc` is not among the sources; "an
unclaimed port reads as a fixed floating-bus value (0xFF)". -/
def DummyDevice.readIO {σ : Type} (_port : byte) (_time : EmuTime) (w : σ) : byte × σ :=
  (0xFF, w)

/-- Modelled from the spec: `DummyDevice.cc` is not among the sources; an
unclaimed port "discards writes". -/
def DummyDevice.writeIO {σ : Type} (_port : byte) (_value : byte) (_time : EmuTime) (w : σ) : σ :=
  w

/-- Modelled from the spec: `DummyDevice.cc` is not among the sources; a reset of
the "no device" sentinel has nothing to reset. -/
def DummyDevice.reset {σ : Type} (_time : EmuTime) (w : σ) : σ :=
  w

/-- The virtual methods of the real device objects, as functions on the device
world `σ`; the first argument is the identity of the object called. -/
structure Devices (σ : Type) where
  readMem : Nat → word → EmuTime → σ → byte × σ
  writeMem : Nat → word → byte → EmuTime → σ → σ
  readIO : Nat → byte → EmuTime → σ → byte × σ
  writeIO : Nat → byte → byte → EmuTime → σ → σ
  reset : Nat → EmuTime → σ → σ

namespace DevicePtr

variable {σ : Type}

/-- The call `p->readMem(address, time)`. -/
def readMem (D : Devices σ) : DevicePtr → word → EmuTime → σ → byte × σ
  | dummy, address, time, w => DummyDevice.readMem address time w
  | dev id, address, time, w => D.readMem id address time w

/-- The call `p->writeMem(address, value, time)`. -/
def writeMem (D : Devices σ) : DevicePtr → word → byte → EmuTime → σ → σ
  | dummy, address, value, time, w => DummyDevice.writeMem address value time w
  | dev id, address, value, time, w => D.writeMem id address value time w

/-- The call `p->readIO(port, time)`. -/
def readIO (D : Devices σ) : DevicePtr → byte → EmuTime → σ → byte × σ
  | dummy, port, time, w => DummyDevice.readIO port time w
  | dev id, port, time, w => D.readIO id port time w

/-- The call `p->writeIO(port, value, time)`. -/
def writeIO (D : Devices σ) : DevicePtr → byte → byte → EmuTime → σ → σ
  | dummy, port, value, time, w => DummyDevice.writeIO port value time w
  | dev id, port, value, time, w => D.writeIO id port value time w

/-- The call `p->reset(time)`. -/
def reset (D : Devices σ) : DevicePtr → EmuTime → σ → σ
  | dummy, time, w => DummyDevice.reset time w
  | dev id, time, w => D.reset id time w

end DevicePtr

/-- Modelled from the spec: the macro `PRT_ERROR` is defined outside the sources;
the spec describes a conflicting registration as "new device rejected, prior
owner retained, diagnostic surfaced (not fatal)", so the macro prints and leaves
the machine state as it is. -/
def PRT_ERROR {α : Type} (s : α) : α := s

/-- The data members of `MSXMotherBoard` that the methods of `MSXMotherBoard.cc`
use.  The counter `IRQLine` is declared in a header that is not among the
sources; it is an unbounded integer here. -/
structure MSXMotherBoard where
  IO_In : Nat → DevicePtr
  IO_Out : Nat → DevicePtr
  isSubSlotted : Nat → Bool
  SlotLayout : Nat → Nat → Nat → DevicePtr
  availableDevices : List DevicePtr
  A8_Register : byte
  SubSlot_Register : Nat → byte
  PrimarySlotState : Nat → Nat
  SecondarySlotState : Nat → Nat
  visibleDevices : Nat → DevicePtr
  IRQLine : Int

namespace MSXMotherBoard

/-- The constructor `MSXMotherBoard::MSXMotherBoard()`: it fills the two port
tables, the subslot flags and the slot layout; every other member keeps the
indeterminate value `raw` it had before, and the device vector starts empty. -/
def ctor (raw : MSXMotherBoard) : MSXMotherBoard :=
  { raw with
    IO_In := fun _ => DummyDevice.instance
    IO_Out := fun _ => DummyDevice.instance
    isSubSlotted := fun _ => false
    SlotLayout := fun _ _ _ => DummyDevice.instance
    availableDevices := [] }

/-- `register_IO_In(port, device)`. -/
def register_IO_In (s : MSXMotherBoard) (port : byte) (device : DevicePtr) : MSXMotherBoard :=
  if s.IO_In port = DummyDevice.instance then
    { s with IO_In := Function.update s.IO_In port device }
  else
    PRT_ERROR s

/-- `register_IO_Out(port, device)`. -/
def register_IO_Out (s : MSXMotherBoard) (port : byte) (device : DevicePtr) : MSXMotherBoard :=
  if s.IO_Out port = DummyDevice.instance then
    { s with IO_Out := Function.update s.IO_Out port device }
  else
    PRT_ERROR s

/-- `addDevice(device)`. -/
def addDevice (s : MSXMotherBoard) (device : DevicePtr) : MSXMotherBoard :=
  { s with availableDevices := s.availableDevices ++ [device] }

/-- `registerSlottedDevice(device, primSl, secSl, page)`. -/
def registerSlottedDevice (s : MSXMotherBoard) (device : DevicePtr) (primSl secSl page : Nat) :
    MSXMotherBoard :=
  if s.SlotLayout primSl secSl page = DummyDevice.instance then
    let row := Function.update (s.SlotLayout primSl secSl) page device
    let plane := Function.update (s.SlotLayout primSl) secSl row
    { s with SlotLayout := Function.update s.SlotLayout primSl plane }
  else
    PRT_ERROR s

/-- The body of the loop of `set_A8_Register` for page `j`, `value` being the
loop's shifted copy of the written byte: three assignments, each reading the
arrays as the one before left them. -/
def set_A8_Register.body (s : MSXMotherBoard) (j : Nat) (value : byte) : MSXMotherBoard :=
  let s1 := { s with PrimarySlotState := Function.update s.PrimarySlotState j (value &&& 3) }
  let sec := 3 &&& (s1.SubSlot_Register (value &&& 3) >>> (j * 2))
  let s2 := { s1 with SecondarySlotState := Function.update s1.SecondarySlotState j sec }
  let visible := s2.SlotLayout (s2.PrimarySlotState j) (s2.SecondarySlotState j) j
  { s2 with visibleDevices := Function.update s2.visibleDevices j visible }

/-- The loop `for (int j=0; j<=3; j++, value>>=2)` of `set_A8_Register`, with `n`
iterations left to run. -/
def set_A8_Register.loop : Nat → MSXMotherBoard → Nat → byte → MSXMotherBoard
  | 0, s, _, _ => s
  | n + 1, s, j, value => set_A8_Register.loop n (set_A8_Register.body s j value) (j + 1) (value >>> 2)

/-- `set_A8_Register(value)`. -/
def set_A8_Register (s : MSXMotherBoard) (value : byte) : MSXMotherBoard :=
  set_A8_Register.loop 4 { s with A8_Register := value } 0 value

/-- The body of the loop of `writeMem` at 0xFFFF for page `i`. -/
def writeMem.body (s : MSXMotherBoard) (CurrentSSRegister i : Nat) (value : byte) : MSXMotherBoard :=
  if CurrentSSRegister = s.PrimarySlotState i then
    let s1 := { s with SecondarySlotState := Function.update s.SecondarySlotState i (value &&& 3) }
    let visible := s1.SlotLayout (s1.PrimarySlotState i) (s1.SecondarySlotState i) i
    { s1 with visibleDevices := Function.update s1.visibleDevices i visible }
  else
    s

/-- The loop `for (int i=0; i<4; i++, value>>=2)` of `writeMem`, with `n`
iterations left to run. -/
def writeMem.loop : Nat → MSXMotherBoard → Nat → Nat → byte → MSXMotherBoard
  | 0, s, _, _, _ => s
  | n + 1, s, CurrentSSRegister, i, value =>
      writeMem.loop n (writeMem.body s CurrentSSRegister i value) CurrentSSRegister (i + 1) (value >>> 2)

variable {σ : Type}

/-- `readMem(address, time)`: the byte read, the bus and the device world after
the call. -/
def readMem (D : Devices σ) (s : MSXMotherBoard) (w : σ) (address : word) (time : EmuTime) :
    byte × MSXMotherBoard × σ :=
  let CurrentSSRegister := (s.A8_Register >>> 6) &&& 3
  if address = 0xFFFF ∧ s.isSubSlotted CurrentSSRegister = true then
    (255 ^^^ s.SubSlot_Register CurrentSSRegister, s, w)
  else
    let r := DevicePtr.readMem D (s.visibleDevices (address >>> 14)) address time w
    (r.1, s, r.2)

/-- `writeMem(address, value, time)`: the bus and the device world after the
call. -/
def writeMem (D : Devices σ) (s : MSXMotherBoard) (w : σ) (address : word) (value : byte)
    (time : EmuTime) : MSXMotherBoard × σ :=
  let CurrentSSRegister := (s.A8_Register >>> 6) &&& 3
  if address = 0xFFFF ∧ s.isSubSlotted CurrentSSRegister = true then
    let s1 := { s with SubSlot_Register := Function.update s.SubSlot_Register CurrentSSRegister value }
    (writeMem.loop 4 s1 CurrentSSRegister 0 value, w)
  else
    (s, DevicePtr.writeMem D (s.visibleDevices (address >>> 14)) address value time w)

/-- `readIO(prt, time)`. -/
def readIO (D : Devices σ) (s : MSXMotherBoard) (w : σ) (prt : word) (time : EmuTime) :
    byte × MSXMotherBoard × σ :=
  let port := prt % 256
  let r := DevicePtr.readIO D (s.IO_In port) port time w
  (r.1, s, r.2)

/-- `writeIO(prt, value, time)`. -/
def writeIO (D : Devices σ) (s : MSXMotherBoard) (w : σ) (prt : word) (value : byte)
    (time : EmuTime) : MSXMotherBoard × σ :=
  let port := prt % 256
  (s, DevicePtr.writeIO D (s.IO_Out port) port value time w)

/-- `IRQStatus()`: the cast `(bool)IRQLine`. -/
def IRQStatus (s : MSXMotherBoard) : Bool :=
  decide (s.IRQLine ≠ 0)

/-- `raiseIRQ()`. -/
def raiseIRQ (s : MSXMotherBoard) : MSXMotherBoard :=
  { s with IRQLine := s.IRQLine + 1 }

/-- `lowerIRQ()`; `none` is the failed `assert (IRQLine != 0)`. -/
def lowerIRQ (s : MSXMotherBoard) : Option MSXMotherBoard :=
  if s.IRQLine ≠ 0 then some { s with IRQLine := s.IRQLine - 1 } else none

/-- The mapping invariant of the spec:
`visibleDevices[page] == SlotLayout[PrimarySlotState[page]][SecondarySlotState[page]][page]`
for each of the four pages. -/
def MappingInvariant (s : MSXMotherBoard) : Prop :=
  ∀ page, page < 4 →
    s.visibleDevices page = s.SlotLayout (s.PrimarySlotState page) (s.SecondarySlotState page) page

instance (s : MSXMotherBoard) : Decidable (MappingInvariant s) := by
  unfold MappingInvariant; infer_instance

end MSXMotherBoard

/-- A write to one of the two select registers: `set_A8_Register(value)` or
`writeMem(0xFFFF, value, time)`. -/
inductive SelectWrite where
  | primary (value : byte) : SelectWrite
  | secondary (value : byte) (time : EmuTime) : SelectWrite

namespace SelectWrite

variable {σ : Type}

/-- The effect of one select-register write on the bus and the device world. -/
def apply (D : Devices σ) : SelectWrite → MSXMotherBoard × σ → MSXMotherBoard × σ
  | primary value, st => (st.1.set_A8_Register value, st.2)
  | secondary value time, st => MSXMotherBoard.writeMem D st.1 st.2 0xFFFF value time

/-- The states the machine is in immediately after each write of a sequence, in
order. -/
def statesAfter (D : Devices σ) : List SelectWrite → MSXMotherBoard × σ → List (MSXMotherBoard × σ)
  | [], _ => []
  | op :: ops, st => op.apply D st :: statesAfter D ops (op.apply D st)

/-- The sequence begins with a write to the primary select register. -/
def startsWithPrimary : List SelectWrite → Prop
  | primary _ :: _ => True
  | _ => False

end SelectWrite

/-- A device world without device objects: every method of `noDevices` leaves
the one state `()` as it is and reads 0. -/
def noDevices : Devices Unit where
  readMem := fun _ _ _ w => (0, w)
  writeMem := fun _ _ _ _ w => w
  readIO := fun _ _ _ w => (0, w)
  writeIO := fun _ _ _ _ w => w
  reset := fun _ _ w => w

/-- A machine as the constructor leaves it, the members the constructor does not
set being zero. -/
def MSXMotherBoard.zero : MSXMotherBoard :=
  MSXMotherBoard.ctor
    { IO_In := fun _ => DevicePtr.dummy
      IO_Out := fun _ => DevicePtr.dummy
      isSubSlotted := fun _ => false
      SlotLayout := fun _ _ _ => DevicePtr.dummy
      availableDevices := []
      A8_Register := 0
      SubSlot_Register := fun _ => 0
      PrimarySlotState := fun _ => 0
      SecondarySlotState := fun _ => 0
      visibleDevices := fun _ => DevicePtr.dummy
      IRQLine := 0 }

/-- A machine whose primary slot 0 is subslotted (as `InitMSX` sets it from the
configuration), that selected primary slot 1 for page 0 and slot 0 for the other
pages, and where device 7 then registered at slot 1, subslot 0, page 0. -/
def MSXMotherBoard.staleBoard : MSXMotherBoard :=
  ({ MSXMotherBoard.zero with isSubSlotted := fun i => decide (i = 0) }.set_A8_Register 1).registerSlottedDevice
    (DevicePtr.dev 7) 1 0 0


/-- A machine without any registered device whose primary slot 0 is subslotted,
after `set_A8_Register(0)` and the write of 0x55 to its secondary select
register: page 3 shows primary slot 0, subslot 1. -/
def MSXMotherBoard.emptyBoard : MSXMotherBoard :=
  (MSXMotherBoard.writeMem noDevices
    ({ MSXMotherBoard.zero with isSubSlotted := fun i => decide (i = 0) }.set_A8_Register 0) ()
    0xFFFF 0x55 0).1

/-- One of the two operations on the interrupt line. -/
inductive IRQOp where
  | raise : IRQOp
  | lower : IRQOp
  deriving DecidableEq, Repr

/-- Runs `raiseIRQ()` and `lowerIRQ()` calls in order; `none` as soon as a
`lowerIRQ()` hits its assertion. -/
def IRQOp.run : List IRQOp → MSXMotherBoard → Option MSXMotherBoard
  | [], s => some s
  | IRQOp.raise :: ops, s => IRQOp.run ops s.raiseIRQ
  | IRQOp.lower :: ops, s =>
      match s.lowerIRQ with
      | some s' => IRQOp.run ops s'
      | none => none

/-- A recording device world: the state is the list of the `readIO` calls made so
far, each as the pair of the device called and the port passed; a read returns
the device's identity. -/
def readRecorder : Devices (List (Nat × byte)) where
  readMem := fun _ _ _ w => (0, w)
  writeMem := fun _ _ _ _ w => w
  readIO := fun id port _ w => (id, w ++ [(id, port)])
  writeIO := fun _ _ _ _ w => w
  reset := fun _ _ w => w

/-- The virtual methods of the switched sub-device objects (`MSXSwitchedDevice`),
as functions on the world `σ` of their states; the first argument is the
identity of the object called.  `peekIO` is a `const` method. -/
structure SwitchedDevices (σ : Type) where
  readIO : Nat → word → EmuTime → σ → byte × σ
  peekIO : Nat → word → EmuTime → σ → byte
  writeIO : Nat → word → byte → EmuTime → σ → σ

/-- The exception object `MSXException(message)`. -/
structure MSXException where
  message : String
  deriving DecidableEq, Repr

/-- A call the switch makes on the CPU interface of its motherboard; `device` is
the `this` pointer it passes. -/
inductive BusCall where
  | register_IO_In (port : byte) (device : DevicePtr) : BusCall
  | register_IO_Out (port : byte) (device : DevicePtr) : BusCall
  | unregister_IO_In (port : byte) (device : DevicePtr) : BusCall
  | unregister_IO_Out (port : byte) (device : DevicePtr) : BusCall
  deriving DecidableEq, Repr

/-- The data members of `MSXDeviceSwitch`; a NULL entry of `devices` is `none`.
The type of `count` is declared in a header that is not among the sources; it is
an unbounded integer here (the code only steps it by one and compares it with
0). -/
structure MSXDeviceSwitch where
  devices : Nat → Option Nat
  count : Int
  selected : byte

namespace MSXDeviceSwitch

/-- The constructor `MSXDeviceSwitch::MSXDeviceSwitch`. -/
def ctor : MSXDeviceSwitch :=
  { devices := fun _ => none, count := 0, selected := 0 }

/-- The loop `for (byte port = 0x40; port < 0x50; ++port)` of `registerDevice`,
with `n` iterations left to run: the calls it makes, in order. -/
def registerDevice.loop : Nat → byte → DevicePtr → List BusCall
  | 0, _, _ => []
  | n + 1, port, this =>
      BusCall.register_IO_In port this :: BusCall.register_IO_Out port this ::
        registerDevice.loop n (port + 1) this

/-- `registerDevice(id, device)` on the switch object `this`: whether it returned
or threw, the switch it leaves behind, and the calls it made on the CPU
interface. -/
def registerDevice (sw : MSXDeviceSwitch) (this : DevicePtr) (id : byte) (device : Option Nat) :
    Except MSXException Unit × MSXDeviceSwitch × List BusCall :=
  if (sw.devices id).isSome then
    (Except.error ⟨"Already have a switched device with id " ++ toString id⟩, sw, [])
  else
    let sw1 := { sw with devices := Function.update sw.devices id device }
    let calls := if sw1.count = 0 then registerDevice.loop 16 0x40 this else []
    (Except.ok (), { sw1 with count := sw1.count + 1 }, calls)

/-- The loop `for (byte port = 0x40; port < 0x50; ++port)` of `unregisterDevice`,
with `n` iterations left to run: the calls it makes, in order. -/
def unregisterDevice.loop : Nat → byte → DevicePtr → List BusCall
  | 0, _, _ => []
  | n + 1, port, this =>
      BusCall.unregister_IO_Out port this :: BusCall.unregister_IO_In port this ::
        unregisterDevice.loop n (port + 1) this

/-- `unregisterDevice(id)` on the switch object `this`: the switch it leaves
behind and the calls it made on the CPU interface; `none` is the failed
`assert(devices[id] != NULL)`. -/
def unregisterDevice (sw : MSXDeviceSwitch) (this : DevicePtr) (id : byte) :
    Option (MSXDeviceSwitch × List BusCall) :=
  let sw1 := { sw with count := sw.count - 1 }
  let calls := if sw1.count = 0 then unregisterDevice.loop 16 0x40 this else []
  if (sw1.devices id).isSome then
    some ({ sw1 with devices := Function.update sw1.devices id none }, calls)
  else
    none

/-- `reset(time)`. -/
def reset (sw : MSXDeviceSwitch) (_time : EmuTime) : MSXDeviceSwitch :=
  { sw with selected := 0 }

variable {σ : Type}

/-- `readIO(port, time)`. -/
def readIO (W : SwitchedDevices σ) (sw : MSXDeviceSwitch) (w : σ) (port : word) (time : EmuTime) :
    byte × MSXDeviceSwitch × σ :=
  match sw.devices sw.selected with
  | some d =>
      let r := W.readIO d port time w
      (r.1, sw, r.2)
  | none => (0xFF, sw, w)

/-- `peekIO(port, time)`, a `const` method. -/
def peekIO (W : SwitchedDevices σ) (sw : MSXDeviceSwitch) (w : σ) (port : word) (time : EmuTime) :
    byte :=
  match sw.devices sw.selected with
  | some d => W.peekIO d port time w
  | none => 0xFF

/-- `writeIO(port, value, time)`. -/
def writeIO (W : SwitchedDevices σ) (sw : MSXDeviceSwitch) (w : σ) (port : word) (value : byte)
    (time : EmuTime) : MSXDeviceSwitch × σ :=
  let port := port &&& 0x0F
  if port = 0x00 then
    ({ sw with selected := value }, w)
  else
    match sw.devices sw.selected with
    | some d => (sw, W.writeIO d port value time w)
    | none => (sw, w)

/-- The ids below 256 at which a sub-device is registered. -/
def registeredIds (sw : MSXDeviceSwitch) : List Nat :=
  (List.range 256).filter fun i => (sw.devices i).isSome

/-- The counter agrees with the table: `count` is the number of non-NULL entries
of `devices`. -/
def CountInvariant (sw : MSXDeviceSwitch) : Prop :=
  sw.count = (sw.registeredIds.length : Int)

instance (sw : MSXDeviceSwitch) : Decidable (CountInvariant sw) := by
  unfold CountInvariant; infer_instance

end MSXDeviceSwitch

/-- A recording world of switched sub-devices: the state is the list of the
`writeIO` calls made so far, each with the device called, the port, the value
and the time passed. -/
def writeRecorder : SwitchedDevices (List (Nat × word × byte × EmuTime)) where
  readIO := fun _ _ _ w => (0, w)
  peekIO := fun _ _ _ _ => 0
  writeIO := fun d port value time w => w ++ [(d, port, value, time)]

/-- A switch with sub-device 50 registered at id 5 and sub-device 90 at id 9, as
two `registerDevice` calls on a new switch leave it. -/
def MSXDeviceSwitch.twoDevices : MSXDeviceSwitch :=
  ((MSXDeviceSwitch.ctor.registerDevice (DevicePtr.dev 1) 5 (some 50)).2.1.registerDevice
    (DevicePtr.dev 1) 9 (some 90)).2.1

/-- A switch with the one sub-device 50, registered at id 5 of a new switch. -/
def MSXDeviceSwitch.oneDevice : MSXDeviceSwitch :=
  (MSXDeviceSwitch.ctor.registerDevice (DevicePtr.dev 1) 5 (some 50)).2.1

/-- Modelled from the spec: `unregister_IO_In` is not in `MSXMotherBoard.cc`; the
spec gives "`unregisterIOIn/Out(port)`: precondition — caller is the current
owner; violation is fatal" and that the release gives the port "back to the
bus", so the entry of the owner becomes the sentinel again and any other caller
is fatal (`none`). -/
def MSXMotherBoard.unregister_IO_In (s : MSXMotherBoard) (port : byte) (device : DevicePtr) :
    Option MSXMotherBoard :=
  if s.IO_In port = device then
    some { s with IO_In := Function.update s.IO_In port DummyDevice.instance }
  else
    none

/-- Modelled from the spec: `unregister_IO_Out` is not in `MSXMotherBoard.cc`; the
spec gives "`unregisterIOIn/Out(port)`: precondition — caller is the current
owner; violation is fatal" and that the release gives the port "back to the
bus", so the entry of the owner becomes the sentinel again and any other caller
is fatal (`none`). -/
def MSXMotherBoard.unregister_IO_Out (s : MSXMotherBoard) (port : byte) (device : DevicePtr) :
    Option MSXMotherBoard :=
  if s.IO_Out port = device then
    some { s with IO_Out := Function.update s.IO_Out port DummyDevice.instance }
  else
    none

/-- The effect of one recorded call on the bus. -/
def BusCall.apply : BusCall → MSXMotherBoard → Option MSXMotherBoard
  | BusCall.register_IO_In port device, s => some (s.register_IO_In port device)
  | BusCall.register_IO_Out port device, s => some (s.register_IO_Out port device)
  | BusCall.unregister_IO_In port device, s => s.unregister_IO_In port device
  | BusCall.unregister_IO_Out port device, s => s.unregister_IO_Out port device

/-- The effect of a sequence of recorded calls on the bus, in order; `none` as
soon as one of them is fatal. -/
def BusCall.run : List BusCall → MSXMotherBoard → Option MSXMotherBoard
  | [], s => some s
  | c :: cs, s =>
      match c.apply s with
      | some s' => BusCall.run cs s'
      | none => none

/-- The bus of the machine `zero` after the switch object `dev 1` claimed its
window with the calls of its first `registerDevice`. -/
def MSXMotherBoard.windowBoard : MSXMotherBoard :=
  (BusCall.run (MSXDeviceSwitch.ctor.registerDevice (DevicePtr.dev 1) 5 (some 50)).2.2
    MSXMotherBoard.zero).getD MSXMotherBoard.zero

/-- The drive numbers `DriveMultiplexer::DriveNum` used by the controller. -/
inductive DriveNum where
  | DRIVE_A : DriveNum
  | DRIVE_B : DriveNum
  | NO_DRIVE : DriveNum
  deriving DecidableEq, Repr

/-- The methods of the `WD2793` chip object that `YamahaFDC::readMem` and
`YamahaFDC::peekMem` call, as functions on the chip state `κ`.  The chip is a
collaborator outside the sources: a `get` accessor may change the chip state, a
`peek` accessor is a `const` method. -/
structure WD2793 (κ : Type) where
  getStatusReg : κ → EmuTime → byte × κ
  getTrackReg : κ → EmuTime → byte × κ
  getSectorReg : κ → EmuTime → byte × κ
  getDataReg : κ → EmuTime → byte × κ
  getIRQ : κ → EmuTime → Bool × κ
  getDTRQ : κ → EmuTime → Bool × κ
  peekStatusReg : κ → EmuTime → byte
  peekTrackReg : κ → EmuTime → byte
  peekSectorReg : κ → EmuTime → byte
  peekDataReg : κ → EmuTime → byte
  peekIRQ : κ → EmuTime → Bool
  peekDTRQ : κ → EmuTime → Bool

/-- The methods of the `DriveMultiplexer` object that `YamahaFDC::readMem` and
`YamahaFDC::peekMem` call, as functions on its state `μ`; `isDiskInserted` and
`peekDiskChanged` are `const`, `diskChanged` returns the latch and may clear
it. -/
structure DriveMultiplexer (μ : Type) where
  isDiskInserted : μ → DriveNum → Bool
  peekDiskChanged : μ → DriveNum → Bool
  diskChanged : μ → DriveNum → Bool × μ

/-- The state of a `YamahaFDC`: its chip, its drive multiplexer and the bytes of
its ROM (`rom->getSize()` is the length of `rom`). -/
structure YamahaFDC (κ μ : Type) where
  controller : κ
  multiplexer : μ
  rom : List byte

namespace YamahaFDC

def DRIVE_A_SELECT : Nat := 0x01
def DRIVE_B_SELECT : Nat := 0x02
def DRIVE_A_NOT_READY : Nat := 0x01
def DRIVE_B_NOT_READY : Nat := 0x02
def DISK_A_CHANGED : Nat := 0x04
def DISK_B_CHANGED : Nat := 0x08
def MOTOR_ON : Nat := 0x04
def DATA_REQUEST : Nat := 0x40
def INTR_REQUEST : Nat := 0x80

variable {κ μ : Type}

/-- The conversion `unsigned(address - 0x4000)` of a 16-bit `address`: the
subtraction is done in `int` and the result taken modulo 2^32. -/
def romOffset (address : word) : Nat :=
  (address + 2 ^ 32 - 0x4000) % 2 ^ 32

/-- The `default:` branch of `peekMem`, which the case 0x3FF0 falls through
to. -/
def peekMem.rom (s : YamahaFDC κ μ) (address : word) : byte :=
  if h : romOffset address < s.rom.length then
    s.rom.get ⟨romOffset address, h⟩
  else
    255

/-- `peekMem(address, time)`, a `const` method; the `switch` is the chain of
tests on `address & 0x3FFF`. -/
def peekMem (C : WD2793 κ) (M : DriveMultiplexer μ) (s : YamahaFDC κ μ) (address : word)
    (time : EmuTime) : byte :=
  if address &&& 0x3FFF = 0x3FC0 then
    C.peekStatusReg s.controller time
  else if address &&& 0x3FFF = 0x3FC1 then
    C.peekTrackReg s.controller time
  else if address &&& 0x3FFF = 0x3FC2 then
    C.peekSectorReg s.controller time
  else if address &&& 0x3FFF = 0x3FC3 then
    C.peekDataReg s.controller time
  else if address &&& 0x3FFF = 0x3FE0 then
    let value := 0
    let value := if !M.isDiskInserted s.multiplexer DriveNum.DRIVE_A then value ||| DRIVE_A_NOT_READY else value
    let value := if !M.isDiskInserted s.multiplexer DriveNum.DRIVE_B then value ||| DRIVE_B_NOT_READY else value
    let value := if M.peekDiskChanged s.multiplexer DriveNum.DRIVE_A then value ||| DISK_A_CHANGED else value
    let value := if M.peekDiskChanged s.multiplexer DriveNum.DRIVE_B then value ||| DISK_B_CHANGED else value
    let value := if C.peekIRQ s.controller time then value ||| INTR_REQUEST else value
    let value := if C.peekDTRQ s.controller time then value ||| DATA_REQUEST else value
    value
  else
    peekMem.rom s address

/-- `readMem(address, time)`: the byte read and the state after the call. -/
def readMem (C : WD2793 κ) (M : DriveMultiplexer μ) (s : YamahaFDC κ μ) (address : word)
    (time : EmuTime) : byte × YamahaFDC κ μ :=
  if address &&& 0x3FFF = 0x3FC0 then
    let r := C.getStatusReg s.controller time
    (r.1, { s with controller := r.2 })
  else if address &&& 0x3FFF = 0x3FC1 then
    let r := C.getTrackReg s.controller time
    (r.1, { s with controller := r.2 })
  else if address &&& 0x3FFF = 0x3FC2 then
    let r := C.getSectorReg s.controller time
    (r.1, { s with controller := r.2 })
  else if address &&& 0x3FFF = 0x3FC3 then
    let r := C.getDataReg s.controller time
    (r.1, { s with controller := r.2 })
  else if address &&& 0x3FFF = 0x3FE0 then
    let value := 0
    let value := if !M.isDiskInserted s.multiplexer DriveNum.DRIVE_A then value ||| DRIVE_A_NOT_READY else value
    let value := if !M.isDiskInserted s.multiplexer DriveNum.DRIVE_B then value ||| DRIVE_B_NOT_READY else value
    let value := if M.peekDiskChanged s.multiplexer DriveNum.DRIVE_A then value ||| DISK_A_CHANGED else value
    let value := if M.peekDiskChanged s.multiplexer DriveNum.DRIVE_B then value ||| DISK_B_CHANGED else value
    let irq := C.getIRQ s.controller time
    let value := if irq.1 then value ||| INTR_REQUEST else value
    let dtrq := C.getDTRQ irq.2 time
    let value := if dtrq.1 then value ||| DATA_REQUEST else value
    (value, { s with controller := dtrq.2 })
  else if address &&& 0x3FFF = 0x3FF0 then
    let s1 := { s with multiplexer := (M.diskChanged s.multiplexer DriveNum.DRIVE_B).2 }
    (peekMem C M s1 address time, s1)
  else
    (peekMem C M s address time, s)

end YamahaFDC

/-- A chip for examples: its state is a counter, the four registers read the
counter modulo 256, the two lines its two low bits; reading the status or the
data register steps the counter. -/
def counterChip : WD2793 Nat where
  getStatusReg := fun c _ => (c % 256, c + 1)
  getTrackReg := fun c _ => (c % 256, c)
  getSectorReg := fun c _ => (c % 256, c)
  getDataReg := fun c _ => (c % 256, c + 1)
  getIRQ := fun c _ => (c % 2 == 1, c)
  getDTRQ := fun c _ => (c / 2 % 2 == 1, c)
  peekStatusReg := fun c _ => c % 256
  peekTrackReg := fun c _ => c % 256
  peekSectorReg := fun c _ => c % 256
  peekDataReg := fun c _ => c % 256
  peekIRQ := fun c _ => c % 2 == 1
  peekDTRQ := fun c _ => c / 2 % 2 == 1

/-- A drive multiplexer for examples: its state is the pair of the disk-changed
latches of drive A and drive B; a disk is in drive A only, and `diskChanged`
returns and clears the latch of its drive. -/
def latchDrives : DriveMultiplexer (Bool × Bool) where
  isDiskInserted := fun _ d => decide (d = DriveNum.DRIVE_A)
  peekDiskChanged := fun m d =>
    match d with
    | DriveNum.DRIVE_A => m.1
    | DriveNum.DRIVE_B => m.2
    | DriveNum.NO_DRIVE => false
  diskChanged := fun m d =>
    match d with
    | DriveNum.DRIVE_A => (m.1, (false, m.2))
    | DriveNum.DRIVE_B => (m.2, (m.1, false))
    | DriveNum.NO_DRIVE => (false, m)

/-- A controller for examples: chip counter 3, both latches set, a 16 kB ROM of
0x12 bytes. -/
def YamahaFDC.sample : YamahaFDC Nat (Bool × Bool) :=
  { controller := 3, multiplexer := (true, true), rom := List.replicate 0x4000 0x12 }

namespace MSXMotherBoard

variable {σ : Type}

/-- The loop of `ResetMSX` over `availableDevices`: `(*i)->reset(time)` for each
device of the vector, first to last. -/
def ResetMSX.loop (D : Devices σ) (time : EmuTime) : List DevicePtr → σ → σ
  | [], w => w
  | device :: rest, w => ResetMSX.loop D time rest (DevicePtr.reset D device time w)

/-- `ResetMSX(time)`: the bus and the device world after the call. -/
def ResetMSX (D : Devices σ) (s : MSXMotherBoard) (w : σ) (time : EmuTime) : MSXMotherBoard × σ :=
  let s1 := { s with IRQLine := 0 }
  let s2 := s1.set_A8_Register 0
  (s2, ResetMSX.loop D time s2.availableDevices w)

end MSXMotherBoard

/-- A recording device world: the state is the list of the `reset` calls made so
far, each as the pair of the device called and the time passed. -/
def resetRecorder : Devices (List (Nat × EmuTime)) where
  readMem := fun _ _ _ w => (0, w)
  writeMem := fun _ _ _ _ w => w
  readIO := fun _ _ _ w => (0, w)
  writeIO := fun _ _ _ _ w => w
  reset := fun id time w => w ++ [(id, time)]

/-- A recording device world: the state is the list of the `writeIO` calls made
so far, each with the device called, the port, the value and the time
passed. -/
def portWriteRecorder : Devices (List (Nat × byte × byte × EmuTime)) where
  readMem := fun _ _ _ w => (0, w)
  writeMem := fun _ _ _ _ w => w
  readIO := fun _ _ _ w => (0, w)
  writeIO := fun id port value time w => w ++ [(id, port, value, time)]
  reset := fun _ _ w => w

/-- An operation of the bus, with its arguments. -/
inductive BusOp where
  | register_IO_In (port : byte) (device : DevicePtr) : BusOp
  | register_IO_Out (port : byte) (device : DevicePtr) : BusOp
  | addDevice (device : DevicePtr) : BusOp
  | registerSlottedDevice (device : DevicePtr) (primSl secSl page : Nat) : BusOp
  | ResetMSX (time : EmuTime) : BusOp
  | set_A8_Register (value : byte) : BusOp
  | readMem (address : word) (time : EmuTime) : BusOp
  | writeMem (address : word) (value : byte) (time : EmuTime) : BusOp
  | readIO (prt : word) (time : EmuTime) : BusOp
  | writeIO (prt : word) (value : byte) (time : EmuTime) : BusOp
  | raiseIRQ : BusOp
  | lowerIRQ : BusOp

/-- The bus and the device world after one operation; `none` is a failed
assertion. -/
def BusOp.apply {σ : Type} (D : Devices σ) : BusOp → MSXMotherBoard × σ → Option (MSXMotherBoard × σ)
  | BusOp.register_IO_In port device, st => some (st.1.register_IO_In port device, st.2)
  | BusOp.register_IO_Out port device, st => some (st.1.register_IO_Out port device, st.2)
  | BusOp.addDevice device, st => some (st.1.addDevice device, st.2)
  | BusOp.registerSlottedDevice device primSl secSl page, st =>
      some (st.1.registerSlottedDevice device primSl secSl page, st.2)
  | BusOp.ResetMSX time, st => some (MSXMotherBoard.ResetMSX D st.1 st.2 time)
  | BusOp.set_A8_Register value, st => some (st.1.set_A8_Register value, st.2)
  | BusOp.readMem address time, st => some (MSXMotherBoard.readMem D st.1 st.2 address time).2
  | BusOp.writeMem address value time, st => some (MSXMotherBoard.writeMem D st.1 st.2 address value time)
  | BusOp.readIO prt time, st => some ( MSXMotherBoard.readIO D st.1 st.2 prt time).2
  | BusOp.writeIO prt value time, st => some ( MSXMotherBoard.writeIO D st.1 st.2 prt value time)
  | BusOp.raiseIRQ, st => some (st.1.raiseIRQ, st.2)
  | BusOp.lowerIRQ, st =>
      match st.1.lowerIRQ with
      | some s' => some (s', st.2)
      | none => none

/-- The registration `registerSlottedDevice(device, primSl, secSl, page)` writes
a slot-layout entry that is shown in a page: the coordinate is free and `page`
currently shows slot `primSl`, subslot `secSl`. -/
def BusOp.registersIntoView (s : MSXMotherBoard) : BusOp → Prop
  | BusOp.registerSlottedDevice _ primSl secSl page =>
      s.SlotLayout primSl secSl page = DummyDevice.instance ∧ page < 4 ∧
      s.PrimarySlotState page = primSl ∧ s.SecondarySlotState page = secSl
  | _ => False

/-- A started machine without devices: `zero` after `set_A8_Register(0)`. -/
def MSXMotherBoard.started : MSXMotherBoard :=
  MSXMotherBoard.zero.set_A8_Register 0

/-- A world of switched sub-devices for examples: the state is a counter, a
`readIO` returns device identity plus port and steps the counter, a `peekIO`
returns device identity plus port. -/
def countingSubDevices : SwitchedDevices Nat where
  readIO := fun d port _ w => ((d + port) % 256, w + 1)
  peekIO := fun d port _ _ => (d + port) % 256
  writeIO := fun _ _ _ _ w => w + 1

/-- The methods of the `WD2793` chip object that `YamahaFDC::writeMem` calls, as
functions on the chip state `κ`. -/
structure WD2793Commands (κ : Type) where
  setCommandReg : κ → byte → EmuTime → κ
  setTrackReg : κ → byte → EmuTime → κ
  setSectorReg : κ → byte → EmuTime → κ
  setDataReg : κ → byte → EmuTime → κ

/-- The methods of the `DriveMultiplexer` object that `YamahaFDC::writeMem`
calls to select drive, side and motor, as functions on its state `μ`. -/
structure DriveControls (μ : Type) where
  selectDrive : μ → DriveNum → EmuTime → μ
  setSide : μ → Bool → μ
  setMotor : μ → Bool → EmuTime → μ

/-- The base class `WD2793BasedFDC`, which is outside the sources: its `reset`
is an arbitrary function on the chip and the multiplexer it owns. -/
structure WD2793BasedFDC (κ μ : Type) where
  reset : κ × μ → EmuTime → κ × μ

/-- A pointer returned by `getReadCacheLine`: into the ROM at an offset, or the
shared buffer `unmappedRead`. -/
inductive ReadCacheLine where
  | rom (offset : Nat) : ReadCacheLine
  | unmappedRead : ReadCacheLine
  deriving DecidableEq, Repr

/-- A pointer returned by `getWriteCacheLine`: the shared buffer
`unmappedWrite`. -/
inductive WriteCacheLine where
  | unmappedWrite : WriteCacheLine
  deriving DecidableEq, Repr

/-- Modelled from the spec: `CacheLine.hh` is not among the sources; the spec
has cache lines as "256-byte-aligned" blocks. -/
def CacheLine.SIZE : Nat := 256

/-- Modelled from the spec: `CacheLine.hh` is not among the sources; the mask of
the offset inside a 256-byte block. -/
def CacheLine.LOW : Nat := CacheLine.SIZE - 1

/-- Modelled from the spec: `CacheLine.hh` is not among the sources; the mask of
the 256-byte-aligned block of an address, the complement of `LOW` in 32
bits. -/
def CacheLine.HIGH : Nat := 0xFFFFFFFF - CacheLine.LOW

/-- Modelled from the spec: the buffer `unmappedRead` is declared outside the
sources; the spec has unmapped offsets read a "0xFF unmapped fill", so every
byte of the buffer is 0xFF. -/
def MSXDevice.unmappedRead (_i : Nat) : byte := 0xFF

namespace YamahaFDC

variable {κ μ : Type}

/-- `writeMem(address, value, time)`; the `switch` is the chain of tests on
`address & 0x3fff`, the inner one on the two select bits of `value`. -/
def writeMem (K : WD2793Commands κ) (M : DriveMultiplexer μ) (N : DriveControls μ)
    (s : YamahaFDC κ μ) (address : word) (value : byte) (time : EmuTime) : YamahaFDC κ μ :=
  if address &&& 0x3fff = 0x3FC0 then
    { s with controller := K.setCommandReg s.controller value time }
  else if address &&& 0x3fff = 0x3FC1 then
    { s with controller := K.setTrackReg s.controller value time }
  else if address &&& 0x3fff = 0x3FC2 then
    { s with controller := K.setSectorReg s.controller value time }
  else if address &&& 0x3fff = 0x3FC3 then
    { s with controller := K.setDataReg s.controller value time }
  else if address &&& 0x3fff = 0x3FE0 then
    let drive :=
      if value &&& (DRIVE_A_SELECT ||| DRIVE_B_SELECT) = DRIVE_A_SELECT then DriveNum.DRIVE_A
      else if value &&& (DRIVE_A_SELECT ||| DRIVE_B_SELECT) = DRIVE_B_SELECT then DriveNum.DRIVE_B
      else DriveNum.NO_DRIVE
    let m1 := N.selectDrive s.multiplexer drive time
    let m2 := N.setSide m1 false
    let m3 := N.setMotor m2 (decide (value &&& MOTOR_ON ≠ 0)) time
    { s with multiplexer := m3 }
  else if address &&& 0x3fff = 0x3FF0 then
    { s with multiplexer := (M.diskChanged s.multiplexer DriveNum.DRIVE_A).2 }
  else
    s

/-- `reset(time)`: the reset of the base class, then `writeMem(0x7FE0, 0x00,
time)`. -/
def reset (B : WD2793BasedFDC κ μ) (K : WD2793Commands κ) (M : DriveMultiplexer μ)
    (N : DriveControls μ) (s : YamahaFDC κ μ) (time : EmuTime) : YamahaFDC κ μ :=
  let r := B.reset (s.controller, s.multiplexer) time
  let s1 := { s with controller := r.1, multiplexer := r.2 }
  writeMem K M N s1 0x7FE0 0x00 time

/-- The constructor `YamahaFDC::YamahaFDC`, run on the object `base` that the
constructor of the base class built, at the current time `time`: the
constructed object, or the exception thrown. -/
def ctor (B : WD2793BasedFDC κ μ) (K : WD2793Commands κ) (M : DriveMultiplexer μ)
    (N : DriveControls μ) (base : YamahaFDC κ μ) (time : EmuTime) :
    Except MSXException (YamahaFDC κ μ) :=
  if base.rom.length ≠ 0x4000 ∧ base.rom.length ≠ 0x8000 then
    Except.error ⟨"YamahaFDC ROM size must be 16kB or 32kB."⟩
  else
    Except.ok (reset B K M N base time)

/-- `getReadCacheLine(start)`; `none` is `nullptr`. -/
def getReadCacheLine (s : YamahaFDC κ μ) (start : word) : Option ReadCacheLine :=
  if start &&& 0x3FFF &&& CacheLine.HIGH = 0x3FC0 &&& CacheLine.HIGH then
    none
  else if romOffset start < s.rom.length then
    some (ReadCacheLine.rom (romOffset start))
  else
    some ReadCacheLine.unmappedRead

/-- `getWriteCacheLine(address)`; `none` is `nullptr`. -/
def getWriteCacheLine (_s : YamahaFDC κ μ) (address : word) : Option WriteCacheLine :=
  if address &&& 0x3FFF &&& CacheLine.HIGH = 0x3FC0 &&& CacheLine.HIGH then
    none
  else
    some WriteCacheLine.unmappedWrite

/-- The byte `p[i]` behind a read cache line `p`: a ROM byte, `none` when the
index is outside the ROM, or a byte of the buffer `unmappedRead`. -/
def readLine (s : YamahaFDC κ μ) : ReadCacheLine → Nat → Option byte
  | ReadCacheLine.rom offset, i => s.rom.get? (offset + i)
  | ReadCacheLine.unmappedRead, i => some (MSXDevice.unmappedRead i)

/-- The value a status read builds from the two drive-ready tests, the two
disk-changed latches and the two chip lines, in the order `readMem` and
`peekMem` test them. -/
def statusByte (insertedA insertedB changedA changedB irq dtrq : Bool) : byte :=
  let value := 0
  let value := if !insertedA then value ||| DRIVE_A_NOT_READY else value
  let value := if !insertedB then value ||| DRIVE_B_NOT_READY else value
  let value := if changedA then value ||| DISK_A_CHANGED else value
  let value := if changedB then value ||| DISK_B_CHANGED else value
  let value := if irq then value ||| INTR_REQUEST else value
  let value := if dtrq then value ||| DATA_REQUEST else value
  value

end YamahaFDC

/-- Chip commands for examples: each register write adds the value to the
counter. -/
def counterCommands : WD2793Commands Nat where
  setCommandReg := fun c value _ => c + value
  setTrackReg := fun c value _ => c + value
  setSectorReg := fun c value _ => c + value
  setDataReg := fun c value _ => c + value

/-- Drive controls for examples: on a multiplexer that is the pair of the two
disk-changed latches, selecting a drive, a side or the motor changes
nothing. -/
def latchControls : DriveControls (Bool × Bool) where
  selectDrive := fun m _ _ => m
  setSide := fun m _ => m
  setMotor := fun m _ _ => m

/-- A base class for examples: its reset clears the chip counter. -/
def counterBase : WD2793BasedFDC Nat (Bool × Bool) where
  reset := fun r _ => (0, r.2)

/-- The select invariant: for each of the four pages, `PrimarySlotState[j]` is
field `j` of `A8_Register` and `SecondarySlotState[j]` is field `j` of the
subslot register of that primary slot. -/
def MSXMotherBoard.SelectInvariant (s : MSXMotherBoard) : Prop :=
  ∀ j, j < 4 →
    s.PrimarySlotState j = (s.A8_Register >>> (2 * j)) &&& 3 ∧
    s.SecondarySlotState j = (s.SubSlot_Register (s.PrimarySlotState j) >>> (2 * j)) &&& 3

instance (s : MSXMotherBoard) : Decidable (MSXMotherBoard.SelectInvariant s) := by
  unfold MSXMotherBoard.SelectInvariant; infer_instance

/-- The full recomputation that a secondary-select write of `v` is compared
with: `set_A8_Register(A8_Register)` on the state whose subslot register of the
slot of page 3 already holds `v`. -/
def MSXMotherBoard.fullRecompute (s : MSXMotherBoard) (v : byte) : MSXMotherBoard :=
  MSXMotherBoard.set_A8_Register
    { s with
      SubSlot_Register := Function.update s.SubSlot_Register ((s.A8_Register >>> 6) &&& 3) v }
    s.A8_Register

/-- Drive controls that keep what was set last: the multiplexer state is the
triple of the selected drive, the side and the motor, and each setter
overwrites its component. -/
def lastSetControls : DriveControls (DriveNum × Bool × Bool) where
  selectDrive := fun m drive _ => (drive, m.2.1, m.2.2)
  setSide := fun m side => (m.1, side, m.2.2)
  setMotor := fun m motor _ => (m.1, m.2.1, motor)

/-- A drive multiplexer without disks or latches, on the state of
`lastSetControls`. -/
def noDisks : DriveMultiplexer (DriveNum × Bool × Bool) where
  isDiskInserted := fun _ _ => false
  peekDiskChanged := fun _ _ => false
  diskChanged := fun m _ => (false, m)

/-- A base class for examples on the state of `lastSetControls`: its reset
clears the chip counter. -/
def lastSetBase : WD2793BasedFDC Nat (DriveNum × Bool × Bool) where
  reset := fun r _ => (0, r.2)

/-- A controller for examples on the state of `lastSetControls`: drive A
selected, side 1, motor on, an empty ROM. -/
def YamahaFDC.spinning : YamahaFDC Nat (DriveNum × Bool × Bool) :=
  { controller := 0, multiplexer := (DriveNum.DRIVE_A, true, true), rom := [] }

/-- The drive that the two select bits of a control byte name: drive A for
`(v & 0x03) == 0x01`, drive B for `(v & 0x03) == 0x02`, no drive when both or
neither bit is set. -/
def YamahaFDC.selectedDrive (v : byte) : DriveNum :=
  if v &&& 0x03 = 0x01 then DriveNum.DRIVE_A
  else if v &&& 0x03 = 0x02 then DriveNum.DRIVE_B
  else DriveNum.NO_DRIVE

namespace MSXDeviceSwitch

/-- The destructor `MSXDeviceSwitch::~MSXDeviceSwitch`: `some ()` when its
assertions hold (every entry NULL, `count == 0`), `none` when one fails. -/
def dtor (sw : MSXDeviceSwitch) : Option Unit :=
  if ((List.range 256).all fun i => (sw.devices i).isNone) = true ∧ sw.count = 0 then some ()
  else none

end MSXDeviceSwitch

/-- A registration call on the switch, `registerDevice(id, device)` with a
sub-device object `device`, or `unregisterDevice(id)`. -/
inductive SwitchOp where
  | register (id : byte) (device : Nat) : SwitchOp
  | unregister (id : byte) : SwitchOp

namespace SwitchOp

/-- The id a call names. -/
def id : SwitchOp → byte
  | register id _ => id
  | unregister id => id

/-- The switch after one call and the calls it made on the bus; a
`registerDevice` that throws counts as a step (it leaves the switch as it was),
`none` is the failed assertion of `unregisterDevice`. -/
def step (this : DevicePtr) : SwitchOp → MSXDeviceSwitch → Option (MSXDeviceSwitch × List BusCall)
  | register id device, sw => some (sw.registerDevice this id (some device)).2
  | unregister id, sw => sw.unregisterDevice this id

/-- The switch and the bus after one call, the calls on the bus being carried
out; `none` when the call or one of its bus calls is fatal. -/
def apply (this : DevicePtr) (op : SwitchOp) (st : MSXDeviceSwitch × MSXMotherBoard) :
    Option (MSXDeviceSwitch × MSXMotherBoard) :=
  match op.step this st.1 with
  | some r =>
      match BusCall.run r.2 st.2 with
      | some b => some (r.1, b)
      | none => none
  | none => none

/-- The switch and the bus after a sequence of calls, in order. -/
def run (this : DevicePtr) : List SwitchOp → MSXDeviceSwitch × MSXMotherBoard →
    Option (MSXDeviceSwitch × MSXMotherBoard)
  | [], st => some st
  | op :: ops, st =>
      match op.apply this st with
      | some st' => run this ops st'
      | none => none

/-- The ids of the sequence are bytes and every `unregisterDevice` of the
sequence names an id that is registered when it is called. -/
def Admissible (this : DevicePtr) : List SwitchOp → MSXDeviceSwitch → Prop
  | [], _ => True
  | op :: ops, sw =>
      op.id < 256 ∧
      match op.step this sw with
      | some r => Admissible this ops r.1
      | none => False

end SwitchOp

/-- The switch `device` owns every In- and Out-port of the window 0x40..0x4F. -/
def MSXMotherBoard.WindowHeld (b : MSXMotherBoard) (device : DevicePtr) : Prop :=
  ∀ p, 0x40 ≤ p → p < 0x50 → b.IO_In p = device ∧ b.IO_Out p = device

/-- No device owns an In- or Out-port of the window 0x40..0x4F. -/
def MSXMotherBoard.WindowFree (b : MSXMotherBoard) : Prop :=
  ∀ p, 0x40 ≤ p → p < 0x50 →
    b.IO_In p = DummyDevice.instance ∧ b.IO_Out p = DummyDevice.instance

/-- A sequence of calls for examples: sub-devices register at ids 5 and 9, a
second registration at id 5 throws, then both ids are unregistered. -/
def SwitchOp.sample : List SwitchOp :=
  [SwitchOp.register 5 50, SwitchOp.register 9 90, SwitchOp.register 5 51,
   SwitchOp.unregister 5, SwitchOp.unregister 9]

/-- The methods of the base class `Rom16kBBlocks` that `RomNational` calls, as
functions on the state `ρ` of the base class (the ROM and its bank mapping);
`π` is the type of its cache-line pointers.  The base class is outside the
sources. -/
structure Rom16kBBlocks (ρ π : Type) where
  peekMem : ρ → word → EmuTime → byte
  getReadCacheLine : ρ → word → Option π
  setRom : ρ → Nat → Nat → ρ

/-- The methods of the `SRAM` object that `RomNational` calls, as functions on
the SRAM contents `τ`: `(*sram)[addr]` and `sram->write(addr, value)`.  The
class is outside the sources. -/
structure SRAM (τ : Type) where
  read : τ → Nat → byte
  write : τ → Nat → byte → τ

/-- The state of a `RomNational`: the state of its base class, its SRAM, and the
members `control`, `bankSelect` and `sramAddr`.  The members are declared in a
header that is not among the sources; `sramAddr` is a natural number here (the
code masks, ORs and increments it). -/
structure RomNational (ρ τ : Type) where
  base : ρ
  sram : τ
  control : byte
  bankSelect : Nat → byte
  sramAddr : Nat

namespace RomNational

variable {ρ π τ : Type}

/-- `peekMem(address, time)`, a `const` method. -/
def peekMem (R : Rom16kBBlocks ρ π) (S : SRAM τ) (s : RomNational ρ τ) (address : word)
    (time : EmuTime) : byte :=
  if s.control &&& 0x04 ≠ 0 ∧ address &&& 0x7FF9 = 0x7FF0 then
    let bank := (address &&& 6) / 2
    s.bankSelect bank
  else if s.control &&& 0x02 ≠ 0 ∧ address &&& 0x3FFF = 0x3FFD then
    S.read s.sram (s.sramAddr &&& 0x0FFF)
  else
    R.peekMem s.base address time

/-- `readMem(address, time)`: the byte read and the state after the call. -/
def readMem (R : Rom16kBBlocks ρ π) (S : SRAM τ) (s : RomNational ρ τ) (address : word)
    (time : EmuTime) : byte × RomNational ρ τ :=
  let result := peekMem R S s address time
  if s.control &&& 0x02 ≠ 0 ∧ address &&& 0x3FFF = 0x3FFD then
    (result, { s with sramAddr := s.sramAddr + 1 })
  else
    (result, s)

/-- `getReadCacheLine(address)`; `none` is `NULL`. -/
def getReadCacheLine (R : Rom16kBBlocks ρ π) (s : RomNational ρ τ) (address : word) : Option π :=
  if 0x3FF0 &&& CacheLine.HIGH = address &&& 0x3FFF then
    none
  else
    R.getReadCacheLine s.base address

/-- `writeMem(address, value, time)`. -/
def writeMem (R : Rom16kBBlocks ρ π) (S : SRAM τ) (s : RomNational ρ τ) (address : word)
    (value : byte) (_time : EmuTime) : RomNational ρ τ :=
  if address = 0x6000 then
    let s1 := { s with bankSelect := Function.update s.bankSelect 1 value }
    { s1 with base := R.setRom s1.base 1 value }
  else if address = 0x6400 then
    let s1 := { s with bankSelect := Function.update s.bankSelect 0 value }
    { s1 with base := R.setRom s1.base 0 value }
  else if address = 0x7000 then
    let s1 := { s with bankSelect := Function.update s.bankSelect 2 value }
    { s1 with base := R.setRom s1.base 2 value }
  else if address = 0x7400 then
    let s1 := { s with bankSelect := Function.update s.bankSelect 3 value }
    { s1 with base := R.setRom s1.base 3 value }
  else if address = 0x7FF9 then
    { s with control := value }
  else if s.control &&& 0x02 ≠ 0 then
    let address := address &&& 0x3FFF
    if address = 0x3FFA then
      { s with sramAddr := (s.sramAddr &&& 0x00FFFF) ||| (value <<< 16) }
    else if address = 0x3FFB then
      { s with sramAddr := (s.sramAddr &&& 0xFF00FF) ||| (value <<< 8) }
    else if address = 0x3FFC then
      { s with sramAddr := (s.sramAddr &&& 0xFFFF00) ||| value }
    else if address = 0x3FFD then
      let s1 := { s with sramAddr := s.sramAddr + 1 }
      { s1 with sram := S.write s1.sram (s.sramAddr &&& 0x0FFF) value }
    else
      s
  else
    s

/-- `getWriteCacheLine(address)`; `none` is `NULL`. -/
def getWriteCacheLine (_s : RomNational ρ τ) (address : word) : Option WriteCacheLine :=
  if address = 0x6000 &&& CacheLine.HIGH ∨ address = 0x6400 &&& CacheLine.HIGH ∨
      address = 0x7000 &&& CacheLine.HIGH ∨ address = 0x7400 &&& CacheLine.HIGH ∨
      address = 0x7FF9 &&& CacheLine.HIGH then
    none
  else if address &&& 0x3FFF = 0x3FFA &&& CacheLine.HIGH then
    none
  else
    some WriteCacheLine.unmappedWrite

end RomNational

/-- A base class for examples: its state is the list of the `setRom` calls made,
a peek returns the low byte of the address, every address has the cache line
that is its own number. -/
def listBlocks : Rom16kBBlocks (List (Nat × Nat)) Nat where
  peekMem := fun _ address _ => address % 256
  getReadCacheLine := fun _ address => some address
  setRom := fun banks region block => banks ++ [(region, block)]

/-- An SRAM for examples: its contents are a function from addresses to
bytes. -/
def functionSRAM : SRAM (Nat → byte) where
  read := fun m addr => m addr
  write := fun m addr value => Function.update m addr value

/-- A cartridge for examples: SRAM and bank-select read-back enabled
(`control == 0x06`), bank 2 selected in region 1, SRAM address 0x1234, SRAM byte
0x77 at 0x234. -/
def RomNational.sample : RomNational (List (Nat × Nat)) (Nat → byte) :=
  { base := []
    sram := fun addr => if addr = 0x234 then 0x77 else 0
    control := 0x06
    bankSelect := fun region => if region = 1 then 2 else 0
    sramAddr := 0x1234 }

/-- A chip for examples whose state is its DTRQ line: the registers read 0, the
IRQ line is low, reading the DTRQ line leaves it, and reading the IRQ line with
`getIRQ` flips the DTRQ line.  In every state each `get` accessor returns what
the matching `peek` accessor returns. -/
def toggleChip : WD2793 Bool where
  getStatusReg := fun c _ => (0, c)
  getTrackReg := fun c _ => (0, c)
  getSectorReg := fun c _ => (0, c)
  getDataReg := fun c _ => (0, c)
  getIRQ := fun c _ => (false, !c)
  getDTRQ := fun c _ => (c, c)
  peekStatusReg := fun _ _ => 0
  peekTrackReg := fun _ _ => 0
  peekSectorReg := fun _ _ => 0
  peekDataReg := fun _ _ => 0
  peekIRQ := fun _ _ => false
  peekDTRQ := fun c _ => c

/-- A chip for examples without state whose two lines are high from time 5
on. -/
def timedChip : WD2793 Unit where
  getStatusReg := fun c _ => (0, c)
  getTrackReg := fun c _ => (0, c)
  getSectorReg := fun c _ => (0, c)
  getDataReg := fun c _ => (0, c)
  getIRQ := fun c t => (decide (5 ≤ t), c)
  getDTRQ := fun c t => (decide (5 ≤ t), c)
  peekStatusReg := fun _ _ => 0
  peekTrackReg := fun _ _ => 0
  peekSectorReg := fun _ _ => 0
  peekDataReg := fun _ _ => 0
  peekIRQ := fun _ t => decide (5 ≤ t)
  peekDTRQ := fun _ t => decide (5 ≤ t)

/-- A controller around `toggleChip` with its DTRQ line low, no latch set and an
empty ROM. -/
def YamahaFDC.idle : YamahaFDC Bool (Bool × Bool) :=
  { controller := false, multiplexer := (false, false), rom := [] }

/-- A controller around `timedChip` with both latches set and an empty ROM. -/
def YamahaFDC.timed : YamahaFDC Unit (Bool × Bool) :=
  { controller := (), multiplexer := (true, true), rom := [] }

/-- The bus of the machine `zero` after another device, `dev 2`, claimed the
In-port 0x40 of the window. -/
def MSXMotherBoard.takenBoard : MSXMotherBoard :=
  MSXMotherBoard.zero.register_IO_In 0x40 (DevicePtr.dev 2)

/-- The ids that a sequence of calls leaves registered, counted from the calls
alone, `r` being the ids registered before: a `registerDevice(id, device)` makes
`id` registered (when it throws, `id` is registered already), an
`unregisterDevice(id)` makes `id` unregistered. -/
def SwitchOp.registeredAfter : List SwitchOp → (Nat → Bool) → Nat → Bool
  | [], r => r
  | SwitchOp.register id _ :: ops, r => SwitchOp.registeredAfter ops (Function.update r id true)
  | SwitchOp.unregister id :: ops, r => SwitchOp.registeredAfter ops (Function.update r id false)
/-! ## Theorems -/

namespace MSXMotherBoard

variable {σ : Type}

theorem set_A8_Register_mapping (s : MSXMotherBoard) (value : byte) :
    MappingInvariant (s.set_A8_Register value) := by
  intro page hpage
  interval_cases page <;>
    simp [set_A8_Register, set_A8_Register.loop, set_A8_Register.body, Function.update]

theorem writeMem_body_mapping (s : MSXMotherBoard) (c i : Nat) (value : byte)
    (h : MappingInvariant s) : MappingInvariant (writeMem.body s c i value) := by
  intro page hpage
  unfold writeMem.body
  split
  · by_cases hp : page = i
    · subst hp; simp
    · simpa [Function.update, hp] using h page hpage
  · exact h page hpage

theorem writeMem_loop_mapping (n : Nat) (s : MSXMotherBoard) (c i : Nat) (value : byte)
    (h : MappingInvariant s) : MappingInvariant (writeMem.loop n s c i value) := by
  induction n generalizing s i value with
  | zero => simpa [writeMem.loop] using h
  | succ n ih =>
    simp only [writeMem.loop]
    exact ih _ _ _ (writeMem_body_mapping s c i value h)

theorem writeMem_mapping (D : Devices σ) (s : MSXMotherBoard) (w : σ) (address : word)
    (value : byte) (time : EmuTime) (h : MappingInvariant s) :
    MappingInvariant (writeMem D s w address value time).1 := by
  unfold writeMem
  simp only
  split
  · exact writeMem_loop_mapping 4 _ _ 0 value (fun page hpage => h page hpage)
  · exact h

end MSXMotherBoard

theorem SelectWrite.apply_mapping {σ : Type} (D : Devices σ) (op : SelectWrite)
    (st : MSXMotherBoard × σ) (h : MSXMotherBoard.MappingInvariant st.1) :
    MSXMotherBoard.MappingInvariant (op.apply D st).1 := by
  cases op with
  | primary value => exact MSXMotherBoard.set_A8_Register_mapping st.1 value
  | secondary value time => exact MSXMotherBoard.writeMem_mapping D st.1 st.2 0xFFFF value time h

theorem SelectWrite.statesAfter_mapping {σ : Type} (D : Devices σ) (ops : List SelectWrite)
    (st : MSXMotherBoard × σ) (h : MSXMotherBoard.MappingInvariant st.1) :
    ∀ st' ∈ SelectWrite.statesAfter D ops st, MSXMotherBoard.MappingInvariant st'.1 := by
  induction ops generalizing st with
  | nil => intro st' hst; simp [SelectWrite.statesAfter] at hst
  | cons op ops ih =>
    intro st' hst
    simp only [SelectWrite.statesAfter, List.mem_cons] at hst
    rcases hst with rfl | hst
    · exact SelectWrite.apply_mapping D op st h
    · exact ih _ (SelectWrite.apply_mapping D op st h) st' hst

/-- C1 (as stated, refuted): on the machine `staleBoard`, whose page 0 shows
primary slot 1 and whose page 3 shows the subslotted primary slot 0, the
select-register write `writeMem(0xFFFF, 0, 0)` is intercepted by the bus, and
immediately after it `visibleDevices[0]` differs from
`SlotLayout[PrimarySlotState[0]][SecondarySlotState[0]][0]`. -/
theorem select_write_mapping_counterexample :
    MSXMotherBoard.staleBoard.isSubSlotted ((MSXMotherBoard.staleBoard.A8_Register >>> 6) &&& 3) = true ∧
    (SelectWrite.statesAfter noDevices [SelectWrite.secondary 0 0] (MSXMotherBoard.staleBoard, ())
      = [MSXMotherBoard.writeMem noDevices MSXMotherBoard.staleBoard () 0xFFFF 0 0]) ∧
    ¬ MSXMotherBoard.MappingInvariant
        (MSXMotherBoard.writeMem noDevices MSXMotherBoard.staleBoard () 0xFFFF 0 0).1 := by
  refine ⟨by decide, rfl, ?_⟩
  decide

/-- C1 (amended): for every sequence of select-register writes
(`set_A8_Register(v)` and `writeMem(0xFFFF, v, t)`, for any bytes `v`) that
starts in a bus state satisfying the mapping invariant or begins with
`set_A8_Register`, immediately after each write
`visibleDevices[page] == SlotLayout[PrimarySlotState[page]][SecondarySlotState[page]][page]`
holds for every page in 0..3. -/
theorem select_writes_keep_mapping {σ : Type} (D : Devices σ) (s : MSXMotherBoard) (w : σ)
    (ops : List SelectWrite)
    (h : MSXMotherBoard.MappingInvariant s ∨ SelectWrite.startsWithPrimary ops) :
    ∀ st ∈ SelectWrite.statesAfter D ops (s, w), ∀ page, page < 4 →
      st.1.visibleDevices page
        = st.1.SlotLayout (st.1.PrimarySlotState page) (st.1.SecondarySlotState page) page := by
  intro st hst
  rcases h with h | h
  · exact SelectWrite.statesAfter_mapping D ops (s, w) h st hst
  · cases ops with
    | nil => simp [SelectWrite.statesAfter] at hst
    | cons op ops =>
      cases op with
      | primary value =>
        simp only [SelectWrite.statesAfter, List.mem_cons] at hst
        rcases hst with rfl | hst
        · exact MSXMotherBoard.set_A8_Register_mapping s value
        · exact SelectWrite.statesAfter_mapping D ops _
            (MSXMotherBoard.set_A8_Register_mapping s value) st hst
      | secondary value time => simp [SelectWrite.startsWithPrimary] at h

/-- Witness of `select_writes_keep_mapping`: the sequence `set_A8_Register(1)`,
`writeMem(0xFFFF, 0x55, 0)` run on `staleBoard`. -/
theorem select_writes_keep_mapping_witness :
    SelectWrite.startsWithPrimary [SelectWrite.primary 1, SelectWrite.secondary 0x55 0] ∧
    ((SelectWrite.secondary 0x55 0).apply noDevices
        ((SelectWrite.primary 1).apply noDevices (MSXMotherBoard.staleBoard, ()))).1.visibleDevices 0
      = DevicePtr.dev 7 :=
  ⟨trivial,
    (select_writes_keep_mapping noDevices MSXMotherBoard.staleBoard ()
      [SelectWrite.primary 1, SelectWrite.secondary 0x55 0] (Or.inr trivial) _
      (by simp [SelectWrite.statesAfter]) 0 (by decide)).trans (by decide)⟩

/-- C2 (as stated, refuted): on `emptyBoard` no device is registered at slot 0,
subslot 1, page 3, and page 3 (the page of address 0xFFFF) is mapped to that
coordinate; yet `readMem(0xFFFF)` returns 0xAA, not 0xFF, and
`writeMem(0xFFFF, 0)` changes the subslot register of slot 0 and the subslot
shown in page 3. -/
theorem unregistered_read_counterexample :
    MSXMotherBoard.emptyBoard.SlotLayout 0 1 3 = DummyDevice.instance ∧
    0xFFFF >>> 14 = 3 ∧
    MSXMotherBoard.emptyBoard.PrimarySlotState 3 = 0 ∧
    MSXMotherBoard.emptyBoard.SecondarySlotState 3 = 1 ∧
    MSXMotherBoard.emptyBoard.visibleDevices 3 = MSXMotherBoard.emptyBoard.SlotLayout 0 1 3 ∧
    (MSXMotherBoard.readMem noDevices MSXMotherBoard.emptyBoard () 0xFFFF 0).1 = 0xAA ∧
    (MSXMotherBoard.writeMem noDevices MSXMotherBoard.emptyBoard () 0xFFFF 0 0).1.SubSlot_Register 0
      ≠ MSXMotherBoard.emptyBoard.SubSlot_Register 0 ∧
    (MSXMotherBoard.writeMem noDevices MSXMotherBoard.emptyBoard () 0xFFFF 0 0).1.SecondarySlotState 3
      ≠ MSXMotherBoard.emptyBoard.SecondarySlotState 3 := by
  decide

/-- C2 (amended): for every slot coordinate (primary, secondary, page) at which
no device is registered and every address whose page `address >> 14` is mapped
to that coordinate, `readMem(address)` returns 0xFF and changes nothing and
`writeMem(address, value)` changes neither the bus nor the device world, unless
the address is 0xFFFF and the primary slot selected for page 3 is subslotted. -/
theorem unregistered_page_floats {σ : Type} (D : Devices σ) (s : MSXMotherBoard) (w : σ)
    (primary secondary : Nat) (address : word) (value : byte) (time : EmuTime)
    (hfree : s.SlotLayout primary secondary (address >>> 14) = DummyDevice.instance)
    (hprim : s.PrimarySlotState (address >>> 14) = primary)
    (hsec : s.SecondarySlotState (address >>> 14) = secondary)
    (hmap : s.visibleDevices (address >>> 14)
      = s.SlotLayout (s.PrimarySlotState (address >>> 14)) (s.SecondarySlotState (address >>> 14))
          (address >>> 14))
    (hbus : ¬ (address = 0xFFFF ∧ s.isSubSlotted ((s.A8_Register >>> 6) &&& 3) = true)) :
    MSXMotherBoard.readMem D s w address time = (0xFF, s, w) ∧
    MSXMotherBoard.writeMem D s w address value time = (s, w) := by
  have hvis : s.visibleDevices (address >>> 14) = DevicePtr.dummy := by
    rw [hmap, hprim, hsec]; exact hfree
  constructor
  · unfold MSXMotherBoard.readMem
    simp only [if_neg hbus, hvis, DevicePtr.readMem, DummyDevice.readMem]
  · unfold MSXMotherBoard.writeMem
    simp only [if_neg hbus, hvis, DevicePtr.writeMem, DummyDevice.writeMem]

/-- Witness of `unregistered_page_floats`: address 0x4000 (page 1, mapped to slot
0, subslot 1) on `emptyBoard`. -/
theorem unregistered_page_floats_witness :
    MSXMotherBoard.readMem noDevices MSXMotherBoard.emptyBoard () 0x4000 0
      = (0xFF, MSXMotherBoard.emptyBoard, ()) ∧
    MSXMotherBoard.writeMem noDevices MSXMotherBoard.emptyBoard () 0x4000 0x12 0
      = (MSXMotherBoard.emptyBoard, ()) :=
  unregistered_page_floats noDevices MSXMotherBoard.emptyBoard () 0 1 0x4000 0x12 0
    (by decide) (by decide) (by decide) (by decide) (by decide)

theorem MSXMotherBoard.register_IO_In_taken (s : MSXMotherBoard) (port : byte)
    (device : DevicePtr) (h : s.IO_In port ≠ DummyDevice.instance) :
    s.register_IO_In port device = s := by
  simp [MSXMotherBoard.register_IO_In, h, PRT_ERROR]

/-- C3: first registration wins.  For `register_IO_In`, `register_IO_Out` and
`registerSlottedDevice`, a registration on an entry that another device owns
leaves the whole machine state unchanged, and a registration on an unclaimed
entry sets exactly that entry to the new device; so after two registrations of
the same In-port a `readIO` on that port is the `readIO` of the first device
alone. -/
theorem first_registration_wins {σ : Type} (D : Devices σ) (s : MSXMotherBoard) (w : σ)
    (port : byte) (primSl secSl page : Nat) (device second : DevicePtr) (prt : word)
    (time : EmuTime) :
    (s.IO_In port ≠ DummyDevice.instance → s.register_IO_In port device = s) ∧
    (s.IO_In port = DummyDevice.instance →
      s.register_IO_In port device = { s with IO_In := Function.update s.IO_In port device }) ∧
    (s.IO_Out port ≠ DummyDevice.instance → s.register_IO_Out port device = s) ∧
    (s.IO_Out port = DummyDevice.instance →
      s.register_IO_Out port device = { s with IO_Out := Function.update s.IO_Out port device }) ∧
    (s.SlotLayout primSl secSl page ≠ DummyDevice.instance →
      s.registerSlottedDevice device primSl secSl page = s) ∧
    (s.SlotLayout primSl secSl page = DummyDevice.instance →
      s.registerSlottedDevice device primSl secSl page
        = { s with SlotLayout := fun p q r =>
              if p = primSl ∧ q = secSl ∧ r = page then device else s.SlotLayout p q r }) ∧
    (s.IO_In (prt % 256) = DummyDevice.instance → device ≠ DummyDevice.instance →
      MSXMotherBoard.readIO D ((s.register_IO_In (prt % 256) device).register_IO_In (prt % 256) second)
          w prt time
        = (( DevicePtr.readIO D device (prt % 256) time w).1,
            s.register_IO_In (prt % 256) device,
            ( DevicePtr.readIO D device (prt % 256) time w).2)) := by
  refine ⟨?_, ?_, ?_, ?_, ?_, ?_, ?_⟩
  · intro h; simp [MSXMotherBoard.register_IO_In, h, PRT_ERROR]
  · intro h; simp [MSXMotherBoard.register_IO_In, h]
  · intro h; simp [MSXMotherBoard.register_IO_Out, h, PRT_ERROR]
  · intro h; simp [MSXMotherBoard.register_IO_Out, h]
  · intro h; simp [MSXMotherBoard.registerSlottedDevice, h, PRT_ERROR]
  · intro h
    simp only [MSXMotherBoard.registerSlottedDevice, h, if_true]
    congr 1
    funext p q r
    by_cases hp : p = primSl
    · subst hp
      by_cases hq : q = secSl
      · subst hq
        by_cases hr : r = page
        · subst hr; simp
        · simp [Function.update, hr]
      · simp [Function.update, hq]
    · simp [Function.update, hp]
  · intro h hd
    have h1 : (s.register_IO_In (prt % 256) device).IO_In (prt % 256) = device := by
      simp [MSXMotherBoard.register_IO_In, h]
    have h2 : (s.register_IO_In (prt % 256) device).register_IO_In (prt % 256) second
        = s.register_IO_In (prt % 256) device := by
      have hne : (s.register_IO_In (prt % 256) device).IO_In (prt % 256) ≠ DummyDevice.instance := by
        rw [h1]; exact hd
      exact MSXMotherBoard.register_IO_In_taken _ _ _ hne
    rw [h2]
    simp only [ MSXMotherBoard.readIO, h1]

/-- Witness of `first_registration_wins`: devices 1 and 2 register In-port 0x98
of the empty machine in turn; the read of port 0x98 is one `readIO` call, on
device 1. -/
theorem first_registration_wins_witness :
    MSXMotherBoard.readIO readRecorder
        ((MSXMotherBoard.zero.register_IO_In (0x98 % 256) (DevicePtr.dev 1)).register_IO_In
          (0x98 % 256) (DevicePtr.dev 2)) [] 0x98 0
      = (1, MSXMotherBoard.zero.register_IO_In (0x98 % 256) (DevicePtr.dev 1), [(1, 0x98)]) :=
  (first_registration_wins readRecorder MSXMotherBoard.zero [] 0 0 0 0 (DevicePtr.dev 1)
    (DevicePtr.dev 2) 0x98 0).2.2.2.2.2.2 (by decide) (by decide)

theorem IRQOp.run_append (a b : List IRQOp) (s : MSXMotherBoard) :
    IRQOp.run (a ++ b) s = (IRQOp.run a s).bind (IRQOp.run b) := by
  induction a generalizing s with
  | nil => simp [IRQOp.run]
  | cons op a ih =>
    cases op with
    | raise => simp [IRQOp.run, ih]
    | lower =>
      simp only [List.cons_append, IRQOp.run]
      cases s.lowerIRQ with
      | none => simp
      | some s' => simp [ih]

theorem IRQOp.run_raises (n : Nat) (s : MSXMotherBoard) :
    IRQOp.run (List.replicate n IRQOp.raise) s = some { s with IRQLine := s.IRQLine + n } := by
  induction n generalizing s with
  | zero => simp [IRQOp.run]
  | succ n ih =>
    simp only [List.replicate_succ, IRQOp.run, ih, MSXMotherBoard.raiseIRQ]
    congr 2
    push_cast
    ring

theorem IRQOp.run_lowers (n : Nat) (s : MSXMotherBoard) (h : (n : Int) ≤ s.IRQLine) :
    IRQOp.run (List.replicate n IRQOp.lower) s = some { s with IRQLine := s.IRQLine - n } := by
  induction n generalizing s with
  | zero => simp [IRQOp.run]
  | succ n ih =>
    have hne : s.IRQLine ≠ 0 := by push_cast at h; omega
    simp only [List.replicate_succ, IRQOp.run, MSXMotherBoard.lowerIRQ, if_pos hne]
    rw [ih]
    · congr 2
      push_cast
      ring
    · push_cast at h
      show (n : Int) ≤ s.IRQLine - 1
      omega

theorem IRQOp.run_count (ops : List IRQOp) (s s' : MSXMotherBoard) (h0 : 0 ≤ s.IRQLine)
    (h : IRQOp.run ops s = some s') :
    0 ≤ s'.IRQLine ∧
    s'.IRQLine = s.IRQLine + (ops.count IRQOp.raise : Int) - (ops.count IRQOp.lower : Int) := by
  induction ops generalizing s with
  | nil =>
    simp only [IRQOp.run, Option.some.injEq] at h
    subst h
    simp [h0]
  | cons op ops ih =>
    cases op with
    | raise =>
      simp only [IRQOp.run] at h
      have := ih s.raiseIRQ (by simp only [MSXMotherBoard.raiseIRQ]; omega) h
      refine ⟨this.1, ?_⟩
      rw [this.2]
      have hc : (IRQOp.raise :: ops).count IRQOp.lower = ops.count IRQOp.lower := by
        simp [List.count_cons]
      have hr : (IRQOp.raise :: ops).count IRQOp.raise = ops.count IRQOp.raise + 1 := by
        simp [List.count_cons]
      rw [hc, hr]
      simp only [MSXMotherBoard.raiseIRQ]
      push_cast
      ring
    | lower =>
      simp only [IRQOp.run, MSXMotherBoard.lowerIRQ] at h
      by_cases hne : s.IRQLine ≠ 0
      · simp only [if_pos hne] at h
        have := ih { s with IRQLine := s.IRQLine - 1 } (by show 0 ≤ s.IRQLine - 1; omega) h
        refine ⟨this.1, ?_⟩
        rw [this.2]
        have hc : (IRQOp.lower :: ops).count IRQOp.lower = ops.count IRQOp.lower + 1 := by
          simp [List.count_cons]
        have hr : (IRQOp.lower :: ops).count IRQOp.raise = ops.count IRQOp.raise := by
          simp [List.count_cons]
        rw [hc, hr]
        push_cast
        ring
      · simp [if_neg hne] at h

/-- C4: starting from an interrupt count of 0, for every N >= 1, N calls of
`raiseIRQ` followed by N calls of `lowerIRQ` all return and leave `IRQStatus()`
false, N calls of `raiseIRQ` followed by N-1 calls of `lowerIRQ` all return and
leave `IRQStatus()` true, and after any sequence of calls that all return
`IRQStatus()` is true exactly when there were more raises than lowers. -/
theorem irq_status_counts (s : MSXMotherBoard) (N : Nat) (hs : s.IRQLine = 0) (hN : 1 ≤ N) :
    (∃ s', IRQOp.run (List.replicate N IRQOp.raise ++ List.replicate N IRQOp.lower) s = some s' ∧
      s'.IRQStatus = false) ∧
    (∃ s', IRQOp.run (List.replicate N IRQOp.raise ++ List.replicate (N - 1) IRQOp.lower) s = some s' ∧
      s'.IRQStatus = true) ∧
    (∀ ops s', IRQOp.run ops s = some s' →
      (s'.IRQStatus = true ↔ ops.count IRQOp.lower < ops.count IRQOp.raise)) := by
  refine ⟨?_, ?_, ?_⟩
  · rw [IRQOp.run_append, IRQOp.run_raises, Option.some_bind, IRQOp.run_lowers _ _ (by simp [hs])]
    exact ⟨_, rfl, by simp [MSXMotherBoard.IRQStatus, hs]⟩
  · rw [IRQOp.run_append, IRQOp.run_raises, Option.some_bind,
      IRQOp.run_lowers _ _ (by simp only [hs]; omega)]
    refine ⟨_, rfl, ?_⟩
    simp only [MSXMotherBoard.IRQStatus, hs, decide_eq_true_eq]
    omega
  · intro ops s' h
    have := (IRQOp.run_count ops s s' (by omega) h).2
    simp only [MSXMotherBoard.IRQStatus, decide_eq_true_eq]
    have h1 := (IRQOp.run_count ops s s' (by omega) h).1
    omega

/-- Witness of `irq_status_counts`: three raises and three, respectively two,
lowers on the machine `zero`. -/
theorem irq_status_counts_witness :
    (∃ s', IRQOp.run (List.replicate 3 IRQOp.raise ++ List.replicate 3 IRQOp.lower) MSXMotherBoard.zero
        = some s' ∧ s'.IRQStatus = false) ∧
    (∃ s', IRQOp.run (List.replicate 3 IRQOp.raise ++ List.replicate (3 - 1) IRQOp.lower)
        MSXMotherBoard.zero = some s' ∧ s'.IRQStatus = true) :=
  ⟨(irq_status_counts MSXMotherBoard.zero 3 rfl (by decide)).1,
   (irq_status_counts MSXMotherBoard.zero 3 rfl (by decide)).2.1⟩

/-- C5: `lowerIRQ` fails on its assertion if and only if the interrupt count is
0 when it is called; when the count is positive it returns with the count
decreased by exactly one and nothing else changed; and a count that is not
negative stays so over every sequence of `raiseIRQ` and `lowerIRQ` calls that
return. -/
theorem lowerIRQ_contract (s : MSXMotherBoard) :
    (s.lowerIRQ = none ↔ s.IRQLine = 0) ∧
    (0 < s.IRQLine →
      s.lowerIRQ = some { s with IRQLine := s.IRQLine - 1 } ∧ 0 ≤ s.IRQLine - 1) ∧
    (0 ≤ s.IRQLine → ∀ ops s', IRQOp.run ops s = some s' → 0 ≤ s'.IRQLine) := by
  refine ⟨?_, ?_, ?_⟩
  · unfold MSXMotherBoard.lowerIRQ
    by_cases h : s.IRQLine = 0 <;> simp [h]
  · intro h
    have hne : s.IRQLine ≠ 0 := by omega
    exact ⟨by simp [MSXMotherBoard.lowerIRQ, hne], by omega⟩
  · intro h ops s' hrun
    exact (IRQOp.run_count ops s s' h hrun).1

/-- Witness of `lowerIRQ_contract`: `lowerIRQ` on the machine `zero` after two
raises. -/
theorem lowerIRQ_contract_witness :
    MSXMotherBoard.zero.raiseIRQ.raiseIRQ.lowerIRQ
      = some { MSXMotherBoard.zero.raiseIRQ.raiseIRQ with
                IRQLine := MSXMotherBoard.zero.raiseIRQ.raiseIRQ.IRQLine - 1 } ∧
    0 ≤ MSXMotherBoard.zero.raiseIRQ.raiseIRQ.IRQLine - 1 :=
  (lowerIRQ_contract MSXMotherBoard.zero.raiseIRQ.raiseIRQ).2.1 (by decide)

/-- C6: selector routing of `MSXDeviceSwitch::writeIO`.  With two different
sub-devices `da` and `db` registered at the ids `a` and `b`: the write of `b` to window
offset 0 sets `selected` to `b` and calls no sub-device; after it a write to a
port with non-zero offset `port & 0x0F` is exactly one `writeIO` call on `db`,
with that offset and the unmodified value (on the recording world: the one
recorded call is on `db`, none is on the sub-device of id `a`); and with no sub-device at the
selected id such a write changes nothing. -/
theorem switch_write_routes_to_selected {σ : Type} (W : SwitchedDevices σ) (sw : MSXDeviceSwitch)
    (w : σ) (a b : byte) (da db : Nat) (port0 port : word) (value : byte) (t0 time : EmuTime)
    (ha : sw.devices a = some da) (hb : sw.devices b = some db) (hd : da ≠ db)
    (h0 : port0 &&& 0x0F = 0) (hport : port &&& 0x0F ≠ 0) :
    MSXDeviceSwitch.writeIO W sw w port0 b t0 = ({ sw with selected := b }, w) ∧
    MSXDeviceSwitch.writeIO W { sw with selected := b } w port value time
      = ({ sw with selected := b }, W.writeIO db (port &&& 0x0F) value time w) ∧
    (MSXDeviceSwitch.writeIO writeRecorder { sw with selected := b } [] port value time).2
      = [(db, port &&& 0x0F, value, time)] ∧
    (∀ call ∈ (MSXDeviceSwitch.writeIO writeRecorder { sw with selected := b } [] port value time).2,
      sw.devices a ≠ some call.1) ∧
    (∀ sw' : MSXDeviceSwitch, sw'.devices sw'.selected = none →
      MSXDeviceSwitch.writeIO W sw' w port value time = (sw', w)) := by
  have hsel : ∀ {τ : Type} (V : SwitchedDevices τ) (v : τ),
      MSXDeviceSwitch.writeIO V { sw with selected := b } v port value time
        = ({ sw with selected := b }, V.writeIO db (port &&& 0x0F) value time v) := by
    intro τ V v
    simp only [MSXDeviceSwitch.writeIO, if_neg hport, hb]
  refine ⟨?_, hsel W w, ?_, ?_, ?_⟩
  · simp only [MSXDeviceSwitch.writeIO, h0, if_true]
  · rw [hsel]; rfl
  · intro call hcall
    rw [hsel] at hcall
    simp only [writeRecorder, List.nil_append, List.mem_singleton] at hcall
    subst hcall
    rw [ha]
    exact fun h => hd (Option.some.inj h)
  · intro sw' hnone
    simp only [MSXDeviceSwitch.writeIO, if_neg hport, hnone]

/-- Witness of `switch_write_routes_to_selected`: ids 5 and 9, selector byte 9
written to port 0x40, then the data byte 0xAB written to port 0x41. -/
theorem switch_write_routes_to_selected_witness :
    MSXDeviceSwitch.writeIO writeRecorder MSXDeviceSwitch.twoDevices [] 0x40 9 0
      = ({ MSXDeviceSwitch.twoDevices with selected := 9 }, []) ∧
    ( MSXDeviceSwitch.writeIO writeRecorder { MSXDeviceSwitch.twoDevices with selected := 9 } []
        0x41 0xAB 1).2 = [(90, 0x41 &&& 0x0F, 0xAB, 1)] :=
  ⟨(switch_write_routes_to_selected writeRecorder MSXDeviceSwitch.twoDevices [] 5 9 50 90 0x40 0x41
      0xAB 0 1 (by decide) (by decide) (by decide) (by decide) (by decide)).1,
   (switch_write_routes_to_selected writeRecorder MSXDeviceSwitch.twoDevices [] 5 9 50 90 0x40 0x41
      0xAB 0 1 (by decide) (by decide) (by decide) (by decide) (by decide)).2.2.1⟩

/-- C7: `registerDevice(id, device)` throws if and only if an entry for `id` is
already present; when it throws, the switch (devices, count, selected) is as
before and no call was made on the bus; when it returns, exactly entry `id` is
set to the new device, `count` has grown by one and `selected` is as before. -/
theorem registerDevice_throws_iff_taken (sw : MSXDeviceSwitch) (this : DevicePtr) (id : byte)
    (device : Option Nat) :
    ((∃ e, (sw.registerDevice this id device).1 = Except.error e) ↔ sw.devices id ≠ none) ∧
    (sw.devices id ≠ none → (sw.registerDevice this id device).2 = (sw, [])) ∧
    (sw.devices id = none →
      (sw.registerDevice this id device).1 = Except.ok () ∧
      (sw.registerDevice this id device).2.1
        = { devices := Function.update sw.devices id device
            count := sw.count + 1
            selected := sw.selected }) := by
  cases h : sw.devices id with
  | none => simp [MSXDeviceSwitch.registerDevice, h]
  | some d => simp [MSXDeviceSwitch.registerDevice, h]

/-- Witness of `registerDevice_throws_iff_taken`: a second registration at id 5
of the switch `twoDevices` throws and leaves the switch as it was. -/
theorem registerDevice_throws_iff_taken_witness :
    ( MSXDeviceSwitch.twoDevices.registerDevice (DevicePtr.dev 1) 5 (some 51)).2
      = (MSXDeviceSwitch.twoDevices, []) :=
  (registerDevice_throws_iff_taken MSXDeviceSwitch.twoDevices (DevicePtr.dev 1) 5 (some 51)).2.1
    (by decide)

theorem MSXDeviceSwitch.count_zero_iff (sw : MSXDeviceSwitch) (h : sw.CountInvariant) :
    sw.count = 0 ↔ ∀ i, i < 256 → sw.devices i = none := by
  unfold MSXDeviceSwitch.CountInvariant at h
  rw [h]
  simp only [Int.natCast_eq_zero, List.length_eq_zero, MSXDeviceSwitch.registeredIds,
    List.filter_eq_nil_iff, List.mem_range]
  constructor
  · intro hall i hi
    have := hall i hi
    cases hdi : sw.devices i with
    | none => rfl
    | some d => simp [hdi] at this
  · intro hall i hi
    simp [hall i hi]

/-- C8: `registerDevice` claims the window on the bus, that is, calls
`register_IO_In` and `register_IO_Out` with the switch as device for each of the
ports 0x40..0x4F in turn, exactly when `count` was 0 before the call and the
registration succeeds; any other call (a throw, or a successful registration
with `count` not 0) makes no call on the bus; and on a switch whose counter
agrees with its table, `count == 0` says that the table is empty. -/
theorem registerDevice_claims_window_once (sw : MSXDeviceSwitch) (this : DevicePtr) (id : byte)
    (device : Option Nat) :
    (sw.count = 0 ∧ sw.devices id = none →
      (sw.registerDevice this id device).2.2
        = (List.range' 0x40 16).flatMap fun port =>
            [BusCall.register_IO_In port this, BusCall.register_IO_Out port this]) ∧
    (¬ (sw.count = 0 ∧ sw.devices id = none) → (sw.registerDevice this id device).2.2 = []) ∧
    (sw.CountInvariant → (sw.count = 0 ↔ ∀ i, i < 256 → sw.devices i = none)) := by
  refine ⟨?_, ?_, MSXDeviceSwitch.count_zero_iff sw⟩
  · rintro ⟨hc, hd⟩
    simp only [MSXDeviceSwitch.registerDevice, hd, hc]
    rfl
  · intro h
    cases hd : sw.devices id with
    | some d => simp [MSXDeviceSwitch.registerDevice, hd]
    | none =>
      have hc : sw.count ≠ 0 := fun hc => h ⟨hc, hd⟩
      simp [MSXDeviceSwitch.registerDevice, hd, hc]

/-- Witness of `registerDevice_claims_window_once`: the first registration on a
new switch makes the 32 calls, the second one (id 9 on `oneDevice`) makes
none. -/
theorem registerDevice_claims_window_once_witness :
    ( MSXDeviceSwitch.ctor.registerDevice (DevicePtr.dev 1) 5 (some 50)).2.2
      = ((List.range' 0x40 16).flatMap fun port =>
          [BusCall.register_IO_In port (DevicePtr.dev 1), BusCall.register_IO_Out port (DevicePtr.dev 1)]) ∧
    ( MSXDeviceSwitch.oneDevice.registerDevice (DevicePtr.dev 1) 9 (some 90)).2.2 = [] :=
  ⟨(registerDevice_claims_window_once MSXDeviceSwitch.ctor (DevicePtr.dev 1) 5 (some 50)).1
      ⟨rfl, rfl⟩,
   (registerDevice_claims_window_once MSXDeviceSwitch.oneDevice (DevicePtr.dev 1) 9 (some 90)).2.1
      (by decide)⟩

theorem MSXDeviceSwitch.mem_registeredIds (sw : MSXDeviceSwitch) (j : Nat) :
    j ∈ sw.registeredIds ↔ j < 256 ∧ sw.devices j ≠ none := by
  simp only [MSXDeviceSwitch.registeredIds, List.mem_filter, List.mem_range, ne_eq]
  cases sw.devices j <;> simp

theorem MSXDeviceSwitch.count_one_iff (sw : MSXDeviceSwitch) (id d : Nat)
    (h : sw.CountInvariant) (hid : id < 256) (hreg : sw.devices id = some d) :
    sw.count = 1 ↔ ∀ j, j < 256 → j ≠ id → sw.devices j = none := by
  unfold MSXDeviceSwitch.CountInvariant at h
  have hmem : id ∈ sw.registeredIds := (sw.mem_registeredIds id).2 ⟨hid, by simp [hreg]⟩
  constructor
  · intro hc j hj hne
    rw [hc] at h
    have hlen : sw.registeredIds.length = 1 := by exact_mod_cast h.symm
    obtain ⟨x, hx⟩ := List.length_eq_one.mp hlen
    by_contra hreg'
    have hj' : j ∈ sw.registeredIds := (sw.mem_registeredIds j).2 ⟨hj, hreg'⟩
    rw [hx, List.mem_singleton] at hmem hj'
    exact hne (hj'.trans hmem.symm)
  · intro hall
    rw [h]
    have hfilter : sw.registeredIds = (List.range 256).filter (fun i => i == id) := by
      unfold MSXDeviceSwitch.registeredIds
      apply List.filter_congr
      intro x hx
      rw [List.mem_range] at hx
      by_cases hxid : x = id
      · subst hxid; simp [hreg]
      · simp [hall x hx hxid, hxid]
    have hcount : List.count id (List.range 256) = 1 :=
      List.count_eq_one_of_mem (List.nodup_range 256) (List.mem_range.2 hid)
    have hlen : sw.registeredIds.length = 1 := by
      rw [hfilter, ← hcount, List.count_eq_countP, List.countP_eq_length_filter]
    exact_mod_cast hlen

theorem BusCall.run_unregister_loop (n : Nat) (port : Nat) (this : DevicePtr) (b : MSXMotherBoard)
    (h : ∀ p, port ≤ p → p < port + n → b.IO_In p = this ∧ b.IO_Out p = this) :
    ∃ b', BusCall.run (MSXDeviceSwitch.unregisterDevice.loop n port this) b = some b' ∧
      (∀ p, port ≤ p → p < port + n →
        b'.IO_In p = DummyDevice.instance ∧ b'.IO_Out p = DummyDevice.instance) ∧
      (∀ p, p < port → b'.IO_In p = b.IO_In p ∧ b'.IO_Out p = b.IO_Out p) := by
  induction n generalizing port b with
  | zero =>
    refine ⟨b, rfl, ?_, fun p _ => ⟨rfl, rfl⟩⟩
    intro p h1 h2
    omega
  | succ n ih =>
    have hp := h port (le_refl _) (by omega)
    obtain ⟨b', hrun, hwin, hframe⟩ := ih (port + 1)
      { b with
        IO_In := Function.update b.IO_In port DummyDevice.instance
        IO_Out := Function.update b.IO_Out port DummyDevice.instance }
      (by
        intro p h1 h2
        have hne : p ≠ port := by omega
        simpa [Function.update, hne] using h p (by omega) (by omega))
    refine ⟨b', ?_, ?_, ?_⟩
    · simp only [MSXDeviceSwitch.unregisterDevice.loop, BusCall.run, BusCall.apply,
        MSXMotherBoard.unregister_IO_Out, MSXMotherBoard.unregister_IO_In, hp.1, hp.2, if_true]
      exact hrun
    · intro p h1 h2
      by_cases hpp : p = port
      · subst hpp
        simpa using hframe p (by omega)
      · exact hwin p (by omega) (by omega)
    · intro p hlt
      have hne : p ≠ port := by omega
      simpa [Function.update, hne] using hframe p (by omega)

theorem MSXMotherBoard.writeMem_loop_frame (n : Nat) (s : MSXMotherBoard) (c i : Nat) (value : byte) :
    ∃ sec vis, MSXMotherBoard.writeMem.loop n s c i value
      = { s with SecondarySlotState := sec, visibleDevices := vis } := by
  induction n generalizing s i value with
  | zero => exact ⟨s.SecondarySlotState, s.visibleDevices, rfl⟩
  | succ n ih =>
    simp only [MSXMotherBoard.writeMem.loop]
    obtain ⟨sec, vis, h⟩ := ih (MSXMotherBoard.writeMem.body s c i value) (i + 1) (value >>> 2)
    rw [h]
    unfold MSXMotherBoard.writeMem.body
    split
    · exact ⟨sec, vis, rfl⟩
    · exact ⟨sec, vis, rfl⟩

theorem MSXMotherBoard.writeMem_loop_pages (n : Nat) (s : MSXMotherBoard) (c i : Nat)
    (value : byte) (page : Nat) :
    (MSXMotherBoard.writeMem.loop n s c i value).SecondarySlotState page
      = (if i ≤ page ∧ page < i + n ∧ c = s.PrimarySlotState page then
           (value >>> (2 * (page - i))) &&& 3
         else s.SecondarySlotState page) ∧
    (MSXMotherBoard.writeMem.loop n s c i value).visibleDevices page
      = (if i ≤ page ∧ page < i + n ∧ c = s.PrimarySlotState page then
           s.SlotLayout (s.PrimarySlotState page) ((value >>> (2 * (page - i))) &&& 3) page
         else s.visibleDevices page) := by
  induction n generalizing s i value with
  | zero =>
    have : ¬ (i ≤ page ∧ page < i + 0 ∧ c = s.PrimarySlotState page) := by omega
    simp only [MSXMotherBoard.writeMem.loop, if_neg this, and_self]
  | succ n ih =>
    simp only [MSXMotherBoard.writeMem.loop]
    rw [(ih (MSXMotherBoard.writeMem.body s c i value) (i + 1) (value >>> 2)).1,
      (ih (MSXMotherBoard.writeMem.body s c i value) (i + 1) (value >>> 2)).2]
    have hprim : (MSXMotherBoard.writeMem.body s c i value).PrimarySlotState = s.PrimarySlotState := by
      unfold MSXMotherBoard.writeMem.body; split <;> rfl
    have hlay : (MSXMotherBoard.writeMem.body s c i value).SlotLayout = s.SlotLayout := by
      unfold MSXMotherBoard.writeMem.body; split <;> rfl
    rw [hprim, hlay]
    by_cases hc : c = s.PrimarySlotState page
    · rcases Nat.lt_trichotomy page i with hlt | heq | hgt
      · have h1 : ¬ (i + 1 ≤ page ∧ page < i + 1 + n ∧ c = s.PrimarySlotState page) := by omega
        have h2 : ¬ (i ≤ page ∧ page < i + (n + 1) ∧ c = s.PrimarySlotState page) := by omega
        have hne : page ≠ i := by omega
        rw [if_neg h1, if_neg h2, if_neg h1, if_neg h2]
        unfold MSXMotherBoard.writeMem.body
        split <;> simp [Function.update, hne]
      · subst heq
        have h1 : ¬ (page + 1 ≤ page ∧ page < page + 1 + n ∧ c = s.PrimarySlotState page) := by omega
        have h2 : page ≤ page ∧ page < page + (n + 1) ∧ c = s.PrimarySlotState page :=
          ⟨le_refl _, by omega, hc⟩
        rw [if_neg h1, if_pos h2, if_neg h1, if_pos h2]
        simp [MSXMotherBoard.writeMem.body, hc]
      · have h1 : i + 1 ≤ page ∧ page < i + 1 + n ∧ c = s.PrimarySlotState page ↔
            i ≤ page ∧ page < i + (n + 1) ∧ c = s.PrimarySlotState page := by
          constructor <;> rintro ⟨a, b, c⟩ <;> exact ⟨by omega, by omega, c⟩
        have hshift : value >>> 2 >>> (2 * (page - (i + 1))) = value >>> (2 * (page - i)) := by
          rw [← Nat.shiftRight_add]
          congr 1
          omega
        have hne : page ≠ i := by omega
        have hbody : (MSXMotherBoard.writeMem.body s c i value).SecondarySlotState page
              = s.SecondarySlotState page ∧
            (MSXMotherBoard.writeMem.body s c i value).visibleDevices page = s.visibleDevices page := by
          unfold MSXMotherBoard.writeMem.body
          split <;> simp [Function.update, hne]
        simp only [h1, hshift, hbody.1, hbody.2, and_self]
    · have h1 : ¬ (i + 1 ≤ page ∧ page < i + 1 + n ∧ c = s.PrimarySlotState page) := fun h => hc h.2.2
      have h2 : ¬ (i ≤ page ∧ page < i + (n + 1) ∧ c = s.PrimarySlotState page) := fun h => hc h.2.2
      rw [if_neg h1, if_neg h2, if_neg h1, if_neg h2]
      unfold MSXMotherBoard.writeMem.body
      split
      · by_cases hpi : page = i
        · subst hpi; contradiction
        · simp [Function.update, hpi]
      · exact ⟨rfl, rfl⟩

theorem MSXMotherBoard.xor_255 (v : Nat) (hv : v < 256) : 255 ^^^ v = 255 - v := by
  interval_cases v <;> rfl

/-- C13: secondary-select register round trip.  When the primary slot selected
for page 3 is subslotted, `writeMem(0xFFFF, v)` followed by `readMem(0xFFFF)`
returns `255 XOR v`, which for a byte `v` is its bit-inverse `255 - v`; both
accesses leave the device world as it was (no device is called) and the read
leaves the bus as the write left it. -/
theorem subslot_register_round_trip {σ : Type} (D : Devices σ) (s : MSXMotherBoard) (w : σ)
    (v : byte) (t1 t2 : EmuTime)
    (hsub : s.isSubSlotted ((s.A8_Register >>> 6) &&& 3) = true) :
    (MSXMotherBoard.writeMem D s w 0xFFFF v t1).2 = w ∧
    MSXMotherBoard.readMem D (MSXMotherBoard.writeMem D s w 0xFFFF v t1).1
        (MSXMotherBoard.writeMem D s w 0xFFFF v t1).2 0xFFFF t2
      = (255 ^^^ v, (MSXMotherBoard.writeMem D s w 0xFFFF v t1).1, w) ∧
    (v < 256 → 255 ^^^ v = 255 - v) := by
  have hw : MSXMotherBoard.writeMem D s w 0xFFFF v t1
      = (MSXMotherBoard.writeMem.loop 4
          { s with SubSlot_Register :=
              Function.update s.SubSlot_Register ((s.A8_Register >>> 6) &&& 3) v }
          ((s.A8_Register >>> 6) &&& 3) 0 v, w) := by
    simp only [MSXMotherBoard.writeMem, hsub, and_self, if_true]
  obtain ⟨sec, vis, hloop⟩ := MSXMotherBoard.writeMem_loop_frame 4
    { s with SubSlot_Register :=
        Function.update s.SubSlot_Register ((s.A8_Register >>> 6) &&& 3) v }
    ((s.A8_Register >>> 6) &&& 3) 0 v
  refine ⟨by rw [hw], ?_, MSXMotherBoard.xor_255 v⟩
  rw [hw, hloop]
  simp only [MSXMotherBoard.readMem, hsub, and_self, if_true, Function.update_same]

/-- Witness of `subslot_register_round_trip`: the byte 0x55 written to and read
back from the subslot register of `emptyBoard`. -/
theorem subslot_register_round_trip_witness :
    (MSXMotherBoard.readMem noDevices
        (MSXMotherBoard.writeMem noDevices MSXMotherBoard.emptyBoard () 0xFFFF 0x55 0).1
        (MSXMotherBoard.writeMem noDevices MSXMotherBoard.emptyBoard () 0xFFFF 0x55 0).2 0xFFFF 1).1
      = 0xAA :=
  (congrArg Prod.fst
    (subslot_register_round_trip noDevices MSXMotherBoard.emptyBoard () 0x55 0 1 (by decide)).2.1).trans
    (by decide)

/-- C20: effect and frame of a secondary-select write.  When the primary slot `p`
selected for page 3 is subslotted, `writeMem(0xFFFF, v)` calls no device, sets
`SubSlot_Register[p] = v` and no other subslot register, and for every page `i`
in 0..3: if `PrimarySlotState[i] == p` it sets `SecondarySlotState[i]` to
`(v >> 2i) & 3` and `visibleDevices[i]` to the slot-layout entry of that
subslot, otherwise it leaves both as they were; `PrimarySlotState`,
`A8_Register`, `SlotLayout`, the I/O tables, the subslot flags, the device list
and the interrupt counter are unchanged. -/
theorem secondary_write_effect {σ : Type} (D : Devices σ) (s : MSXMotherBoard) (w : σ)
    (v : byte) (time : EmuTime)
    (hsub : s.isSubSlotted ((s.A8_Register >>> 6) &&& 3) = true) :
    (MSXMotherBoard.writeMem D s w 0xFFFF v time).2 = w ∧
    (MSXMotherBoard.writeMem D s w 0xFFFF v time).1.SubSlot_Register
      = Function.update s.SubSlot_Register ((s.A8_Register >>> 6) &&& 3) v ∧
    (∀ i, i < 4 → s.PrimarySlotState i = (s.A8_Register >>> 6) &&& 3 →
      (MSXMotherBoard.writeMem D s w 0xFFFF v time).1.SecondarySlotState i = (v >>> (2 * i)) &&& 3 ∧
      (MSXMotherBoard.writeMem D s w 0xFFFF v time).1.visibleDevices i
        = s.SlotLayout ((s.A8_Register >>> 6) &&& 3) ((v >>> (2 * i)) &&& 3) i) ∧
    (∀ i, i < 4 → s.PrimarySlotState i ≠ (s.A8_Register >>> 6) &&& 3 →
      (MSXMotherBoard.writeMem D s w 0xFFFF v time).1.SecondarySlotState i = s.SecondarySlotState i ∧
      (MSXMotherBoard.writeMem D s w 0xFFFF v time).1.visibleDevices i = s.visibleDevices i) ∧
    (MSXMotherBoard.writeMem D s w 0xFFFF v time).1.PrimarySlotState = s.PrimarySlotState ∧
    (MSXMotherBoard.writeMem D s w 0xFFFF v time).1.A8_Register = s.A8_Register ∧
    (MSXMotherBoard.writeMem D s w 0xFFFF v time).1.SlotLayout = s.SlotLayout ∧
    (MSXMotherBoard.writeMem D s w 0xFFFF v time).1.IO_In = s.IO_In ∧
    (MSXMotherBoard.writeMem D s w 0xFFFF v time).1.IO_Out = s.IO_Out ∧
    (MSXMotherBoard.writeMem D s w 0xFFFF v time).1.isSubSlotted = s.isSubSlotted ∧
    (MSXMotherBoard.writeMem D s w 0xFFFF v time).1.availableDevices = s.availableDevices ∧
    (MSXMotherBoard.writeMem D s w 0xFFFF v time).1.IRQLine = s.IRQLine := by
  have hw : MSXMotherBoard.writeMem D s w 0xFFFF v time
      = (MSXMotherBoard.writeMem.loop 4
          { s with SubSlot_Register :=
              Function.update s.SubSlot_Register ((s.A8_Register >>> 6) &&& 3) v }
          ((s.A8_Register >>> 6) &&& 3) 0 v, w) := by
    simp only [MSXMotherBoard.writeMem, hsub, and_self, if_true]
  have hpages := MSXMotherBoard.writeMem_loop_pages 4
    { s with SubSlot_Register :=
        Function.update s.SubSlot_Register ((s.A8_Register >>> 6) &&& 3) v }
    ((s.A8_Register >>> 6) &&& 3) 0 v
  obtain ⟨sec, vis, hloop⟩ := MSXMotherBoard.writeMem_loop_frame 4
    { s with SubSlot_Register :=
        Function.update s.SubSlot_Register ((s.A8_Register >>> 6) &&& 3) v }
    ((s.A8_Register >>> 6) &&& 3) 0 v
  rw [hw]
  refine ⟨rfl, by rw [hloop], ?_, ?_, by rw [hloop], by rw [hloop], by rw [hloop], by rw [hloop],
    by rw [hloop], by rw [hloop], by rw [hloop], by rw [hloop]⟩
  · intro i hi hp
    have hcond : 0 ≤ i ∧ i < 0 + 4 ∧ (s.A8_Register >>> 6) &&& 3 = s.PrimarySlotState i :=
      ⟨Nat.zero_le _, by omega, hp.symm⟩
    have h := hpages i
    simp only [if_pos hcond, Nat.sub_zero] at h
    refine ⟨h.1, ?_⟩
    rw [h.2, hp]
  · intro i _ hp
    have hcond : ¬ (0 ≤ i ∧ i < 0 + 4 ∧ (s.A8_Register >>> 6) &&& 3 = s.PrimarySlotState i) :=
      fun h => hp h.2.2.symm
    have h := hpages i
    simp only [if_neg hcond] at h
    exact h

/-- Witness of `secondary_write_effect`: 0x1B written to the subslot register of
`staleBoard`, whose page 0 shows primary slot 1 and whose pages 1..3 show the
subslotted slot 0: subslot 2 = `(0x1B >> 2) & 3` is selected in page 1 and
page 0 keeps the subslot it had. -/
theorem secondary_write_effect_witness :
    (MSXMotherBoard.writeMem noDevices MSXMotherBoard.staleBoard () 0xFFFF 0x1B 0).1.SecondarySlotState 1
      = 2 ∧
    (MSXMotherBoard.writeMem noDevices MSXMotherBoard.staleBoard () 0xFFFF 0x1B 0).1.SecondarySlotState 0
      = MSXMotherBoard.staleBoard.SecondarySlotState 0 :=
  ⟨((secondary_write_effect noDevices MSXMotherBoard.staleBoard () 0x1B 0 (by decide)).2.2.1 1
      (by decide) (by decide)).1.trans (by decide),
   ((secondary_write_effect noDevices MSXMotherBoard.staleBoard () 0x1B 0 (by decide)).2.2.2.1 0
      (by decide) (by decide)).1⟩

theorem MSXMotherBoard.set_A8_Register_frame (s : MSXMotherBoard) (value : byte) :
    ∃ prim sec vis, s.set_A8_Register value
      = { s with A8_Register := value, PrimarySlotState := prim, SecondarySlotState := sec,
                 visibleDevices := vis } :=
  ⟨_, _, _, rfl⟩

theorem MSXMotherBoard.set_A8_Register_pages (s : MSXMotherBoard) (value : byte) (page : Nat)
    (hpage : page < 4) :
    (s.set_A8_Register value).PrimarySlotState page = (value >>> (2 * page)) &&& 3 ∧
    (s.set_A8_Register value).SecondarySlotState page
      = 3 &&& (s.SubSlot_Register ((value >>> (2 * page)) &&& 3) >>> (page * 2)) := by
  have h2 : value >>> 2 >>> 2 = value >>> 4 := by rw [← Nat.shiftRight_add]
  have h3 : value >>> 4 >>> 2 = value >>> 6 := by rw [← Nat.shiftRight_add]
  interval_cases page <;>
    simp [MSXMotherBoard.set_A8_Register, MSXMotherBoard.set_A8_Register.loop,
      MSXMotherBoard.set_A8_Register.body, Function.update, h2, h3]

theorem MSXMotherBoard.ResetMSX_loop_eq_foldl {σ : Type} (D : Devices σ) (time : EmuTime)
    (ds : List DevicePtr) (w : σ) :
    MSXMotherBoard.ResetMSX.loop D time ds w = ds.foldl (fun w d => DevicePtr.reset D d time w) w := by
  induction ds generalizing w with
  | nil => rfl
  | cons d ds ih => simp only [MSXMotherBoard.ResetMSX.loop, List.foldl_cons, ih]

theorem MSXMotherBoard.addDevice_foldl (s : MSXMotherBoard) (ds : List DevicePtr) :
    (ds.foldl (fun s d => s.addDevice d) s).availableDevices = s.availableDevices ++ ds := by
  induction ds generalizing s with
  | nil => simp
  | cons d ds ih =>
    rw [List.foldl_cons, ih]
    simp [MSXMotherBoard.addDevice]

theorem MSXMotherBoard.ResetMSX_loop_recorded (time : EmuTime) (ids : List Nat)
    (w : List (Nat × EmuTime)) :
    MSXMotherBoard.ResetMSX.loop resetRecorder time (ids.map DevicePtr.dev) w
      = w ++ ids.map fun id => (id, time) := by
  induction ids generalizing w with
  | nil => simp [MSXMotherBoard.ResetMSX.loop]
  | cons id ids ih =>
    simp only [List.map_cons, MSXMotherBoard.ResetMSX.loop]
    rw [ih]
    simp [DevicePtr.reset, resetRecorder]

/-- C14: `ResetMSX(time)` calls `reset(time)` on the devices of
`availableDevices` first to last, once for each entry: after the devices `ids`
were added in order with `addDevice` to a newly constructed machine, the
recorded calls are exactly those devices in that order, each with `time`; it
sets the interrupt counter to 0 and `A8_Register` to 0, and for every page in
0..3 it sets `PrimarySlotState` to 0, `SecondarySlotState` to the page's field
of the subslot register of slot 0 and `visibleDevices` to the matching
slot-layout entry. -/
theorem ResetMSX_resets_all {σ : Type} (D : Devices σ) (s raw : MSXMotherBoard) (w : σ)
    (time : EmuTime) (ids : List Nat) :
    (MSXMotherBoard.ResetMSX D s w time).2
      = s.availableDevices.foldl (fun w d => DevicePtr.reset D d time w) w ∧
    (MSXMotherBoard.ResetMSX resetRecorder
        ((ids.map DevicePtr.dev).foldl (fun s d => s.addDevice d) (MSXMotherBoard.ctor raw)) []
        time).2
      = ids.map (fun id => (id, time)) ∧
    (MSXMotherBoard.ResetMSX D s w time).1.IRQLine = 0 ∧
    (MSXMotherBoard.ResetMSX D s w time).1.A8_Register = 0 ∧
    (MSXMotherBoard.ResetMSX D s w time).1.SlotLayout = s.SlotLayout ∧
    (MSXMotherBoard.ResetMSX D s w time).1.availableDevices = s.availableDevices ∧
    (∀ page, page < 4 →
      (MSXMotherBoard.ResetMSX D s w time).1.PrimarySlotState page = 0 ∧
      (MSXMotherBoard.ResetMSX D s w time).1.SecondarySlotState page
        = 3 &&& (s.SubSlot_Register 0 >>> (page * 2)) ∧
      (MSXMotherBoard.ResetMSX D s w time).1.visibleDevices page
        = s.SlotLayout 0 (3 &&& (s.SubSlot_Register 0 >>> (page * 2))) page) := by
  obtain ⟨prim, sec, vis, hframe⟩ :=
    MSXMotherBoard.set_A8_Register_frame { s with IRQLine := 0 } 0
  have havail : ((({ s with IRQLine := 0 } : MSXMotherBoard).set_A8_Register 0)).availableDevices
      = s.availableDevices := by rw [hframe]
  refine ⟨?_, ?_, ?_, ?_, ?_, ?_, ?_⟩
  · simp only [MSXMotherBoard.ResetMSX, havail, MSXMotherBoard.ResetMSX_loop_eq_foldl]
  · obtain ⟨prim', sec', vis', hframe'⟩ := MSXMotherBoard.set_A8_Register_frame
      { ((ids.map DevicePtr.dev).foldl (fun s d => s.addDevice d) (MSXMotherBoard.ctor raw)) with
        IRQLine := 0 } 0
    simp only [MSXMotherBoard.ResetMSX]
    rw [hframe']
    simp only [MSXMotherBoard.addDevice_foldl, MSXMotherBoard.ctor, List.nil_append,
      MSXMotherBoard.ResetMSX_loop_recorded]
  · simp only [MSXMotherBoard.ResetMSX]; rw [hframe]
  · simp only [MSXMotherBoard.ResetMSX]; rw [hframe]
  · simp only [MSXMotherBoard.ResetMSX]; rw [hframe]
  · simp only [MSXMotherBoard.ResetMSX]; rw [hframe]
  · intro page hpage
    have hp := MSXMotherBoard.set_A8_Register_pages { s with IRQLine := 0 } 0 page hpage
    have hinv := MSXMotherBoard.set_A8_Register_mapping { s with IRQLine := 0 } 0 page hpage
    have hlay : (({ s with IRQLine := 0 } : MSXMotherBoard).set_A8_Register 0).SlotLayout
        = s.SlotLayout := by rw [hframe]
    simp only [Nat.zero_shiftRight, Nat.zero_and] at hp
    simp only [MSXMotherBoard.ResetMSX]
    refine ⟨hp.1, hp.2, ?_⟩
    rw [hinv, hp.1, hp.2, hlay]

/-- Witness of `ResetMSX_resets_all`: devices 4, 2 and 9 added in this order to
the machine `zero`, then `ResetMSX(7)`. -/
theorem ResetMSX_resets_all_witness :
    (MSXMotherBoard.ResetMSX resetRecorder
        ((([4, 2, 9] : List Nat).map DevicePtr.dev).foldl (fun s d => s.addDevice d)
          (MSXMotherBoard.ctor MSXMotherBoard.zero)) [] 7).2
      = [(4, 7), (2, 7), (9, 7)] ∧
    (MSXMotherBoard.ResetMSX noDevices MSXMotherBoard.staleBoard () 7).1.PrimarySlotState 0 = 0 :=
  ⟨(ResetMSX_resets_all noDevices MSXMotherBoard.zero MSXMotherBoard.zero () 7 [4, 2, 9]).2.1,
   ((ResetMSX_resets_all noDevices MSXMotherBoard.staleBoard MSXMotherBoard.zero () 7 []).2.2.2.2.2.2
      0 (by decide)).1⟩

/-- C15: I/O dispatch.  For every port argument `prt`, `readIO(prt)` returns the
result of the `readIO` of the device at `IO_In[prt mod 256]` and changes the
device world by that call alone; `writeIO(prt, v)` is the one `writeIO` call on
the device at `IO_Out[prt mod 256]` (on the recording world: exactly that call
is recorded); neither changes the bus; on a port whose entry is the sentinel,
as every entry of a newly constructed machine is, the read returns 0xFF and the
write is discarded, both leaving the device world as it was. -/
theorem io_dispatch {σ : Type} (D : Devices σ) (s raw : MSXMotherBoard) (w : σ) (prt : word)
    (value : byte) (time : EmuTime) :
    MSXMotherBoard.readIO D s w prt time
      = (( DevicePtr.readIO D (s.IO_In (prt % 256)) (prt % 256) time w).1, s,
         ( DevicePtr.readIO D (s.IO_In (prt % 256)) (prt % 256) time w).2) ∧
    MSXMotherBoard.writeIO D s w prt value time
      = (s, DevicePtr.writeIO D (s.IO_Out (prt % 256)) (prt % 256) value time w) ∧
    (∀ id, s.IO_Out (prt % 256) = DevicePtr.dev id →
      ( MSXMotherBoard.writeIO portWriteRecorder s [] prt value time).2
        = [(id, prt % 256, value, time)]) ∧
    (s.IO_In (prt % 256) = DummyDevice.instance →
      MSXMotherBoard.readIO D s w prt time = (0xFF, s, w)) ∧
    (s.IO_Out (prt % 256) = DummyDevice.instance →
      MSXMotherBoard.writeIO D s w prt value time = (s, w)) ∧
    (MSXMotherBoard.ctor raw).IO_In (prt % 256) = DummyDevice.instance ∧
    (MSXMotherBoard.ctor raw).IO_Out (prt % 256) = DummyDevice.instance := by
  refine ⟨rfl, rfl, ?_, ?_, ?_, rfl, rfl⟩
  · intro id h
    simp only [ MSXMotherBoard.writeIO, h, DevicePtr.writeIO, portWriteRecorder, List.nil_append]
  · intro h
    simp only [ MSXMotherBoard.readIO, h, DummyDevice.instance, DevicePtr.readIO, DummyDevice.readIO]
  · intro h
    simp only [ MSXMotherBoard.writeIO, h, DummyDevice.instance, DevicePtr.writeIO,
      DummyDevice.writeIO]

/-- Witness of `io_dispatch`: device 3 owns Out-port 0x98 of the machine `zero`;
the write of 0x5A through the port argument 0x1298 is recorded as one call on
device 3 with port 0x98, and the read of the unclaimed In-port returns 0xFF. -/
theorem io_dispatch_witness :
    ( MSXMotherBoard.writeIO portWriteRecorder
        (MSXMotherBoard.zero.register_IO_Out 0x98 (DevicePtr.dev 3)) [] 0x1298 0x5A 2).2
      = [(3, 0x1298 % 256, 0x5A, 2)] ∧
    MSXMotherBoard.readIO portWriteRecorder
        (MSXMotherBoard.zero.register_IO_Out 0x98 (DevicePtr.dev 3)) [] 0x1298 2
      = (0xFF, MSXMotherBoard.zero.register_IO_Out 0x98 (DevicePtr.dev 3), []) :=
  ⟨(io_dispatch portWriteRecorder (MSXMotherBoard.zero.register_IO_Out 0x98 (DevicePtr.dev 3))
      MSXMotherBoard.zero [] 0x1298 0x5A 2).2.2.1 3 (by decide),
   (io_dispatch portWriteRecorder (MSXMotherBoard.zero.register_IO_Out 0x98 (DevicePtr.dev 3))
      MSXMotherBoard.zero [] 0x1298 0x5A 2).2.2.2.1 (by decide)⟩

/-- C19 (as stated, refuted): the started machine `started` satisfies the mapping
invariant, its page 0 shows slot 0, subslot 0, and after
`registerSlottedDevice(dev 7, 0, 0, 0)` the slot layout has device 7 at that
coordinate while `visibleDevices[0]` is still the dummy device. -/
theorem register_into_view_counterexample :
    MSXMotherBoard.MappingInvariant MSXMotherBoard.started ∧
    MSXMotherBoard.started.PrimarySlotState 0 = 0 ∧
    MSXMotherBoard.started.SecondarySlotState 0 = 0 ∧
    BusOp.apply noDevices (BusOp.registerSlottedDevice (DevicePtr.dev 7) 0 0 0) (MSXMotherBoard.started, ())
      = some (MSXMotherBoard.started.registerSlottedDevice (DevicePtr.dev 7) 0 0 0, ()) ∧
    (MSXMotherBoard.started.registerSlottedDevice (DevicePtr.dev 7) 0 0 0).SlotLayout 0 0 0
      = DevicePtr.dev 7 ∧
    (MSXMotherBoard.started.registerSlottedDevice (DevicePtr.dev 7) 0 0 0).visibleDevices 0
      = DevicePtr.dummy ∧
    ¬ MSXMotherBoard.MappingInvariant
        (MSXMotherBoard.started.registerSlottedDevice (DevicePtr.dev 7) 0 0 0) := by
  refine ⟨by decide, by decide, by decide, rfl, by decide, by decide, by decide⟩

theorem MSXMotherBoard.registerSlottedDevice_mapping (s : MSXMotherBoard) (device : DevicePtr)
    (primSl secSl page : Nat) (h : MappingInvariant s)
    (hview : ¬ (s.SlotLayout primSl secSl page = DummyDevice.instance ∧ page < 4 ∧
      s.PrimarySlotState page = primSl ∧ s.SecondarySlotState page = secSl)) :
    MappingInvariant (s.registerSlottedDevice device primSl secSl page) := by
  intro pg hpg
  unfold MSXMotherBoard.registerSlottedDevice
  split
  · rename_i hfree
    have hne : ¬ (s.PrimarySlotState pg = primSl ∧ s.SecondarySlotState pg = secSl ∧ pg = page) := by
      rintro ⟨h1, h2, h3⟩
      subst h3
      exact hview ⟨hfree, hpg, h1, h2⟩
    simp only
    rw [h pg hpg]
    by_cases h1 : s.PrimarySlotState pg = primSl
    · by_cases h2 : s.SecondarySlotState pg = secSl
      · have h3 : pg ≠ page := fun h3 => hne ⟨h1, h2, h3⟩
        simp [Function.update, h1, h2, h3]
      · subst h1
        simp [Function.update, h2]
    · simp [Function.update, h1]
  · exact h pg hpg

/-- C19 (amended): every bus operation that returns, applied to a state that
satisfies the mapping invariant, yields a state that satisfies it, except a
`registerSlottedDevice` into a free coordinate that is currently mapped into its
page; and `set_A8_Register` and `ResetMSX` yield a state that satisfies it
whatever the state before. -/
theorem bus_operations_keep_mapping {σ : Type} (D : Devices σ) (op : BusOp)
    (st st' : MSXMotherBoard × σ) (hinv : MSXMotherBoard.MappingInvariant st.1)
    (hop : ¬ op.registersIntoView st.1) (happly : op.apply D st = some st') :
    MSXMotherBoard.MappingInvariant st'.1 ∧
    (∀ (s : MSXMotherBoard) (w : σ) (value : byte) (time : EmuTime),
      MSXMotherBoard.MappingInvariant (s.set_A8_Register value) ∧
      MSXMotherBoard.MappingInvariant (MSXMotherBoard.ResetMSX D s w time).1) := by
  refine ⟨?_, fun s w value time => ⟨MSXMotherBoard.set_A8_Register_mapping s value,
    MSXMotherBoard.set_A8_Register_mapping _ 0⟩⟩
  cases op with
  | register_IO_In port device =>
    simp only [BusOp.apply, Option.some.injEq] at happly; subst happly
    unfold MSXMotherBoard.register_IO_In; split <;> exact hinv
  | register_IO_Out port device =>
    simp only [BusOp.apply, Option.some.injEq] at happly; subst happly
    unfold MSXMotherBoard.register_IO_Out; split <;> exact hinv
  | addDevice device =>
    simp only [BusOp.apply, Option.some.injEq] at happly; subst happly
    exact hinv
  | registerSlottedDevice device primSl secSl page =>
    simp only [BusOp.apply, Option.some.injEq] at happly; subst happly
    exact MSXMotherBoard.registerSlottedDevice_mapping st.1 device primSl secSl page hinv hop
  | ResetMSX time =>
    simp only [BusOp.apply, Option.some.injEq] at happly; subst happly
    exact MSXMotherBoard.set_A8_Register_mapping _ 0
  | set_A8_Register value =>
    simp only [BusOp.apply, Option.some.injEq] at happly; subst happly
    exact MSXMotherBoard.set_A8_Register_mapping _ value
  | readMem address time =>
    simp only [BusOp.apply, Option.some.injEq] at happly; subst happly
    unfold MSXMotherBoard.readMem
    simp only
    split <;> exact hinv
  | writeMem address value time =>
    simp only [BusOp.apply, Option.some.injEq] at happly; subst happly
    exact MSXMotherBoard.writeMem_mapping D st.1 st.2 address value time hinv
  | readIO prt time =>
    simp only [BusOp.apply, Option.some.injEq] at happly; subst happly
    exact hinv
  | writeIO prt value time =>
    simp only [BusOp.apply, Option.some.injEq] at happly; subst happly
    exact hinv
  | raiseIRQ =>
    simp only [BusOp.apply, Option.some.injEq] at happly; subst happly
    exact hinv
  | lowerIRQ =>
    simp only [BusOp.apply, MSXMotherBoard.lowerIRQ] at happly
    split at happly
    · rename_i s' hs'
      split at hs'
      · simp only [Option.some.injEq] at hs' happly
        subst hs'; subst happly
        exact hinv
      · simp at hs'
    · simp at happly

/-- Witness of `bus_operations_keep_mapping`: device 7 registers at slot 1,
subslot 0, page 0 of the started machine, whose page 0 shows slot 0. -/
theorem bus_operations_keep_mapping_witness :
    MSXMotherBoard.MappingInvariant
      (MSXMotherBoard.started.registerSlottedDevice (DevicePtr.dev 7) 1 0 0, ()).1 :=
  (bus_operations_keep_mapping noDevices (BusOp.registerSlottedDevice (DevicePtr.dev 7) 1 0 0)
    (MSXMotherBoard.started, ())
    (MSXMotherBoard.started.registerSlottedDevice (DevicePtr.dev 7) 1 0 0, ())
    (by decide) (by simp [BusOp.registersIntoView]; decide) rfl).1

/-- C17: read path of `MSXDeviceSwitch`.  With no sub-device at the selected id,
`readIO` and `peekIO` return 0xFF and `readIO` calls nothing; with sub-device
`d` there, `readIO` returns the result of `d`'s `readIO` for the same port and
changes the sub-device world by that call alone, and `peekIO` returns the result
of `d`'s `peekIO` for the same port; `readIO` returns the switch as it was
(`peekIO` is a function of the state), and the value of `peekIO` is the same
whatever the `readIO` and `writeIO` methods of the sub-devices are. -/
theorem switch_read_path {σ : Type} (W W' : SwitchedDevices σ) (sw : MSXDeviceSwitch) (w : σ)
    (port : word) (time : EmuTime) :
    (sw.devices sw.selected = none →
      MSXDeviceSwitch.readIO W sw w port time = (0xFF, sw, w) ∧
      MSXDeviceSwitch.peekIO W sw w port time = 0xFF) ∧
    (∀ d, sw.devices sw.selected = some d →
      MSXDeviceSwitch.readIO W sw w port time
        = (( W.readIO d port time w).1, sw, ( W.readIO d port time w).2) ∧
      MSXDeviceSwitch.peekIO W sw w port time = W.peekIO d port time w) ∧
    ( MSXDeviceSwitch.readIO W sw w port time).2.1 = sw ∧
    ( W.peekIO = W'.peekIO →
      MSXDeviceSwitch.peekIO W sw w port time = MSXDeviceSwitch.peekIO W' sw w port time) := by
  refine ⟨?_, ?_, ?_, ?_⟩
  · intro h
    simp only [ MSXDeviceSwitch.readIO, MSXDeviceSwitch.peekIO, h, and_self]
  · intro d h
    simp only [ MSXDeviceSwitch.readIO, MSXDeviceSwitch.peekIO, h, and_self]
  · unfold MSXDeviceSwitch.readIO
    cases sw.devices sw.selected <;> rfl
  · intro h
    unfold MSXDeviceSwitch.peekIO
    rw [h]

/-- Witness of `switch_read_path`: on `twoDevices` with id 9 selected, a read of
port 0x41 is the `readIO` of sub-device 90; with the unregistered id 0 selected
it is 0xFF. -/
theorem switch_read_path_witness :
    MSXDeviceSwitch.readIO countingSubDevices { MSXDeviceSwitch.twoDevices with selected := 9 } 0
        0x41 0
      = ((90 + 0x41) % 256, { MSXDeviceSwitch.twoDevices with selected := 9 }, 1) ∧
    MSXDeviceSwitch.readIO countingSubDevices MSXDeviceSwitch.twoDevices 0 0x41 0
      = (0xFF, MSXDeviceSwitch.twoDevices, 0) :=
  ⟨((switch_read_path countingSubDevices countingSubDevices
      { MSXDeviceSwitch.twoDevices with selected := 9 } 0 0x41 0).2.1 90 (by decide)).1,
   ((switch_read_path countingSubDevices countingSubDevices MSXDeviceSwitch.twoDevices 0 0x41 0).1
      (by decide)).1⟩


theorem YamahaFDC.statusByte_changed (a b c d e f : Bool) :
    YamahaFDC.statusByte a b c d e f &&& 0x04 = (if c then 0x04 else 0) ∧
    YamahaFDC.statusByte a b c d e f &&& 0x08 = (if d then 0x08 else 0) ∧
    YamahaFDC.statusByte a b c d e f &&& 0x0C = (if c then 0x04 else 0) + (if d then 0x08 else 0) := by
  cases a <;> cases b <;> cases c <;> cases d <;> cases e <;> cases f <;> decide

theorem YamahaFDC.peekMem_status {κ μ : Type} (C : WD2793 κ) (M : DriveMultiplexer μ)
    (s : YamahaFDC κ μ) (address : word) (time : EmuTime) (ha : address &&& 0x3FFF = 0x3FE0) :
    YamahaFDC.peekMem C M s address time
      = YamahaFDC.statusByte (M.isDiskInserted s.multiplexer DriveNum.DRIVE_A)
          (M.isDiskInserted s.multiplexer DriveNum.DRIVE_B)
          (M.peekDiskChanged s.multiplexer DriveNum.DRIVE_A)
          (M.peekDiskChanged s.multiplexer DriveNum.DRIVE_B)
          (C.peekIRQ s.controller time) (C.peekDTRQ s.controller time) := by
  unfold YamahaFDC.peekMem
  rw [ha]
  rfl

theorem YamahaFDC.readMem_status {κ μ : Type} (C : WD2793 κ) (M : DriveMultiplexer μ)
    (s : YamahaFDC κ μ) (address : word) (time : EmuTime) (ha : address &&& 0x3FFF = 0x3FE0) :
    YamahaFDC.readMem C M s address time
      = (YamahaFDC.statusByte (M.isDiskInserted s.multiplexer DriveNum.DRIVE_A)
          (M.isDiskInserted s.multiplexer DriveNum.DRIVE_B)
          (M.peekDiskChanged s.multiplexer DriveNum.DRIVE_A)
          (M.peekDiskChanged s.multiplexer DriveNum.DRIVE_B)
          (C.getIRQ s.controller time).1 (C.getDTRQ (C.getIRQ s.controller time).2 time).1,
         { s with controller := (C.getDTRQ (C.getIRQ s.controller time).2 time).2 }) := by
  unfold YamahaFDC.readMem
  rw [ha]
  rfl

theorem YamahaFDC.readMem_strobe {κ μ : Type} (C : WD2793 κ) (M : DriveMultiplexer μ)
    (s : YamahaFDC κ μ) (strobe : word) (time : EmuTime) (hs : strobe &&& 0x3FFF = 0x3FF0) :
    (YamahaFDC.readMem C M s strobe time).2
      = { s with multiplexer := (M.diskChanged s.multiplexer DriveNum.DRIVE_B).2 } := by
  unfold YamahaFDC.readMem
  rw [hs]
  rfl

theorem YamahaFDC.writeMem_strobe {κ μ : Type} (K : WD2793Commands κ) (M : DriveMultiplexer μ)
    (N : DriveControls μ) (s : YamahaFDC κ μ) (strobe : word) (value : byte) (time : EmuTime)
    (hs : strobe &&& 0x3FFF = 0x3FF0) :
    YamahaFDC.writeMem K M N s strobe value time
      = { s with multiplexer := (M.diskChanged s.multiplexer DriveNum.DRIVE_A).2 } := by
  unfold YamahaFDC.writeMem
  rw [hs]
  rfl


theorem CacheLine.and_HIGH (x : Nat) : x &&& CacheLine.HIGH = x % 2 ^ 32 / 2 ^ 8 * 2 ^ 8 := by
  apply Nat.eq_of_testBit_eq
  intro i
  have hm : CacheLine.HIGH = (2 ^ 24 - 1) <<< 8 := by decide
  rw [Nat.testBit_and, hm, ← Nat.shiftLeft_eq, ← Nat.shiftRight_eq_div_pow, Nat.testBit_shiftLeft,
    Nat.testBit_shiftLeft, Nat.testBit_two_pow_sub_one, Nat.testBit_shiftRight,
    Nat.testBit_mod_two_pow]
  by_cases h8 : 8 ≤ i
  · by_cases h32 : i < 32
    · have h24 : i - 8 < 24 := by omega
      have hi : 8 + (i - 8) = i := by omega
      simp [h8, h32, h24, hi]
    · have h24 : ¬ (i - 8 < 24) := by omega
      have hi : 8 + (i - 8) = i := by omega
      simp [h8, h32, h24, hi]
  · simp [h8]

theorem YamahaFDC.trapped_block_iff (x : Nat) :
    x &&& 0x3FFF &&& CacheLine.HIGH = 0x3FC0 &&& CacheLine.HIGH ↔ 0x3F00 ≤ x % 0x4000 := by
  have h1 : x &&& 0x3FFF = x % 0x4000 := Nat.and_pow_two_sub_one_eq_mod x 14
  have h2 : (0x3FC0 : Nat) &&& CacheLine.HIGH = 0x3F00 := by decide
  rw [h1, h2, CacheLine.and_HIGH]
  omega

theorem YamahaFDC.offset_eq_mod (x : Nat) : x &&& 0x3FFF = x % 0x4000 :=
  Nat.and_pow_two_sub_one_eq_mod x 14

theorem YamahaFDC.readMem_plain {κ μ : Type} (C : WD2793 κ) (M : DriveMultiplexer μ)
    (s : YamahaFDC κ μ) (address : Nat) (time : EmuTime) (h : address % 0x4000 < 0x3F00) :
    YamahaFDC.readMem C M s address time = (YamahaFDC.peekMem.rom s address, s) := by
  have hoff := YamahaFDC.offset_eq_mod address
  have h0 : ¬ address &&& 0x3FFF = 0x3FC0 := by omega
  have h1 : ¬ address &&& 0x3FFF = 0x3FC1 := by omega
  have h2 : ¬ address &&& 0x3FFF = 0x3FC2 := by omega
  have h3 : ¬ address &&& 0x3FFF = 0x3FC3 := by omega
  have h4 : ¬ address &&& 0x3FFF = 0x3FE0 := by omega
  have h5 : ¬ address &&& 0x3FFF = 0x3FF0 := by omega
  simp only [YamahaFDC.readMem, YamahaFDC.peekMem, if_neg h0, if_neg h1, if_neg h2, if_neg h3,
    if_neg h4, if_neg h5]

/-- C12: soundness of `getReadCacheLine`.  For every address in a 256-byte block
that contains a trapped register (an address `reg` of the same block whose
offset `reg & 0x3FFF` is one of 0x3FC0..0x3FC3, 0x3FE0, 0x3FF0) it returns
`nullptr`.  With a ROM of 0x4000 or 0x8000 bytes, for every 256-byte-aligned
16-bit `start` for which it returns a pointer `p` and every `i` in 0..255,
`p[i]` is the byte `readMem(start + i)` returns and that `readMem` leaves the
state as it was; `p` points into the ROM at `start - 0x4000` when
`0x4000 <= start < 0x4000 + romSize` and is the 0xFF buffer otherwise. -/
theorem getReadCacheLine_sound {κ μ : Type} (C : WD2793 κ) (M : DriveMultiplexer μ)
    (s : YamahaFDC κ μ) (address reg start i : Nat) (time : EmuTime) (p : ReadCacheLine) :
    (reg / 256 = address / 256 →
      (reg &&& 0x3FFF = 0x3FC0 ∨ reg &&& 0x3FFF = 0x3FC1 ∨ reg &&& 0x3FFF = 0x3FC2 ∨
        reg &&& 0x3FFF = 0x3FC3 ∨ reg &&& 0x3FFF = 0x3FE0 ∨ reg &&& 0x3FFF = 0x3FF0) →
      YamahaFDC.getReadCacheLine s address = none) ∧
    (start < 0x10000 → start % 256 = 0 → i < 256 →
      (s.rom.length = 0x4000 ∨ s.rom.length = 0x8000) →
      YamahaFDC.getReadCacheLine s start = some p →
      YamahaFDC.readLine s p i = some (YamahaFDC.readMem C M s (start + i) time).1 ∧
      (YamahaFDC.readMem C M s (start + i) time).2 = s ∧
      (0x4000 ≤ start ∧ start < 0x4000 + s.rom.length → p = ReadCacheLine.rom (start - 0x4000)) ∧
      (¬ (0x4000 ≤ start ∧ start < 0x4000 + s.rom.length) → p = ReadCacheLine.unmappedRead)) := by
  constructor
  · intro hblock hreg
    have hr := YamahaFDC.offset_eq_mod reg
    have htrap : 0x3F00 ≤ address % 0x4000 := by omega
    simp only [YamahaFDC.getReadCacheLine, if_pos ((YamahaFDC.trapped_block_iff address).2 htrap)]
  · intro hstart halign hi hsize hp
    unfold YamahaFDC.getReadCacheLine at hp
    by_cases htrap : start &&& 0x3FFF &&& CacheLine.HIGH = 0x3FC0 &&& CacheLine.HIGH
    · simp [if_pos htrap] at hp
    · rw [if_neg htrap] at hp
      have hlow : ¬ 0x3F00 ≤ start % 0x4000 := fun h => htrap ((YamahaFDC.trapped_block_iff start).2 h)
      have hplain : (start + i) % 0x4000 < 0x3F00 := by omega
      rw [YamahaFDC.readMem_plain C M s (start + i) time hplain]
      by_cases hrom : YamahaFDC.romOffset start < s.rom.length
      · rw [if_pos hrom] at hp
        have hp' : p = ReadCacheLine.rom (YamahaFDC.romOffset start) := by
          simpa using hp.symm
        unfold YamahaFDC.romOffset at hrom hp'
        have hge : 0x4000 ≤ start := by
          rcases hsize with h | h <;> omega
        have hoff : (start + 2 ^ 32 - 0x4000) % 2 ^ 32 = start - 0x4000 := by omega
        have hoffi : YamahaFDC.romOffset (start + i) = start - 0x4000 + i := by
          unfold YamahaFDC.romOffset; omega
        have hlt : start - 0x4000 + i < s.rom.length := by
          rcases hsize with h | h <;> omega
        rw [hoff] at hp'
        refine ⟨?_, rfl, fun _ => hp', fun h => absurd ⟨hge, by omega⟩ h⟩
        subst hp'
        simp only [YamahaFDC.readLine, YamahaFDC.peekMem.rom, hoffi, dif_pos hlt]
        exact List.get?_eq_get hlt
      · rw [if_neg hrom] at hp
        have hp' : p = ReadCacheLine.unmappedRead := by
          simpa using hp.symm
        unfold YamahaFDC.romOffset at hrom
        have hout : ¬ (0x4000 ≤ start ∧ start < 0x4000 + s.rom.length) := by
          rcases hsize with h | h <;> omega
        have hnot : ¬ YamahaFDC.romOffset (start + i) < s.rom.length := by
          unfold YamahaFDC.romOffset
          rcases hsize with h | h <;> omega
        refine ⟨?_, rfl, fun h => absurd h hout, fun _ => hp'⟩
        subst hp'
        simp only [YamahaFDC.readLine, YamahaFDC.peekMem.rom, dif_neg hnot, MSXDevice.unmappedRead]

theorem YamahaFDC.sample_rom_length : YamahaFDC.sample.rom.length = 0x4000 :=
  List.length_replicate 0x4000 0x12

theorem YamahaFDC.sample_line :
    YamahaFDC.getReadCacheLine YamahaFDC.sample 0x4100 = some (ReadCacheLine.rom 0x100) := by
  have h1 : ¬ ((0x4100 : Nat) &&& 0x3FFF &&& CacheLine.HIGH = 0x3FC0 &&& CacheLine.HIGH) := by decide
  have h2 : YamahaFDC.romOffset 0x4100 = 0x100 := by decide
  unfold YamahaFDC.getReadCacheLine
  rw [if_neg h1, h2, YamahaFDC.sample_rom_length, if_pos (by decide)]

/-- Witness of `getReadCacheLine_sound`: on the controller `sample` (16 kB ROM
of 0x12 bytes) the line at 0x4100 points into the ROM at 0x100 and its byte 5
is the byte read at 0x4105; the block of 0x7FE0 has no line. -/
theorem getReadCacheLine_sound_witness :
    YamahaFDC.readLine YamahaFDC.sample (ReadCacheLine.rom 0x100) 5
      = some (YamahaFDC.readMem counterChip latchDrives YamahaFDC.sample (0x4100 + 5) 0).1 ∧
    YamahaFDC.getReadCacheLine YamahaFDC.sample 0x7F20 = none :=
  ⟨((getReadCacheLine_sound counterChip latchDrives YamahaFDC.sample 0x7F20 0x7FE0 0x4100 5 0
      (ReadCacheLine.rom 0x100)).2 (by decide) (by decide) (by decide)
      (Or.inl YamahaFDC.sample_rom_length) YamahaFDC.sample_line).1,
   (getReadCacheLine_sound counterChip latchDrives YamahaFDC.sample 0x7F20 0x7FE0 0x4100 5 0
      (ReadCacheLine.rom 0x100)).1 (by decide) (Or.inr (Or.inr (Or.inr (Or.inr (Or.inl (by decide))))))⟩

/-- C16: the constructor of `YamahaFDC` throws if and only if the ROM size is
neither 0x4000 nor 0x8000; for the two accepted sizes it returns the object the
base class built after `reset`: the base-class reset followed by the control
write of 0x00, which selects no drive, side 0 and motor off, and leaves the
ROM as it is. -/
theorem ctor_throws_iff_bad_rom_size {κ μ : Type} (B : WD2793BasedFDC κ μ) (K : WD2793Commands κ)
    (M : DriveMultiplexer μ) (N : DriveControls μ) (base : YamahaFDC κ μ) (time : EmuTime) :
    ((∃ e, YamahaFDC.ctor B K M N base time = Except.error e) ↔
      (base.rom.length ≠ 0x4000 ∧ base.rom.length ≠ 0x8000)) ∧
    ((base.rom.length = 0x4000 ∨ base.rom.length = 0x8000) →
      YamahaFDC.ctor B K M N base time = Except.ok (YamahaFDC.reset B K M N base time)) ∧
    YamahaFDC.reset B K M N base time
      = { controller := (B.reset (base.controller, base.multiplexer) time).1
          multiplexer :=
            N.setMotor
              (N.setSide
                (N.selectDrive (B.reset (base.controller, base.multiplexer) time).2
                  DriveNum.NO_DRIVE time)
                false)
              false time
          rom := base.rom } := by
  refine ⟨?_, ?_, ?_⟩
  · unfold YamahaFDC.ctor
    by_cases h : base.rom.length ≠ 0x4000 ∧ base.rom.length ≠ 0x8000
    · simp only [if_pos h, h, ne_eq, not_false_eq_true, and_self, iff_true]
      exact ⟨_, rfl⟩
    · simp only [if_neg h, h, iff_false, not_exists]
      intro e he
      cases he
  · intro h
    have h' : ¬ (base.rom.length ≠ 0x4000 ∧ base.rom.length ≠ 0x8000) := by
      rcases h with h | h <;> simp [h]
    simp only [YamahaFDC.ctor, if_neg h']
  · have h0 : ¬ ((0x7FE0 : Nat) &&& 0x3fff = 0x3FC0) := by decide
    have h1 : ¬ ((0x7FE0 : Nat) &&& 0x3fff = 0x3FC1) := by decide
    have h2 : ¬ ((0x7FE0 : Nat) &&& 0x3fff = 0x3FC2) := by decide
    have h3 : ¬ ((0x7FE0 : Nat) &&& 0x3fff = 0x3FC3) := by decide
    have h4 : (0x7FE0 : Nat) &&& 0x3fff = 0x3FE0 := by decide
    have hA : ¬ ((0x00 : Nat) &&& (YamahaFDC.DRIVE_A_SELECT ||| YamahaFDC.DRIVE_B_SELECT)
        = YamahaFDC.DRIVE_A_SELECT) := by decide
    have hB : ¬ ((0x00 : Nat) &&& (YamahaFDC.DRIVE_A_SELECT ||| YamahaFDC.DRIVE_B_SELECT)
        = YamahaFDC.DRIVE_B_SELECT) := by decide
    have hm : decide ((0x00 : Nat) &&& YamahaFDC.MOTOR_ON ≠ 0) = false := by decide
    simp only [YamahaFDC.reset, YamahaFDC.writeMem, if_neg h0, if_neg h1, if_neg h2, if_neg h3,
      if_pos h4, if_neg hA, if_neg hB, hm]

/-- Witness of `ctor_throws_iff_bad_rom_size`: the controller `sample` has a
16 kB ROM, so its construction returns the reset object. -/
theorem ctor_throws_iff_bad_rom_size_witness :
    YamahaFDC.ctor counterBase counterCommands latchDrives latchControls YamahaFDC.sample 0
      = Except.ok
          (YamahaFDC.reset counterBase counterCommands latchDrives latchControls YamahaFDC.sample 0) :=
  (ctor_throws_iff_bad_rom_size counterBase counterCommands latchDrives latchControls
    YamahaFDC.sample 0).2.1 (Or.inl YamahaFDC.sample_rom_length)

theorem MSXMotherBoard.set_A8_Register_select (s : MSXMotherBoard) (value : byte) :
    (s.set_A8_Register value).SelectInvariant := by
  intro j hj
  obtain ⟨prim, sec, vis, hframe⟩ := MSXMotherBoard.set_A8_Register_frame s value
  have hp := MSXMotherBoard.set_A8_Register_pages s value j hj
  have hA : (s.set_A8_Register value).A8_Register = value := by rw [hframe]
  have hS : (s.set_A8_Register value).SubSlot_Register = s.SubSlot_Register := by rw [hframe]
  rw [hA, hS, hp.1, hp.2, Nat.mul_comm j 2]
  exact ⟨rfl, Nat.and_comm _ _⟩

theorem MSXMotherBoard.writeMem_subslotted {σ : Type} (D : Devices σ) (s : MSXMotherBoard) (w : σ)
    (v : byte) (time : EmuTime) (hsub : s.isSubSlotted ((s.A8_Register >>> 6) &&& 3) = true)
    (page : Nat) (hpage : page < 4) :
    (MSXMotherBoard.writeMem D s w 0xFFFF v time).1.A8_Register = s.A8_Register ∧
    (MSXMotherBoard.writeMem D s w 0xFFFF v time).1.SubSlot_Register
      = Function.update s.SubSlot_Register ((s.A8_Register >>> 6) &&& 3) v ∧
    (MSXMotherBoard.writeMem D s w 0xFFFF v time).1.PrimarySlotState = s.PrimarySlotState ∧
    (MSXMotherBoard.writeMem D s w 0xFFFF v time).1.SecondarySlotState page
      = (if (s.A8_Register >>> 6) &&& 3 = s.PrimarySlotState page then (v >>> (2 * page)) &&& 3
         else s.SecondarySlotState page) ∧
    (MSXMotherBoard.writeMem D s w 0xFFFF v time).1.visibleDevices page
      = (if (s.A8_Register >>> 6) &&& 3 = s.PrimarySlotState page then
           s.SlotLayout (s.PrimarySlotState page) ((v >>> (2 * page)) &&& 3) page
         else s.visibleDevices page) := by
  obtain ⟨s1, hs1⟩ : ∃ s1 : MSXMotherBoard, s1 = { s with
      SubSlot_Register := Function.update s.SubSlot_Register ((s.A8_Register >>> 6) &&& 3) v } := ⟨_, rfl⟩
  have hw : MSXMotherBoard.writeMem D s w 0xFFFF v time
      = (MSXMotherBoard.writeMem.loop 4 s1 ((s.A8_Register >>> 6) &&& 3) 0 v, w) := by
    rw [hs1]
    simp only [MSXMotherBoard.writeMem, hsub, and_self, if_true]
  obtain ⟨sec, vis, hloop⟩ :=
    MSXMotherBoard.writeMem_loop_frame 4 s1 ((s.A8_Register >>> 6) &&& 3) 0 v
  have hpages := MSXMotherBoard.writeMem_loop_pages 4 s1 ((s.A8_Register >>> 6) &&& 3) 0 v page
  have hP1 : s1.PrimarySlotState = s.PrimarySlotState := by rw [hs1]
  have hS1 : s1.SecondarySlotState = s.SecondarySlotState := by rw [hs1]
  have hV1 : s1.visibleDevices = s.visibleDevices := by rw [hs1]
  have hL1 : s1.SlotLayout = s.SlotLayout := by rw [hs1]
  have hcond : (0 ≤ page ∧ page < 0 + 4 ∧ (s.A8_Register >>> 6) &&& 3 = s.PrimarySlotState page)
      ↔ (s.A8_Register >>> 6) &&& 3 = s.PrimarySlotState page :=
    ⟨fun h => h.2.2, fun h => ⟨Nat.zero_le _, by omega, h⟩⟩
  rw [hP1, hS1, hV1, hL1] at hpages
  simp only [hcond, Nat.sub_zero] at hpages
  rw [hw]
  simp only
  rw [hpages.1, hpages.2, hloop]
  simp only [hs1, and_self]

theorem MSXMotherBoard.writeMem_select {σ : Type} (D : Devices σ) (s : MSXMotherBoard) (w : σ)
    (address : word) (value : byte) (time : EmuTime) (h : s.SelectInvariant) :
    (MSXMotherBoard.writeMem D s w address value time).1.SelectInvariant := by
  by_cases hcase : address = 0xFFFF ∧ s.isSubSlotted ((s.A8_Register >>> 6) &&& 3) = true
  · obtain ⟨haddr, hsub⟩ := hcase
    subst haddr
    intro j hj
    obtain ⟨hA, hS, hP, hsec, _⟩ := MSXMotherBoard.writeMem_subslotted D s w value time hsub j hj
    rw [hA, hS, hP, hsec]
    refine ⟨(h j hj).1, ?_⟩
    by_cases hc : (s.A8_Register >>> 6) &&& 3 = s.PrimarySlotState j
    · rw [if_pos hc, ← hc, Function.update_same]
    · rw [if_neg hc, Function.update_noteq (fun hh => hc hh.symm)]
      exact (h j hj).2
  · simp only [MSXMotherBoard.writeMem, if_neg hcase]
    exact h

theorem MSXMotherBoard.writeMem_eq_recompute {σ : Type} (D : Devices σ) (s : MSXMotherBoard)
    (w : σ) (v : byte) (time : EmuTime) (hsel : s.SelectInvariant) (hmap : s.MappingInvariant)
    (hsub : s.isSubSlotted ((s.A8_Register >>> 6) &&& 3) = true) (page : Nat) (hpage : page < 4)
    (s1 : MSXMotherBoard)
    (hs1 : s1 = { s with
      SubSlot_Register := Function.update s.SubSlot_Register ((s.A8_Register >>> 6) &&& 3) v }) :
    (MSXMotherBoard.writeMem D s w 0xFFFF v time).1.PrimarySlotState page
      = (s1.set_A8_Register s.A8_Register).PrimarySlotState page ∧
    (MSXMotherBoard.writeMem D s w 0xFFFF v time).1.SecondarySlotState page
      = (s1.set_A8_Register s.A8_Register).SecondarySlotState page ∧
    (MSXMotherBoard.writeMem D s w 0xFFFF v time).1.visibleDevices page
      = (s1.set_A8_Register s.A8_Register).visibleDevices page := by
  obtain ⟨_, _, hP, hsec, hvis⟩ := MSXMotherBoard.writeMem_subslotted D s w v time hsub page hpage
  obtain ⟨prim', sec', vis', hframe⟩ := MSXMotherBoard.set_A8_Register_frame s1 s.A8_Register
  have hset := MSXMotherBoard.set_A8_Register_pages s1 s.A8_Register page hpage
  have hinv := MSXMotherBoard.set_A8_Register_mapping s1 s.A8_Register page hpage
  have hlay : (s1.set_A8_Register s.A8_Register).SlotLayout = s.SlotLayout := by
    rw [hframe, hs1]
  have hS1 : s1.SubSlot_Register
      = Function.update s.SubSlot_Register ((s.A8_Register >>> 6) &&& 3) v := by rw [hs1]
  have hprim := (hsel page hpage).1
  have hsec0 := (hsel page hpage).2
  have hvis0 := hmap page hpage
  rw [hP, hsec, hvis, hinv, hlay, hset.1, hset.2, hS1, ← hprim, Nat.mul_comm page 2,
    Nat.and_comm 3]
  refine ⟨rfl, ?_⟩
  by_cases hc : (s.A8_Register >>> 6) &&& 3 = s.PrimarySlotState page
  · rw [if_pos hc, if_pos hc, ← hc, Function.update_same]
    exact ⟨rfl, rfl⟩
  · rw [if_neg hc, if_neg hc, Function.update_noteq (fun hh => hc hh.symm), ← hsec0]
    exact ⟨rfl, hvis0⟩

theorem SelectWrite.apply_select {σ : Type} (D : Devices σ) (op : SelectWrite)
    (st : MSXMotherBoard × σ) (h : st.1.SelectInvariant) : (op.apply D st).1.SelectInvariant := by
  cases op with
  | primary value => exact MSXMotherBoard.set_A8_Register_select st.1 value
  | secondary value time => exact MSXMotherBoard.writeMem_select D st.1 st.2 0xFFFF value time h

theorem SelectWrite.statesAfter_select {σ : Type} (D : Devices σ) (ops : List SelectWrite)
    (st : MSXMotherBoard × σ) (h : st.1.SelectInvariant) :
    ∀ st' ∈ SelectWrite.statesAfter D ops st, st'.1.SelectInvariant := by
  induction ops generalizing st with
  | nil => intro st' hst; simp [SelectWrite.statesAfter] at hst
  | cons op ops ih =>
    intro st' hst
    simp only [SelectWrite.statesAfter, List.mem_cons] at hst
    rcases hst with rfl | hst
    · exact SelectWrite.apply_select D op st h
    · exact ih _ (SelectWrite.apply_select D op st h) st' hst

theorem YamahaFDC.writeMem_control {κ μ : Type} (K : WD2793Commands κ) (M : DriveMultiplexer μ)
    (N : DriveControls μ) (s : YamahaFDC κ μ) (address : word) (v : byte) (time : EmuTime)
    (ha : address &&& 0x3fff = 0x3FE0) :
    (YamahaFDC.writeMem K M N s address v time).multiplexer
      = N.setMotor (N.setSide (N.selectDrive s.multiplexer (YamahaFDC.selectedDrive v) time) false)
          (decide (v &&& 0x04 ≠ 0)) time ∧
    (YamahaFDC.writeMem K M N s address v time).controller = s.controller ∧
    (YamahaFDC.writeMem K M N s address v time).rom = s.rom := by
  unfold YamahaFDC.writeMem
  rw [ha]
  exact ⟨rfl, rfl, rfl⟩

/-- C22 (as stated, refuted): on the controller `spinning`, whose side is 1, the
control writes of 0xFF and of 0x00 at 0x7FE0 both leave side 0 selected, though
the two values differ in every bit: the side select does not follow the written
value. -/
theorem control_write_side_counterexample :
    YamahaFDC.spinning.multiplexer.2.1 = true ∧
    (YamahaFDC.writeMem counterCommands noDisks lastSetControls YamahaFDC.spinning 0x7FE0 0xFF
      0).multiplexer.2.1 = false ∧
    (YamahaFDC.writeMem counterCommands noDisks lastSetControls YamahaFDC.spinning 0x7FE0 0x00
      0).multiplexer.2.1 = false := by
  decide

/-- C22 (amended): a write of `v` at offset 0x3FE0 is accepted for every `v`,
leaves chip and ROM alone and makes three calls on the multiplexer:
`selectDrive` with drive A iff `(v & 0x03) == 0x01`, drive B iff
`(v & 0x03) == 0x02` and no drive iff both or neither select bit is set,
`setSide(false)` whatever `v` is, and `setMotor` with "bit 0x04 of `v` is set".
On controls that keep what was set last, the drive, side and motor after the
write (and after two writes in a row) are given by the last value alone; a
reset is the base-class reset followed by this write with the value 0x00: no
drive, side 0, motor off. -/
theorem control_write_effect {κ μ : Type} (B : WD2793BasedFDC κ μ) (K : WD2793Commands κ)
    (M : DriveMultiplexer μ) (N : DriveControls μ) (s : YamahaFDC κ μ)
    (r : YamahaFDC Nat (DriveNum × Bool × Bool)) (address : word) (v v0 : byte)
    (time t0 : EmuTime) (ha : address &&& 0x3fff = 0x3FE0) :
    (YamahaFDC.writeMem K M N s address v time).multiplexer
      = N.setMotor (N.setSide (N.selectDrive s.multiplexer (YamahaFDC.selectedDrive v) time) false)
          (decide (v &&& 0x04 ≠ 0)) time ∧
    (YamahaFDC.writeMem K M N s address v time).controller = s.controller ∧
    (YamahaFDC.writeMem K M N s address v time).rom = s.rom ∧
    (YamahaFDC.selectedDrive v = DriveNum.DRIVE_A ↔ v &&& 0x03 = 0x01) ∧
    (YamahaFDC.selectedDrive v = DriveNum.DRIVE_B ↔ v &&& 0x03 = 0x02) ∧
    (YamahaFDC.selectedDrive v = DriveNum.NO_DRIVE ↔ (v &&& 0x03 = 0x03 ∨ v &&& 0x03 = 0x00)) ∧
    (YamahaFDC.writeMem counterCommands noDisks lastSetControls r address v time).multiplexer
      = (YamahaFDC.selectedDrive v, false, decide (v &&& 0x04 ≠ 0)) ∧
    (YamahaFDC.writeMem counterCommands noDisks lastSetControls
        (YamahaFDC.writeMem counterCommands noDisks lastSetControls r address v0 t0) address v
        time).multiplexer
      = (YamahaFDC.writeMem counterCommands noDisks lastSetControls r address v time).multiplexer ∧
    (YamahaFDC.reset B K M N s time).multiplexer
      = N.setMotor
          (N.setSide
            (N.selectDrive (B.reset (s.controller, s.multiplexer) time).2 DriveNum.NO_DRIVE time)
            false)
          false time ∧
    (YamahaFDC.reset lastSetBase counterCommands noDisks lastSetControls r time).multiplexer
      = (DriveNum.NO_DRIVE, false, false) := by
  have hv : v &&& 0x03 < 4 := Nat.lt_of_le_of_lt Nat.and_le_right (by decide)
  have h7 : (0x7FE0 : Nat) &&& 0x3fff = 0x3FE0 := by decide
  refine ⟨(YamahaFDC.writeMem_control K M N s address v time ha).1,
    (YamahaFDC.writeMem_control K M N s address v time ha).2.1,
    (YamahaFDC.writeMem_control K M N s address v time ha).2.2, ?_, ?_, ?_, ?_, ?_, ?_, ?_⟩
  · unfold YamahaFDC.selectedDrive
    split
    · simp [*]
    · split <;> simp [*]
  · unfold YamahaFDC.selectedDrive
    split
    · simp [*]
    · split <;> simp [*]
  · unfold YamahaFDC.selectedDrive
    split
    · simp [*]
    · split
      · simp [*]
      · rename_i h1 h2
        have key : ∀ x : Nat, x < 4 → ¬ x = 1 → ¬ x = 2 → x = 3 ∨ x = 0 := by omega
        simp only [true_iff]
        exact key _ hv h1 h2
  · rw [(YamahaFDC.writeMem_control _ _ _ r address v time ha).1]
    rfl
  · rw [(YamahaFDC.writeMem_control _ _ _ _ address v time ha).1,
      (YamahaFDC.writeMem_control _ _ _ r address v time ha).1]
    rfl
  · unfold YamahaFDC.reset
    simp only
    rw [(YamahaFDC.writeMem_control K M N _ 0x7FE0 0x00 time h7).1]
    rfl
  · unfold YamahaFDC.reset
    simp only
    rw [(YamahaFDC.writeMem_control _ _ _ _ 0x7FE0 0x00 time h7).1]
    rfl

/-- Witness of `control_write_effect`: the write of 0x06 (drive B, motor on) at
0x7FE0 on the controller `spinning`. -/
theorem control_write_effect_witness :
    (YamahaFDC.writeMem counterCommands noDisks lastSetControls YamahaFDC.spinning 0x7FE0 0x06
      0).multiplexer = (DriveNum.DRIVE_B, false, true) :=
  ((control_write_effect lastSetBase counterCommands noDisks lastSetControls YamahaFDC.spinning
      YamahaFDC.spinning 0x7FE0 0x06 0 0 0 (by decide)).2.2.2.2.2.2.1).trans (by decide)

theorem YamahaFDC.writeMem_plain {κ μ : Type} (K : WD2793Commands κ) (M : DriveMultiplexer μ)
    (N : DriveControls μ) (s : YamahaFDC κ μ) (address : Nat) (value : byte) (time : EmuTime)
    (h : address % 0x4000 < 0x3F00) :
    YamahaFDC.writeMem K M N s address value time = s := by
  have hoff := YamahaFDC.offset_eq_mod address
  have h0 : ¬ address &&& 0x3fff = 0x3FC0 := by omega
  have h1 : ¬ address &&& 0x3fff = 0x3FC1 := by omega
  have h2 : ¬ address &&& 0x3fff = 0x3FC2 := by omega
  have h3 : ¬ address &&& 0x3fff = 0x3FC3 := by omega
  have h4 : ¬ address &&& 0x3fff = 0x3FE0 := by omega
  have h5 : ¬ address &&& 0x3fff = 0x3FF0 := by omega
  simp only [YamahaFDC.writeMem, if_neg h0, if_neg h1, if_neg h2, if_neg h3, if_neg h4, if_neg h5]

/-- C23: soundness of `getWriteCacheLine`.  For every address in a 256-byte block
that contains a write-trapped register (an address `reg` of the same block whose
offset `reg & 0x3FFF` is one of 0x3FC0..0x3FC3, 0x3FE0, 0x3FF0) it returns
`nullptr`; and for every address for which it returns a pointer, the pointer is
the discard buffer and `writeMem` at any address `other` of the same 256-byte
block, with any value, leaves the whole state (chip, multiplexer, ROM) as it
was. -/
theorem getWriteCacheLine_sound {κ μ : Type} (K : WD2793Commands κ) (M : DriveMultiplexer μ)
    (N : DriveControls μ) (s : YamahaFDC κ μ) (address reg other : Nat) (value : byte)
    (time : EmuTime) (p : WriteCacheLine) :
    (reg / 256 = address / 256 →
      (reg &&& 0x3FFF = 0x3FC0 ∨ reg &&& 0x3FFF = 0x3FC1 ∨ reg &&& 0x3FFF = 0x3FC2 ∨
        reg &&& 0x3FFF = 0x3FC3 ∨ reg &&& 0x3FFF = 0x3FE0 ∨ reg &&& 0x3FFF = 0x3FF0) →
      YamahaFDC.getWriteCacheLine s address = none) ∧
    (YamahaFDC.getWriteCacheLine s address = some p → other / 256 = address / 256 →
      p = WriteCacheLine.unmappedWrite ∧ YamahaFDC.writeMem K M N s other value time = s) := by
  constructor
  · intro hblock hreg
    have hr := YamahaFDC.offset_eq_mod reg
    have htrap : 0x3F00 ≤ address % 0x4000 := by omega
    simp only [YamahaFDC.getWriteCacheLine, if_pos ((YamahaFDC.trapped_block_iff address).2 htrap)]
  · intro hp hblock
    unfold YamahaFDC.getWriteCacheLine at hp
    by_cases htrap : address &&& 0x3FFF &&& CacheLine.HIGH = 0x3FC0 &&& CacheLine.HIGH
    · simp [if_pos htrap] at hp
    · have hlow : ¬ 0x3F00 ≤ address % 0x4000 :=
        fun h => htrap ((YamahaFDC.trapped_block_iff address).2 h)
      have hplain : other % 0x4000 < 0x3F00 := by omega
      exact ⟨by cases p; rfl, YamahaFDC.writeMem_plain K M N s other value time hplain⟩

/-- Witness of `getWriteCacheLine_sound`: 0x4100 has a write line on the
controller `sample`, and a write to 0x41FF of the same block changes nothing. -/
theorem getWriteCacheLine_sound_witness :
    YamahaFDC.writeMem counterCommands latchDrives latchControls YamahaFDC.sample 0x41FF 0x5A 0
      = YamahaFDC.sample :=
  ((getWriteCacheLine_sound counterCommands latchDrives latchControls YamahaFDC.sample 0x4100 0x7FE0
      0x41FF 0x5A 0 WriteCacheLine.unmappedWrite).2 (by decide) (by decide)).2

/-- C24: fall-through of `peekMem`.  For every 16-bit address whose offset
`address & 0x3FFF` is none of 0x3FC0, 0x3FC1, 0x3FC2, 0x3FC3, 0x3FE0, and a ROM
of at most 2^32 - 0x4000 bytes (the constructor accepts 0x4000 and 0x8000):
`peekMem` returns the ROM byte at index `address - 0x4000`, an index inside the
ROM, when `0x4000 <= address < 0x4000 + romSize`, and 0xFF otherwise; so it
returns 0xFF for every address below 0x4000 and, with a 16 kB ROM, for every
address from 0x8000 up. -/
theorem peekMem_fall_through {κ μ : Type} (C : WD2793 κ) (M : DriveMultiplexer μ)
    (s : YamahaFDC κ μ) (address : Nat) (time : EmuTime) (haddr : address < 0x10000)
    (hsize : s.rom.length ≤ 2 ^ 32 - 0x4000)
    (hoff : address &&& 0x3FFF ≠ 0x3FC0 ∧ address &&& 0x3FFF ≠ 0x3FC1 ∧
      address &&& 0x3FFF ≠ 0x3FC2 ∧ address &&& 0x3FFF ≠ 0x3FC3 ∧ address &&& 0x3FFF ≠ 0x3FE0) :
    (0x4000 ≤ address ∧ address < 0x4000 + s.rom.length →
      address - 0x4000 < s.rom.length ∧
      s.rom.get? (address - 0x4000) = some (YamahaFDC.peekMem C M s address time)) ∧
    (¬ (0x4000 ≤ address ∧ address < 0x4000 + s.rom.length) →
      YamahaFDC.peekMem C M s address time = 0xFF) ∧
    (address < 0x4000 → YamahaFDC.peekMem C M s address time = 0xFF) ∧
    (s.rom.length = 0x4000 → 0x8000 ≤ address → YamahaFDC.peekMem C M s address time = 0xFF) := by
  obtain ⟨h0, h1, h2, h3, h4⟩ := hoff
  have hpeek : YamahaFDC.peekMem C M s address time = YamahaFDC.peekMem.rom s address := by
    simp only [YamahaFDC.peekMem, if_neg h0, if_neg h1, if_neg h2, if_neg h3, if_neg h4]
  have hout : ¬ (0x4000 ≤ address ∧ address < 0x4000 + s.rom.length) →
      YamahaFDC.peekMem C M s address time = 0xFF := by
    intro h
    have hnot : ¬ YamahaFDC.romOffset address < s.rom.length := by
      unfold YamahaFDC.romOffset
      omega
    rw [hpeek]
    simp only [YamahaFDC.peekMem.rom, dif_neg hnot]
  refine ⟨?_, hout, fun h => hout (by omega), fun hlen h => hout (by omega)⟩
  rintro ⟨hge, hlt⟩
  have hidx : YamahaFDC.romOffset address = address - 0x4000 := by
    unfold YamahaFDC.romOffset
    omega
  have hin : address - 0x4000 < s.rom.length := by omega
  have hin' : YamahaFDC.romOffset address < s.rom.length := by rw [hidx]; exact hin
  refine ⟨hin, ?_⟩
  rw [hpeek]
  simp only [YamahaFDC.peekMem.rom, dif_pos hin']
  have hfin : (⟨address - 0x4000, hin⟩ : Fin s.rom.length) = ⟨YamahaFDC.romOffset address, hin'⟩ :=
    Fin.ext hidx.symm
  rw [List.get?_eq_get hin, hfin]

/-- Witness of `peekMem_fall_through`: on the controller `sample` (16 kB ROM) the
peek of 0x7FF0 is the ROM byte at index 0x3FF0 and the peek of 0x9000 is
0xFF. -/
theorem peekMem_fall_through_witness :
    YamahaFDC.sample.rom.get? (0x7FF0 - 0x4000)
      = some (YamahaFDC.peekMem counterChip latchDrives YamahaFDC.sample 0x7FF0 0) ∧
    YamahaFDC.peekMem counterChip latchDrives YamahaFDC.sample 0x9000 0 = 0xFF :=
  ⟨((peekMem_fall_through counterChip latchDrives YamahaFDC.sample 0x7FF0 0 (by decide)
      (by rw [YamahaFDC.sample_rom_length]; decide) (by decide)).1
      ⟨by decide, by rw [YamahaFDC.sample_rom_length]; decide⟩).2,
   (peekMem_fall_through counterChip latchDrives YamahaFDC.sample 0x9000 0 (by decide)
      (by rw [YamahaFDC.sample_rom_length]; decide) (by decide)).2.2.2
      YamahaFDC.sample_rom_length (by decide)⟩

theorem MSXDeviceSwitch.countP_update_of_not_mem (l : List Nat) (f : Nat → Option Nat) (id : Nat)
    (v : Option Nat) (hid : id ∉ l) :
    l.countP (fun i => (Function.update f id v i).isSome) = l.countP (fun i => (f i).isSome) := by
  induction l with
  | nil => rfl
  | cons a t ih =>
    have ha : a ≠ id := fun h => hid (by rw [h]; exact List.mem_cons_self _ _)
    have ht : id ∉ t := fun h => hid (List.mem_cons_of_mem _ h)
    rw [List.countP_cons, List.countP_cons, ih ht, Function.update_noteq ha]

theorem MSXDeviceSwitch.countP_update (l : List Nat) (hnd : l.Nodup) (f : Nat → Option Nat)
    (id : Nat) (v : Option Nat) (hid : id ∈ l) :
    l.countP (fun i => (Function.update f id v i).isSome) + (if (f id).isSome = true then 1 else 0)
      = l.countP (fun i => (f i).isSome) + (if v.isSome = true then 1 else 0) := by
  induction l with
  | nil => simp at hid
  | cons a t ih =>
    rw [List.nodup_cons] at hnd
    rw [List.countP_cons, List.countP_cons]
    by_cases ha : a = id
    · subst ha
      rw [MSXDeviceSwitch.countP_update_of_not_mem t f a v hnd.1, Function.update_same]
      omega
    · have ht : id ∈ t := by
        rcases List.mem_cons.1 hid with h | h
        · exact absurd h.symm ha
        · exact h
      have := ih hnd.2 ht
      rw [Function.update_noteq ha]
      omega

theorem MSXDeviceSwitch.registeredIds_length_update (sw sw' : MSXDeviceSwitch) (id : Nat)
    (v : Option Nat) (hid : id < 256) (hdev : sw'.devices = Function.update sw.devices id v) :
    (sw'.registeredIds.length : Int) + (if (sw.devices id).isSome = true then 1 else 0)
      = sw.registeredIds.length + (if v.isSome = true then 1 else 0) := by
  have h := MSXDeviceSwitch.countP_update (List.range 256) (List.nodup_range 256) sw.devices id v
    (List.mem_range.2 hid)
  simp only [MSXDeviceSwitch.registeredIds, ← List.countP_eq_length_filter, hdev]
  exact_mod_cast h

theorem BusCall.run_register_loop (n : Nat) (port : Nat) (this : DevicePtr) (b : MSXMotherBoard)
    (h : ∀ p, port ≤ p → p < port + n →
      b.IO_In p = DummyDevice.instance ∧ b.IO_Out p = DummyDevice.instance) :
    ∃ b', BusCall.run (MSXDeviceSwitch.registerDevice.loop n port this) b = some b' ∧
      (∀ p, port ≤ p → p < port + n → b'.IO_In p = this ∧ b'.IO_Out p = this) ∧
      (∀ p, p < port → b'.IO_In p = b.IO_In p ∧ b'.IO_Out p = b.IO_Out p) := by
  induction n generalizing port b with
  | zero =>
    refine ⟨b, rfl, ?_, fun p _ => ⟨rfl, rfl⟩⟩
    intro p h1 h2
    omega
  | succ n ih =>
    have hp := h port (le_refl _) (by omega)
    obtain ⟨b', hrun, hwin, hframe⟩ := ih (port + 1)
      { b with
        IO_In := Function.update b.IO_In port this
        IO_Out := Function.update b.IO_Out port this }
      (by
        intro p h1 h2
        have hne : p ≠ port := by omega
        simpa [Function.update, hne] using h p (by omega) (by omega))
    refine ⟨b', ?_, ?_, ?_⟩
    · simp only [MSXDeviceSwitch.registerDevice.loop, BusCall.run, BusCall.apply,
        MSXMotherBoard.register_IO_In, MSXMotherBoard.register_IO_Out, hp.1, hp.2, if_true]
      exact hrun
    · intro p h1 h2
      by_cases hpp : p = port
      · subst hpp
        simpa using hframe p (by omega)
      · exact hwin p (by omega) (by omega)
    · intro p hlt
      have hne : p ≠ port := by omega
      simpa [Function.update, hne] using hframe p (by omega)

theorem SwitchOp.step_invariant (this : DevicePtr) (op : SwitchOp) (sw : MSXDeviceSwitch)
    (b : MSXMotherBoard) (hid : op.id < 256) (hcount : sw.CountInvariant)
    (hheld : 0 < sw.count → b.WindowHeld this) (hfree : sw.count = 0 → b.WindowFree)
    (r : MSXDeviceSwitch × List BusCall) (hstep : op.step this sw = some r) :
    ∃ b', BusCall.run r.2 b = some b' ∧ r.1.CountInvariant ∧
      (0 < r.1.count → b'.WindowHeld this) ∧ (r.1.count = 0 → b'.WindowFree) := by
  have hnonneg : 0 ≤ sw.count := by
    unfold MSXDeviceSwitch.CountInvariant at hcount
    rw [hcount]
    exact Int.natCast_nonneg _
  cases op with
  | register id device =>
    simp only [SwitchOp.id] at hid
    simp only [SwitchOp.step, Option.some.injEq] at hstep
    subst hstep
    cases hdev : sw.devices id with
    | some d =>
      have hr : (sw.registerDevice this id (some device)).2 = (sw, []) := by
        simp [MSXDeviceSwitch.registerDevice, hdev]
      rw [hr]
      exact ⟨b, rfl, hcount, hheld, hfree⟩
    | none =>
      have hr : (sw.registerDevice this id (some device)).2
          = ({ devices := Function.update sw.devices id (some device), count := sw.count + 1,
               selected := sw.selected },
             if sw.count = 0 then MSXDeviceSwitch.registerDevice.loop 16 0x40 this else []) := by
        simp [MSXDeviceSwitch.registerDevice, hdev]
      rw [hr]
      have hlen := MSXDeviceSwitch.registeredIds_length_update sw
        { devices := Function.update sw.devices id (some device), count := sw.count + 1,
          selected := sw.selected } id (some device) hid rfl
      simp only [hdev, Option.isSome_none, Option.isSome_some, if_true] at hlen
      have hcount' : MSXDeviceSwitch.CountInvariant
          { devices := Function.update sw.devices id (some device), count := sw.count + 1,
            selected := sw.selected } := by
        unfold MSXDeviceSwitch.CountInvariant at hcount ⊢
        simp only
        simp at hlen
        omega
      by_cases hc : sw.count = 0
      · obtain ⟨b', hrun, hwin, _⟩ := BusCall.run_register_loop 16 0x40 this b
          (fun p h1 h2 => hfree hc p h1 (by omega))
        refine ⟨b', by simp only [hc, if_true]; exact hrun, hcount', ?_, ?_⟩
        · intro _ p h1 h2
          exact hwin p h1 (by omega)
        · intro h0
          simp only at h0
          omega
      · refine ⟨b, by simp only [hc, if_false]; rfl, hcount', ?_, ?_⟩
        · intro _
          exact hheld (by omega)
        · intro h0
          simp only at h0
          omega
  | unregister id =>
    simp only [SwitchOp.id] at hid
    simp only [SwitchOp.step] at hstep
    cases hdev : sw.devices id with
    | none => simp [MSXDeviceSwitch.unregisterDevice, hdev] at hstep
    | some d =>
      have hr : r = ({ devices := Function.update sw.devices id none, count := sw.count - 1,
                       selected := sw.selected },
          if sw.count - 1 = 0 then MSXDeviceSwitch.unregisterDevice.loop 16 0x40 this else []) := by
        simp only [MSXDeviceSwitch.unregisterDevice, hdev, Option.isSome_some, if_true,
          Option.some.injEq] at hstep
        exact hstep.symm
      subst hr
      have hlen := MSXDeviceSwitch.registeredIds_length_update sw
        { devices := Function.update sw.devices id none, count := sw.count - 1,
          selected := sw.selected } id none hid rfl
      simp only [hdev, Option.isSome_none, Option.isSome_some, if_true] at hlen
      have hge : 1 ≤ sw.count := by
        unfold MSXDeviceSwitch.CountInvariant at hcount
        simp at hlen
        omega
      have hcount' : MSXDeviceSwitch.CountInvariant
          { devices := Function.update sw.devices id none, count := sw.count - 1,
            selected := sw.selected } := by
        unfold MSXDeviceSwitch.CountInvariant at hcount ⊢
        simp only
        simp at hlen
        omega
      by_cases hc : sw.count - 1 = 0
      · have hw : b.WindowHeld this := hheld (by omega)
        obtain ⟨b', hrun, hwin, _⟩ := BusCall.run_unregister_loop 16 0x40 this b
          (fun p h1 h2 => hw p h1 (by omega))
        refine ⟨b', by simp only [hc, if_true]; exact hrun, hcount', ?_, ?_⟩
        · intro h0
          simp only at h0
          omega
        · intro _ p h1 h2
          exact hwin p h1 (by omega)
      · refine ⟨b, by simp only [hc, if_false]; rfl, hcount', ?_, ?_⟩
        · intro _
          exact hheld (by omega)
        · intro h0
          simp only at h0
          omega

theorem SwitchOp.run_invariant (this : DevicePtr) (ops : List SwitchOp) (sw : MSXDeviceSwitch)
    (b : MSXMotherBoard) (hadm : SwitchOp.Admissible this ops sw) (hcount : sw.CountInvariant)
    (hheld : 0 < sw.count → b.WindowHeld this) (hfree : sw.count = 0 → b.WindowFree) :
    ∃ sw' b', SwitchOp.run this ops (sw, b) = some (sw', b') ∧ sw'.CountInvariant ∧
      (0 < sw'.count → b'.WindowHeld this) ∧ (sw'.count = 0 → b'.WindowFree) := by
  induction ops generalizing sw b with
  | nil => exact ⟨sw, b, rfl, hcount, hheld, hfree⟩
  | cons op ops ih =>
    simp only [SwitchOp.Admissible] at hadm
    obtain ⟨hid, hrest⟩ := hadm
    cases hstep : op.step this sw with
    | none => simp [hstep] at hrest
    | some r =>
      simp only [hstep] at hrest
      obtain ⟨b1, hrun, hc1, hh1, hf1⟩ :=
        SwitchOp.step_invariant this op sw b hid hcount hheld hfree r hstep
      obtain ⟨sw', b', hrun', hres⟩ := ih r.1 b1 hrest hc1 hh1 hf1
      refine ⟨sw', b', ?_, hres⟩
      simp only [SwitchOp.run, SwitchOp.apply, hstep, hrun]
      exact hrun'


/-- C26: for every address and state of a `RomNational`, `readMem(address)`
returns the value `peekMem(address)` returns in that state (`peekMem` is a
function of the state); the state after the read is the state before with
`sramAddr` incremented by one if the SRAM is enabled (`control & 0x02`) and
`(address & 0x3FFF) == 0x3FFD`, and the state before otherwise; so `control`,
`bankSelect`, the SRAM contents and the bank mapping are unchanged by any
read. -/
theorem readMem_eq_peekMem_national {ρ π τ : Type} (R : Rom16kBBlocks ρ π) (S : SRAM τ)
    (s : RomNational ρ τ) (address : word) (time : EmuTime) :
    (RomNational.readMem R S s address time).1 = RomNational.peekMem R S s address time ∧
    (s.control &&& 0x02 ≠ 0 ∧ address &&& 0x3FFF = 0x3FFD →
      (RomNational.readMem R S s address time).2 = { s with sramAddr := s.sramAddr + 1 }) ∧
    (¬ (s.control &&& 0x02 ≠ 0 ∧ address &&& 0x3FFF = 0x3FFD) →
      (RomNational.readMem R S s address time).2 = s) ∧
    (RomNational.readMem R S s address time).2.control = s.control ∧
    (RomNational.readMem R S s address time).2.bankSelect = s.bankSelect ∧
    (RomNational.readMem R S s address time).2.sram = s.sram ∧
    (RomNational.readMem R S s address time).2.base = s.base := by
  by_cases h : s.control &&& 0x02 ≠ 0 ∧ address &&& 0x3FFF = 0x3FFD
  · have hr : RomNational.readMem R S s address time
        = (RomNational.peekMem R S s address time, { s with sramAddr := s.sramAddr + 1 }) := by
      simp only [RomNational.readMem, if_pos h]
    rw [hr]
    exact ⟨rfl, fun _ => rfl, fun hn => absurd h hn, rfl, rfl, rfl, rfl⟩
  · have hr : RomNational.readMem R S s address time
        = (RomNational.peekMem R S s address time, s) := by
      simp only [RomNational.readMem, if_neg h]
    rw [hr]
    exact ⟨rfl, fun hp => absurd hp h, fun _ => rfl, rfl, rfl, rfl, rfl⟩

/-- Witness of `readMem_eq_peekMem_national`: the read of 0x7FFD on the
cartridge `sample` returns the SRAM byte 0x77 at 0x234 and steps `sramAddr` from
0x1234 to 0x1235. -/
theorem readMem_eq_peekMem_national_witness :
    RomNational.peekMem listBlocks functionSRAM RomNational.sample 0x7FFD 0 = 0x77 ∧
    (RomNational.readMem listBlocks functionSRAM RomNational.sample 0x7FFD 0).2
      = { RomNational.sample with sramAddr := 0x1234 + 1 } :=
  ⟨by decide,
   (readMem_eq_peekMem_national listBlocks functionSRAM RomNational.sample 0x7FFD 0).2.1
     (by decide)⟩

theorem RomNational.high_constants :
    (0x6000 : Nat) &&& CacheLine.HIGH = 0x6000 ∧ (0x6400 : Nat) &&& CacheLine.HIGH = 0x6400 ∧
    (0x7000 : Nat) &&& CacheLine.HIGH = 0x7000 ∧ (0x7400 : Nat) &&& CacheLine.HIGH = 0x7400 ∧
    (0x7FF9 : Nat) &&& CacheLine.HIGH = 0x7F00 ∧ (0x3FFA : Nat) &&& CacheLine.HIGH = 0x3F00 ∧
    (0x3FF0 : Nat) &&& CacheLine.HIGH = 0x3F00 := by
  decide

theorem RomNational.readback_block (address : Nat) (h : address &&& 0x7FF9 = 0x7FF0) :
    0x3F00 ≤ address % 0x4000 := by
  apply (YamahaFDC.trapped_block_iff address).1
  have h1 : (0x3FFF : Nat) &&& CacheLine.HIGH = 0x7FF9 &&& 0x3F00 := by decide
  have h2 : (0x7FF0 : Nat) &&& 0x3F00 = 0x3FC0 &&& CacheLine.HIGH := by decide
  rw [Nat.and_assoc, h1, ← Nat.and_assoc, h, h2]

/-- C27: cache-line soundness of `RomNational`.  For every 256-byte-aligned
16-bit address `a` for which `getWriteCacheLine(a)` returns a pointer, `writeMem`
at any address `a + i` of the line, for any value and any state (so any
`control`), leaves the whole state (`control`, `bankSelect`, `sramAddr`, SRAM,
bank mapping) as it was; and `getReadCacheLine(a)` returns `NULL` for every
aligned `a` whose block contains an address with
`(address & 0x7FF9) == 0x7FF0` or `(address & 0x3FFF) == 0x3FFD`. -/
theorem national_cache_lines_sound {ρ π τ : Type} (R : Rom16kBBlocks ρ π) (S : SRAM τ)
    (s : RomNational ρ τ) (a i address : Nat) (value : byte) (time : EmuTime)
    (p : WriteCacheLine) (ha : a < 0x10000) (halign : a % 256 = 0) :
    (RomNational.getWriteCacheLine s a = some p → i < 256 →
      RomNational.writeMem R S s (a + i) value time = s) ∧
    (address / 256 = a / 256 →
      (address &&& 0x7FF9 = 0x7FF0 ∨ address &&& 0x3FFF = 0x3FFD) →
      RomNational.getReadCacheLine R s a = none) := by
  obtain ⟨c0, c1, c2, c3, c4, c5, c6⟩ := RomNational.high_constants
  constructor
  · intro hp hi
    unfold RomNational.getWriteCacheLine at hp
    rw [c0, c1, c2, c3, c4, c5] at hp
    by_cases h1 : a = 0x6000 ∨ a = 0x6400 ∨ a = 0x7000 ∨ a = 0x7400 ∨ a = 0x7F00
    · simp [if_pos h1] at hp
    · rw [if_neg h1] at hp
      by_cases h2 : a &&& 0x3FFF = 0x3F00
      · simp [if_pos h2] at hp
      · have ha2 := YamahaFDC.offset_eq_mod a
        have hai := YamahaFDC.offset_eq_mod (a + i)
        have e0 : ¬ a + i = 0x6000 := by omega
        have e1 : ¬ a + i = 0x6400 := by omega
        have e2 : ¬ a + i = 0x7000 := by omega
        have e3 : ¬ a + i = 0x7400 := by omega
        have e4 : ¬ a + i = 0x7FF9 := by omega
        have f0 : ¬ (a + i) &&& 0x3FFF = 0x3FFA := by omega
        have f1 : ¬ (a + i) &&& 0x3FFF = 0x3FFB := by omega
        have f2 : ¬ (a + i) &&& 0x3FFF = 0x3FFC := by omega
        have f3 : ¬ (a + i) &&& 0x3FFF = 0x3FFD := by omega
        simp only [RomNational.writeMem, if_neg e0, if_neg e1, if_neg e2, if_neg e3, if_neg e4,
          if_neg f0, if_neg f1, if_neg f2, if_neg f3, ite_self]
  · intro hblock haddr
    have hhigh : 0x3F00 ≤ address % 0x4000 := by
      rcases haddr with h | h
      · exact RomNational.readback_block address h
      · have := YamahaFDC.offset_eq_mod address
        omega
    have ha2 := YamahaFDC.offset_eq_mod a
    have hline : 0x3FF0 &&& CacheLine.HIGH = a &&& 0x3FFF := by
      rw [c6]
      omega
    simp only [RomNational.getReadCacheLine, if_pos hline]

/-- Witness of `national_cache_lines_sound`: 0x6100 has a write line and a write
to 0x61FF leaves the cartridge `sample` as it was; the line at 0x7F00, the block
of the read-back address 0x7FF2, has no read line. -/
theorem national_cache_lines_sound_witness :
    RomNational.writeMem listBlocks functionSRAM RomNational.sample (0x6100 + 0xFF) 0x5A 0
      = RomNational.sample ∧
    RomNational.getReadCacheLine listBlocks RomNational.sample 0x7F00 = none :=
  ⟨(national_cache_lines_sound listBlocks functionSRAM RomNational.sample 0x6100 0xFF 0x6100 0x5A 0
      WriteCacheLine.unmappedWrite (by decide) (by decide)).1 (by decide) (by decide),
   (national_cache_lines_sound listBlocks functionSRAM RomNational.sample 0x7F00 0 0x7FF2 0x5A 0
      WriteCacheLine.unmappedWrite (by decide) (by decide)).2 (by decide) (Or.inl (by decide))⟩

/-- C10 (as stated, refuted): in every state each `get` accessor of `toggleChip`
returns what the matching `peek` accessor returns, yet on the controller `idle`
`peekMem(0x7FE0)` returns 0x02 and `readMem(0x7FE0)` returns 0x42: `readMem`
reads the DTRQ line after `getIRQ`, which has changed it. -/
theorem peekMem_ne_readMem_counterexample :
    (∀ c t, (toggleChip.getStatusReg c t).1 = toggleChip.peekStatusReg c t) ∧
    (∀ c t, (toggleChip.getTrackReg c t).1 = toggleChip.peekTrackReg c t) ∧
    (∀ c t, (toggleChip.getSectorReg c t).1 = toggleChip.peekSectorReg c t) ∧
    (∀ c t, (toggleChip.getDataReg c t).1 = toggleChip.peekDataReg c t) ∧
    (∀ c t, (toggleChip.getIRQ c t).1 = toggleChip.peekIRQ c t) ∧
    (∀ c t, (toggleChip.getDTRQ c t).1 = toggleChip.peekDTRQ c t) ∧
    YamahaFDC.peekMem toggleChip latchDrives YamahaFDC.idle 0x7FE0 0 = 0x02 ∧
    (YamahaFDC.readMem toggleChip latchDrives YamahaFDC.idle 0x7FE0 0).1 = 0x42 :=
  ⟨fun _ _ => rfl, fun _ _ => rfl, fun _ _ => rfl, fun _ _ => rfl, fun _ _ => rfl,
    fun _ _ => rfl, by decide, by decide⟩

/-- C10 (amended): for every address and every state of the controller,
`peekMem(address)` (a function of the state alone, built from `peek*`,
`isDiskInserted`, `peekDiskChanged` and ROM indexing) returns the byte that
`readMem(address)` returns in that state, provided each chip `peek` accessor
returns what the matching `get` accessor returns in the same state and `getIRQ`
leaves the DTRQ line, as `peekDTRQ` reports it, unchanged. -/
theorem peekMem_eq_readMem_steady {κ μ : Type} (C : WD2793 κ) (M : DriveMultiplexer μ)
    (s : YamahaFDC κ μ) (address : word) (time : EmuTime)
    (hStatus : ∀ c t, (C.getStatusReg c t).1 = C.peekStatusReg c t)
    (hTrack : ∀ c t, (C.getTrackReg c t).1 = C.peekTrackReg c t)
    (hSector : ∀ c t, (C.getSectorReg c t).1 = C.peekSectorReg c t)
    (hData : ∀ c t, (C.getDataReg c t).1 = C.peekDataReg c t)
    (hIRQ : ∀ c t, (C.getIRQ c t).1 = C.peekIRQ c t)
    (hDTRQ : ∀ c t, (C.getDTRQ c t).1 = C.peekDTRQ c t)
    (hLine : ∀ c t, C.peekDTRQ (C.getIRQ c t).2 t = C.peekDTRQ c t) :
    YamahaFDC.peekMem C M s address time = (YamahaFDC.readMem C M s address time).1 := by
  have hAfter : ∀ c t, (C.getDTRQ (C.getIRQ c t).2 t).1 = C.peekDTRQ c t := by
    intro c t
    rw [hDTRQ, hLine]
  unfold YamahaFDC.readMem
  by_cases h0 : address &&& 0x3FFF = 0x3FC0
  · simp only [YamahaFDC.peekMem, if_pos h0, hStatus]
  by_cases h1 : address &&& 0x3FFF = 0x3FC1
  · simp only [YamahaFDC.peekMem, if_neg h0, if_pos h1, hTrack]
  by_cases h2 : address &&& 0x3FFF = 0x3FC2
  · simp only [YamahaFDC.peekMem, if_neg h0, if_neg h1, if_pos h2, hSector]
  by_cases h3 : address &&& 0x3FFF = 0x3FC3
  · simp only [YamahaFDC.peekMem, if_neg h0, if_neg h1, if_neg h2, if_pos h3, hData]
  by_cases h4 : address &&& 0x3FFF = 0x3FE0
  · simp only [YamahaFDC.peekMem, if_neg h0, if_neg h1, if_neg h2, if_neg h3, if_pos h4, hIRQ,
      hAfter]
  by_cases h5 : address &&& 0x3FFF = 0x3FF0
  · simp only [YamahaFDC.peekMem, if_neg h0, if_neg h1, if_neg h2, if_neg h3, if_neg h4,
      if_pos h5, YamahaFDC.peekMem.rom]
  · simp only [if_neg h0, if_neg h1, if_neg h2, if_neg h3, if_neg h4, if_neg h5]

/-- Witness of `peekMem_eq_readMem_steady`: the status byte at 0x7FE0 of the
controller `sample` is 0xCE for both, and the read of the acknowledge strobe
0x7FF0 returns the ROM byte that the peek returns. -/
theorem peekMem_eq_readMem_steady_witness :
    YamahaFDC.peekMem counterChip latchDrives YamahaFDC.sample 0x7FE0 0 = 0xCE ∧
    ( YamahaFDC.readMem counterChip latchDrives YamahaFDC.sample 0x7FE0 0).1 = 0xCE ∧
    YamahaFDC.peekMem counterChip latchDrives YamahaFDC.sample 0x7FF0 0
      = ( YamahaFDC.readMem counterChip latchDrives YamahaFDC.sample 0x7FF0 0).1 :=
  ⟨by decide,
   (peekMem_eq_readMem_steady counterChip latchDrives YamahaFDC.sample 0x7FE0 0 (fun _ _ => rfl)
      (fun _ _ => rfl) (fun _ _ => rfl) (fun _ _ => rfl) (fun _ _ => rfl) (fun _ _ => rfl)
      (fun _ _ => rfl)).symm.trans (by decide),
   peekMem_eq_readMem_steady counterChip latchDrives YamahaFDC.sample 0x7FF0 0 (fun _ _ => rfl)
      (fun _ _ => rfl) (fun _ _ => rfl) (fun _ _ => rfl) (fun _ _ => rfl) (fun _ _ => rfl)
      (fun _ _ => rfl)⟩

theorem YamahaFDC.statusByte_low (a b c d e f : Bool) :
    YamahaFDC.statusByte a b c d e f &&& 0x0F = YamahaFDC.statusByte a b c d false false := by
  cases a <;> cases b <;> cases c <;> cases d <;> cases e <;> cases f <;> decide

/-- C11 (as stated, refuted): two consecutive status reads need not return
identical values.  On the controller `idle` two `readMem(0x7FE0)` calls at the
same time return 0x42 and then 0x02, and on the controller `timed` the
`peekMem(0x7FE0)` calls at times 0 and 9 return 0x0E and 0xCE: the two request
bits of the status byte are lines of the chip, which can change between the
calls. -/
theorem status_reads_differ_counterexample :
    (YamahaFDC.readMem toggleChip latchDrives YamahaFDC.idle 0x7FE0 0).1 = 0x42 ∧
    (YamahaFDC.readMem toggleChip latchDrives
      (YamahaFDC.readMem toggleChip latchDrives YamahaFDC.idle 0x7FE0 0).2 0x7FE0 0).1 = 0x02 ∧
    YamahaFDC.peekMem timedChip latchDrives YamahaFDC.timed 0x7FE0 0 = 0x0E ∧
    YamahaFDC.peekMem timedChip latchDrives YamahaFDC.timed 0x7FE0 9 = 0xCE := by
  decide

/-- C11 (amended): disk-change latches of the `YamahaFDC`, given that
`diskChanged(d)` clears the latch of drive `d` and leaves the latch of the other
drive.  A `readMem` at the status offset 0x3FE0 leaves the multiplexer, so every
latch, as it was (`peekMem` is a function of the state); two consecutive
`peekMem` calls, and two consecutive `readMem` calls, return values that agree
in the drive-ready and disk-changed bits (mask 0x0F), and identical values when
the chip reports the same IRQ and DTRQ lines to both calls; a `peekMem` shows
the bits 0x0F that a `readMem` shows.  After a `readMem` at the strobe offset
0x3FF0 a status read has bit 0x08 (drive B) clear and bit 0x04 (drive A) as
before; after a `writeMem` at 0x3FF0 it has bit 0x04 clear and bit 0x08 as
before. -/
theorem disk_change_latch_bits {κ μ : Type} (C : WD2793 κ) (K : WD2793Commands κ)
    (M : DriveMultiplexer μ) (N : DriveControls μ) (s : YamahaFDC κ μ) (address strobe : word)
    (value : byte) (t1 t2 : EmuTime)
    (ha : address &&& 0x3FFF = 0x3FE0) (hs : strobe &&& 0x3FFF = 0x3FF0)
    (hclear : ∀ m d, M.peekDiskChanged (M.diskChanged m d).2 d = false)
    (hother : ∀ m d d', d' ≠ d →
      M.peekDiskChanged (M.diskChanged m d).2 d' = M.peekDiskChanged m d') :
    (YamahaFDC.readMem C M s address t1).2.multiplexer = s.multiplexer ∧
    YamahaFDC.peekMem C M s address t1 &&& 0x0F = YamahaFDC.peekMem C M s address t2 &&& 0x0F ∧
    (C.peekIRQ s.controller t1 = C.peekIRQ s.controller t2 →
      C.peekDTRQ s.controller t1 = C.peekDTRQ s.controller t2 →
      YamahaFDC.peekMem C M s address t1 = YamahaFDC.peekMem C M s address t2) ∧
    (YamahaFDC.readMem C M (YamahaFDC.readMem C M s address t1).2 address t2).1 &&& 0x0F
      = (YamahaFDC.readMem C M s address t1).1 &&& 0x0F ∧
    ((C.getIRQ (YamahaFDC.readMem C M s address t1).2.controller t2).1
        = (C.getIRQ s.controller t1).1 →
      (C.getDTRQ (C.getIRQ (YamahaFDC.readMem C M s address t1).2.controller t2).2 t2).1
        = (C.getDTRQ (C.getIRQ s.controller t1).2 t1).1 →
      (YamahaFDC.readMem C M (YamahaFDC.readMem C M s address t1).2 address t2).1
        = (YamahaFDC.readMem C M s address t1).1) ∧
    YamahaFDC.peekMem C M s address t1 &&& 0x0F = (YamahaFDC.readMem C M s address t1).1 &&& 0x0F ∧
    (YamahaFDC.readMem C M (YamahaFDC.readMem C M s strobe t1).2 address t2).1 &&& 0x08 = 0 ∧
    (YamahaFDC.readMem C M (YamahaFDC.readMem C M s strobe t1).2 address t2).1 &&& 0x04
      = (YamahaFDC.readMem C M s address t2).1 &&& 0x04 ∧
    (YamahaFDC.readMem C M (YamahaFDC.writeMem K M N s strobe value t1) address t2).1 &&& 0x04 = 0 ∧
    (YamahaFDC.readMem C M (YamahaFDC.writeMem K M N s strobe value t1) address t2).1 &&& 0x08
      = (YamahaFDC.readMem C M s address t2).1 &&& 0x08 := by
  have hAB : DriveNum.DRIVE_A ≠ DriveNum.DRIVE_B := by decide
  have hBA : DriveNum.DRIVE_B ≠ DriveNum.DRIVE_A := by decide
  refine ⟨?_, ?_, ?_, ?_, ?_, ?_, ?_, ?_, ?_, ?_⟩
  · rw [YamahaFDC.readMem_status C M s address t1 ha]
  · rw [YamahaFDC.peekMem_status C M s address t1 ha, YamahaFDC.peekMem_status C M s address t2 ha,
      YamahaFDC.statusByte_low, YamahaFDC.statusByte_low]
  · intro hirq hdtrq
    rw [YamahaFDC.peekMem_status C M s address t1 ha, YamahaFDC.peekMem_status C M s address t2 ha,
      hirq, hdtrq]
  · rw [YamahaFDC.readMem_status C M _ address t2 ha, YamahaFDC.readMem_status C M s address t1 ha,
      YamahaFDC.statusByte_low, YamahaFDC.statusByte_low]
  · rw [YamahaFDC.readMem_status C M _ address t2 ha, YamahaFDC.readMem_status C M s address t1 ha]
    intro hirq hdtrq
    simp only at hirq hdtrq ⊢
    rw [hirq, hdtrq]
  · rw [YamahaFDC.peekMem_status C M s address t1 ha, YamahaFDC.readMem_status C M s address t1 ha,
      YamahaFDC.statusByte_low, YamahaFDC.statusByte_low]
  · rw [YamahaFDC.readMem_strobe C M s strobe t1 hs, YamahaFDC.readMem_status C M _ address t2 ha]
    simp only [(YamahaFDC.statusByte_changed _ _ _ _ _ _).2.1, hclear]
    rfl
  · rw [YamahaFDC.readMem_strobe C M s strobe t1 hs, YamahaFDC.readMem_status C M _ address t2 ha,
      YamahaFDC.readMem_status C M s address t2 ha]
    simp only [(YamahaFDC.statusByte_changed _ _ _ _ _ _).1, hother _ _ _ hAB]
  · rw [YamahaFDC.writeMem_strobe K M N s strobe value t1 hs,
      YamahaFDC.readMem_status C M _ address t2 ha]
    simp only [(YamahaFDC.statusByte_changed _ _ _ _ _ _).1, hclear]
    rfl
  · rw [YamahaFDC.writeMem_strobe K M N s strobe value t1 hs,
      YamahaFDC.readMem_status C M _ address t2 ha, YamahaFDC.readMem_status C M s address t2 ha]
    simp only [(YamahaFDC.statusByte_changed _ _ _ _ _ _).2.1, hother _ _ _ hBA]

/-- Witness of `disk_change_latch_bits`: on the controller `sample`, both latches
set, the status byte 0xCE at 0x7FE0 reads 0xC6 after a read of 0x7FF0 and 0xCA
after a write to 0x7FF0. -/
theorem disk_change_latch_bits_witness :
    ( YamahaFDC.readMem counterChip latchDrives YamahaFDC.sample 0x7FE0 0).1 = 0xCE ∧
    ( YamahaFDC.readMem counterChip latchDrives
        (YamahaFDC.readMem counterChip latchDrives YamahaFDC.sample 0x7FF0 0).2 0x7FE0 0).1 = 0xC6 ∧
    ( YamahaFDC.readMem counterChip latchDrives
        (YamahaFDC.writeMem counterCommands latchDrives latchControls YamahaFDC.sample 0x7FF0 0 0)
        0x7FE0 0).1 = 0xCA ∧
    ( YamahaFDC.readMem counterChip latchDrives
        (YamahaFDC.readMem counterChip latchDrives YamahaFDC.sample 0x7FF0 0).2 0x7FE0 0).1 &&& 0x08
      = 0 :=
  ⟨by decide, by decide, by decide,
   (disk_change_latch_bits counterChip counterCommands latchDrives latchControls YamahaFDC.sample
      0x7FE0 0x7FF0 0 0 0 (by decide) (by decide)
      (by intro m d; cases d <;> rfl)
      (by intro m d d' h; cases d <;> cases d' <;> first | rfl | exact absurd rfl h)).2.2.2.2.2.2.1⟩

theorem BusCall.run_unregister_loop_owned (n : Nat) (port : Nat) (this : DevicePtr)
    (b b' : MSXMotherBoard)
    (hrun : BusCall.run (MSXDeviceSwitch.unregisterDevice.loop n port this) b = some b') :
    ∀ p, port ≤ p → p < port + n → b.IO_In p = this ∧ b.IO_Out p = this := by
  induction n generalizing port b with
  | zero =>
    intro p h1 h2
    omega
  | succ n ih =>
    by_cases hout : b.IO_Out port = this
    · by_cases hin : b.IO_In port = this
      · simp only [MSXDeviceSwitch.unregisterDevice.loop, BusCall.run, BusCall.apply,
          MSXMotherBoard.unregister_IO_Out, MSXMotherBoard.unregister_IO_In, hout, hin,
          if_true] at hrun
        intro p h1 h2
        by_cases hpp : p = port
        · subst hpp
          exact ⟨hin, hout⟩
        · have hrest := ih (port + 1) _ hrun p (by omega) (by omega)
          simpa [Function.update, hpp] using hrest
      · simp [MSXDeviceSwitch.unregisterDevice.loop, BusCall.run, BusCall.apply,
          MSXMotherBoard.unregister_IO_Out, MSXMotherBoard.unregister_IO_In, hout, hin] at hrun
    · simp [MSXDeviceSwitch.unregisterDevice.loop, BusCall.run, BusCall.apply,
        MSXMotherBoard.unregister_IO_Out, hout] at hrun

theorem BusCall.run_unregister_window (this : DevicePtr) (b : MSXMotherBoard) :
    BusCall.run (MSXDeviceSwitch.unregisterDevice.loop 16 0x40 this) b = none ↔
      ¬ b.WindowHeld this := by
  constructor
  · intro hnone hheld
    obtain ⟨b', hrun, _⟩ := BusCall.run_unregister_loop 16 0x40 this b
      (fun p h1 h2 => hheld p h1 (by omega))
    rw [hnone] at hrun
    exact absurd hrun (by simp)
  · intro hnot
    cases hrun : BusCall.run (MSXDeviceSwitch.unregisterDevice.loop 16 0x40 this) b with
    | none => rfl
    | some b' =>
      exact absurd
        (fun p h1 h2 => BusCall.run_unregister_loop_owned 16 0x40 this b b' hrun p h1 (by omega))
        hnot

/-- C18 (as stated, refuted): on the bus `takenBoard`, whose In-port 0x40
belongs to another device, the switch `dev 1` registers sub-device 50 at id 5 and
the call returns with entry 5 set; the `unregisterDevice(5)` that follows is
fatal although id 5 is registered, because the release of In-port 0x40, made
before the assertion, is refused by the bus. -/
theorem unregisterDevice_registered_fatal_counterexample :
    (SwitchOp.run (DevicePtr.dev 1) [SwitchOp.register 5 50]
        (MSXDeviceSwitch.ctor, MSXMotherBoard.takenBoard)).map (fun st => st.1.devices 5)
      = some (some 50) ∧
    (SwitchOp.run (DevicePtr.dev 1) [SwitchOp.register 5 50]
        (MSXDeviceSwitch.ctor, MSXMotherBoard.takenBoard)).bind
      (SwitchOp.apply (DevicePtr.dev 1) (SwitchOp.unregister 5)) = none := by
  constructor <;> rfl

/-- C18 (amended): `unregisterDevice(id)`, its calls on the bus carried out on
the bus `b`.  It is fatal if and only if no sub-device is registered at `id`, or
`count` drops to 0 and the switch does not own every port of the window
0x40..0x4F (the bus refuses the release of such a port); the assertion of the
method itself fails exactly when no sub-device is registered at `id`.  When `id`
is registered and `count` does not drop to 0 the call returns and the bus is as
before; when `id` is registered, `count` drops to 0 and the switch owns the
window, the call returns and the window is free.  Whenever it returns, entry
`id` is cleared, every other entry and the selector are unchanged and `count` is
one less. -/
theorem unregisterDevice_fatal_iff (sw : MSXDeviceSwitch) (this : DevicePtr) (id : byte)
    (b : MSXMotherBoard) :
    (SwitchOp.apply this (SwitchOp.unregister id) (sw, b) = none ↔
      sw.devices id = none ∨ (sw.count - 1 = 0 ∧ ¬ b.WindowHeld this)) ∧
    (sw.unregisterDevice this id = none ↔ sw.devices id = none) ∧
    (sw.devices id ≠ none → sw.count - 1 ≠ 0 →
      SwitchOp.apply this (SwitchOp.unregister id) (sw, b)
        = some ({ devices := Function.update sw.devices id none
                  count := sw.count - 1
                  selected := sw.selected }, b)) ∧
    (sw.devices id ≠ none → sw.count - 1 = 0 → b.WindowHeld this →
      ∃ b', SwitchOp.apply this (SwitchOp.unregister id) (sw, b)
          = some ({ devices := Function.update sw.devices id none
                    count := sw.count - 1
                    selected := sw.selected }, b') ∧
        b'.WindowFree) ∧
    (∀ sw' b', SwitchOp.apply this (SwitchOp.unregister id) (sw, b) = some (sw', b') →
      sw'.devices id = none ∧ (∀ j, j ≠ id → sw'.devices j = sw.devices j) ∧
      sw'.selected = sw.selected ∧ sw'.count = sw.count - 1) := by
  rw [← BusCall.run_unregister_window this b]
  cases h : sw.devices id with
  | none =>
    simp [SwitchOp.apply, SwitchOp.step, MSXDeviceSwitch.unregisterDevice, h]
  | some d =>
    have hstep : sw.unregisterDevice this id
        = some ({ devices := Function.update sw.devices id none
                  count := sw.count - 1
                  selected := sw.selected },
                if sw.count - 1 = 0 then MSXDeviceSwitch.unregisterDevice.loop 16 0x40 this
                else []) := by
      simp only [MSXDeviceSwitch.unregisterDevice, h, Option.isSome_some, if_true]
    refine ⟨?_, by simp [hstep], ?_, ?_, ?_⟩
    · simp only [SwitchOp.apply, SwitchOp.step, hstep, false_or, reduceCtorEq]
      by_cases hc : sw.count - 1 = 0
      · simp only [hc, if_true, true_and]
        cases hrun : BusCall.run (MSXDeviceSwitch.unregisterDevice.loop 16 0x40 this) b <;> simp
      · simp [hc, BusCall.run]
    · intro _ hc
      simp [SwitchOp.apply, SwitchOp.step, hstep, hc, BusCall.run]
    · intro _ hc hheld
      obtain ⟨b', hrun, hwin, _⟩ := BusCall.run_unregister_loop 16 0x40 this b
        (fun p h1 h2 => hheld p h1 (by omega))
      refine ⟨b', ?_, fun p h1 h2 => hwin p h1 (by omega)⟩
      simp only [SwitchOp.apply, SwitchOp.step, hstep, hc, if_true, hrun]
    · intro sw' b' hs
      simp only [SwitchOp.apply, SwitchOp.step, hstep] at hs
      split at hs
      · simp only [Option.some.injEq, Prod.mk.injEq] at hs
        obtain ⟨hs, _⟩ := hs
        subst hs
        refine ⟨by simp, ?_, rfl, rfl⟩
        intro j hj
        simp [Function.update, hj]
      · exact absurd hs (by simp)

/-- Witness of `unregisterDevice_fatal_iff`: id 5, the only id of `oneDevice`, is
unregistered by the switch `dev 1` on the bus `windowBoard`, whose window it
owns; the call returns, entry 5 is cleared and the window is free. -/
theorem unregisterDevice_fatal_iff_witness :
    ∃ b', SwitchOp.apply (DevicePtr.dev 1) (SwitchOp.unregister 5)
          (MSXDeviceSwitch.oneDevice, MSXMotherBoard.windowBoard)
        = some ({ devices := Function.update MSXDeviceSwitch.oneDevice.devices 5 none
                  count := MSXDeviceSwitch.oneDevice.count - 1
                  selected := MSXDeviceSwitch.oneDevice.selected }, b') ∧
      b'.WindowFree :=
  (unregisterDevice_fatal_iff MSXDeviceSwitch.oneDevice (DevicePtr.dev 1) 5
      MSXMotherBoard.windowBoard).2.2.2.1 (by decide) (by decide)
    (fun p h1 h2 => by
      have hp : p = 0x40 ∨ p = 0x41 ∨ p = 0x42 ∨ p = 0x43 ∨ p = 0x44 ∨ p = 0x45 ∨ p = 0x46 ∨
          p = 0x47 ∨ p = 0x48 ∨ p = 0x49 ∨ p = 0x4A ∨ p = 0x4B ∨ p = 0x4C ∨ p = 0x4D ∨
          p = 0x4E ∨ p = 0x4F := by omega
      rcases hp with h | h | h | h | h | h | h | h | h | h | h | h | h | h | h | h <;>
        subst h <;> exact ⟨rfl, rfl⟩)

theorem SwitchOp.step_tracks (this : DevicePtr) (op : SwitchOp) (sw : MSXDeviceSwitch)
    (r : MSXDeviceSwitch × List BusCall) (hstep : op.step this sw = some r) (ops : List SwitchOp) :
    SwitchOp.registeredAfter (op :: ops) (fun j => (sw.devices j).isSome)
      = SwitchOp.registeredAfter ops (fun j => (r.1.devices j).isSome) := by
  cases op with
  | register id device =>
    simp only [SwitchOp.step, Option.some.injEq] at hstep
    subst hstep
    simp only [SwitchOp.registeredAfter]
    have hf : Function.update (fun j => (sw.devices j).isSome) id true
        = fun j => ((sw.registerDevice this id (some device)).2.1.devices j).isSome := by
      funext j
      cases hdev : sw.devices id with
      | some d =>
        by_cases hj : j = id
        · subst hj
          simp [MSXDeviceSwitch.registerDevice, hdev]
        · simp [MSXDeviceSwitch.registerDevice, hdev, Function.update, hj]
      | none =>
        by_cases hj : j = id
        · subst hj
          simp [MSXDeviceSwitch.registerDevice, hdev]
        · simp [MSXDeviceSwitch.registerDevice, hdev, Function.update, hj]
    rw [hf]
  | unregister id =>
    simp only [SwitchOp.step] at hstep
    simp only [SwitchOp.registeredAfter]
    have hf : Function.update (fun j => (sw.devices j).isSome) id false
        = fun j => (r.1.devices j).isSome := by
      funext j
      cases hdev : sw.devices id with
      | none => simp [MSXDeviceSwitch.unregisterDevice, hdev] at hstep
      | some d =>
        simp only [MSXDeviceSwitch.unregisterDevice, hdev, Option.isSome_some, if_true,
          Option.some.injEq] at hstep
        subst hstep
        by_cases hj : j = id
        · subst hj
          simp
        · simp [Function.update, hj]
    rw [hf]

theorem SwitchOp.run_tracks (this : DevicePtr) (ops : List SwitchOp) (sw : MSXDeviceSwitch)
    (b : MSXMotherBoard) (sw' : MSXDeviceSwitch) (b' : MSXMotherBoard)
    (hrun : SwitchOp.run this ops (sw, b) = some (sw', b')) (i : Nat) :
    (sw'.devices i).isSome = SwitchOp.registeredAfter ops (fun j => (sw.devices j).isSome) i := by
  induction ops generalizing sw b with
  | nil =>
    simp only [SwitchOp.run, Option.some.injEq, Prod.mk.injEq] at hrun
    rw [hrun.1]
    rfl
  | cons op ops ih =>
    cases hstep : op.step this sw with
    | none => simp [SwitchOp.run, SwitchOp.apply, hstep] at hrun
    | some r =>
      cases hbus : BusCall.run r.2 b with
      | none => simp [SwitchOp.run, SwitchOp.apply, hstep, hbus] at hrun
      | some b1 =>
        simp only [SwitchOp.run, SwitchOp.apply, hstep, hbus] at hrun
        rw [SwitchOp.step_tracks this op sw r hstep ops]
        exact ih r.1 b1 hrun

theorem SwitchOp.sample_admissible :
    SwitchOp.Admissible (DevicePtr.dev 1) SwitchOp.sample MSXDeviceSwitch.ctor := by
  simp [SwitchOp.sample, SwitchOp.Admissible, SwitchOp.step, SwitchOp.id,
    MSXDeviceSwitch.registerDevice, MSXDeviceSwitch.unregisterDevice, MSXDeviceSwitch.ctor,
    Function.update]

/-- C25 (as stated, refuted): the invariant does not hold on every bus.  On the
bus `takenBoard`, whose In-port 0x40 belongs to the device `dev 2`, the new
switch `dev 1` registers sub-device 50 at id 5: `count` is 1, yet the switch does
not hold the window, In-port 0x40 still being owned by `dev 2`; and the
sequence that then unregisters the registered id 5 does not run to its end. -/
theorem switch_window_not_held_counterexample :
    (∃ sw b, SwitchOp.run (DevicePtr.dev 1) [SwitchOp.register 5 50]
        (MSXDeviceSwitch.ctor, MSXMotherBoard.takenBoard) = some (sw, b) ∧
      sw.count = 1 ∧ b.IO_In 0x40 = DevicePtr.dev 2 ∧ ¬ b.WindowHeld (DevicePtr.dev 1)) ∧
    SwitchOp.Admissible (DevicePtr.dev 1) [SwitchOp.register 5 50, SwitchOp.unregister 5]
      MSXDeviceSwitch.ctor ∧
    SwitchOp.run (DevicePtr.dev 1) [SwitchOp.register 5 50, SwitchOp.unregister 5]
      (MSXDeviceSwitch.ctor, MSXMotherBoard.takenBoard) = none := by
  refine ⟨⟨_, _, rfl, rfl, rfl, ?_⟩, ?_, rfl⟩
  · intro h
    exact absurd (h 0x40 (by decide) (by decide)).1 (by decide)
  · simp [SwitchOp.Admissible, SwitchOp.step, SwitchOp.id, MSXDeviceSwitch.registerDevice,
      MSXDeviceSwitch.unregisterDevice, MSXDeviceSwitch.ctor, Function.update]

/-- C25 (amended): count invariant of `MSXDeviceSwitch`.  Starting from the
constructed switch (the object `dev m`) and a bus on which no port of the window
0x40..0x4F is claimed, every sequence of `registerDevice` calls (returning or
throwing) and of `unregisterDevice` calls on ids registered at the time runs to
its end; then `count` is the number of non-NULL entries of `devices`, entry `i`
is non-NULL exactly when the calls leave `i` registered, and the switch owns the
window on the bus exactly when `count > 0`; so once every registered id has been
unregistered, every entry is NULL, `count == 0` and the assertions of the
destructor hold. -/
theorem switch_count_invariant_free_bus (m : Nat) (b0 : MSXMotherBoard) (ops : List SwitchOp)
    (hfree : b0.WindowFree)
    (hadm : SwitchOp.Admissible (DevicePtr.dev m) ops MSXDeviceSwitch.ctor) :
    ∃ sw b, SwitchOp.run (DevicePtr.dev m) ops (MSXDeviceSwitch.ctor, b0) = some (sw, b) ∧
      sw.count = (((List.range 256).filter fun i => (sw.devices i).isSome).length : Int) ∧
      (∀ i, (sw.devices i).isSome = SwitchOp.registeredAfter ops (fun _ => false) i) ∧
      (b.WindowHeld (DevicePtr.dev m) ↔ 0 < sw.count) ∧
      ((∀ i, SwitchOp.registeredAfter ops (fun _ => false) i = false) →
        (∀ i, sw.devices i = none) ∧ sw.count = 0 ∧ sw.dtor = some ()) := by
  have hctor : MSXDeviceSwitch.ctor.CountInvariant := by
    unfold MSXDeviceSwitch.CountInvariant MSXDeviceSwitch.registeredIds MSXDeviceSwitch.ctor
    simp
  obtain ⟨sw, b, hrun, hcount, hheld, hfree'⟩ :=
    SwitchOp.run_invariant (DevicePtr.dev m) ops MSXDeviceSwitch.ctor b0 hadm hctor
      (fun h => absurd h (by decide)) (fun _ => hfree)
  have htrack : ∀ i, (sw.devices i).isSome = SwitchOp.registeredAfter ops (fun _ => false) i :=
    fun i => SwitchOp.run_tracks (DevicePtr.dev m) ops MSXDeviceSwitch.ctor b0 sw b hrun i
  have hnonneg : 0 ≤ sw.count := by
    unfold MSXDeviceSwitch.CountInvariant at hcount
    rw [hcount]
    exact Int.natCast_nonneg _
  refine ⟨sw, b, hrun, hcount, htrack, ⟨?_, hheld⟩, ?_⟩
  · intro hw
    by_contra hpos
    have h0 : sw.count = 0 := by omega
    have h1 := (hfree' h0 0x40 (by decide) (by decide)).1
    have h2 := (hw 0x40 (by decide) (by decide)).1
    rw [h2] at h1
    exact absurd h1 (by simp [DummyDevice.instance])
  · intro hnone
    have hall : ∀ i, sw.devices i = none := by
      intro i
      have hi := htrack i
      rw [hnone i] at hi
      cases hd : sw.devices i with
      | none => rfl
      | some d => simp [hd] at hi
    have h0 : sw.count = 0 := (MSXDeviceSwitch.count_zero_iff sw hcount).2 (fun i _ => hall i)
    refine ⟨hall, h0, ?_⟩
    have hallb : ((List.range 256).all fun i => (sw.devices i).isNone) = true := by
      rw [List.all_eq_true]
      intro i _
      rw [hall i]
      rfl
    simp only [MSXDeviceSwitch.dtor, hallb, h0, and_self, if_true]

/-- Witness of `switch_count_invariant_free_bus`: the sequence `sample`, which
unregisters both ids it registered, run by the switch object `dev 1` on the bus
of the machine `zero`, ends with every entry NULL, `count == 0` and the
assertions of the destructor holding. -/
theorem switch_count_invariant_free_bus_witness :
    ∃ sw b, SwitchOp.run (DevicePtr.dev 1) SwitchOp.sample
        (MSXDeviceSwitch.ctor, MSXMotherBoard.zero) = some (sw, b) ∧
      (∀ i, sw.devices i = none) ∧ sw.count = 0 ∧ sw.dtor = some () ∧
      ¬ b.WindowHeld (DevicePtr.dev 1) := by
  obtain ⟨sw, b, hrun, _, _, hheld, hend⟩ :=
    switch_count_invariant_free_bus 1 MSXMotherBoard.zero SwitchOp.sample
      (fun _ _ _ => ⟨rfl, rfl⟩) SwitchOp.sample_admissible
  have hnone : ∀ i, SwitchOp.registeredAfter SwitchOp.sample (fun _ => false) i = false := by
    intro i
    simp only [SwitchOp.sample, SwitchOp.registeredAfter, Function.update]
    by_cases h5 : i = 5 <;> by_cases h9 : i = 9 <;> simp [h5, h9]
  obtain ⟨hall, h0, hd⟩ := hend hnone
  exact ⟨sw, b, hrun, hall, h0, hd, fun hw => absurd (hheld.1 hw) (by omega)⟩
